import Mathlib

/-!
# The HTTP proxy connection handler of `listener/http/proxy.go`

A shallow embedding of `HandleConn`, `authenticate` and `responseWith`, and
theorems about them.

Modelling conventions.

* A connection is a *script*: the list of `Cycle`s the outside world plays
  against the handler.  Each cycle fixes what `ReadRequest` returns, the clock
  reading while the cycle runs, what the outbound client answers, and whether
  the write of that cycle succeeds.  Reading past the end of the script fails
  (end of stream), so the `for keepAlive` loop is a structural recursion on the
  script and every run terminates.
* Every action on the connection, the cache, the verifier, the log, the
  outbound client and the channel is recorded, in order, in a trace of `Event`s.
  The channel has two senders: `HandleConn` itself (line 54, a `push` event) and
  the outbound client, which `newClient(c.RemoteAddr(), in)` builds around the
  same channel (line 18); what the client sends during a call of `client.Do` is
  carried by the `roundTrip` event of that call.  A send is taken to complete.
* A Go pointer that may be nil is an `Option`; a run-time panic (nil
  dereference, write to a nil map, failed type assertion) is an explicit
  outcome.  The deferred `CloseIdleConnections` runs on every exit.
* Helpers of the package that live in other files (`ParseBasicProxyAuthorization`,
  `DecodeBasicProxyAuthorization`, `RemoveExtraHTTPHostPort`) and the process-wide
  authenticator are parameters, collected in `Env`.  `RemoveHopByHopHeaders` and
  the expiring cache are modelled from the specification, and say so.
* One worker is modelled: the cache changes only through the calls of this
  connection, and the authenticator does not change during a run.
* Strings are lists of code points; `strings.ToLower` is exact on every code
  point whose lower case is an ASCII letter.
-/

namespace Clash

/-! ## Go strings -/

/-- Go `unicode.ToLower` on one code point, restricted to what can matter for a
comparison with an ASCII word: the ASCII capitals, and the two non-ASCII code
points whose lower case is an ASCII letter (U+0130 gives `i`, U+212A gives `k`).
Every other code point is left as it is. -/
def lowerChar (c : Char) : Char :=
  if 65 ≤ c.toNat ∧ c.toNat ≤ 90 then Char.ofNat (c.toNat + 32)
  else if c.toNat = 0x130 then 'i'
  else if c.toNat = 0x212A then 'k'
  else c

/-- Go `strings.ToLower`. -/
def toLower (s : String) : String := ⟨s.data.map lowerChar⟩

/-- Go `unicode.IsSpace`. -/
def isSpace (c : Char) : Bool :=
  let n := c.toNat
  (9 ≤ n && n ≤ 13) || n == 32 || n == 0x85 || n == 0xA0 || n == 0x1680
    || (0x2000 ≤ n && n ≤ 0x200A) || n == 0x2028 || n == 0x2029 || n == 0x202F
    || n == 0x205F || n == 0x3000

/-- Go `strings.TrimSpace`. -/
def trimSpace (s : String) : String :=
  ⟨(((s.data.dropWhile isSpace).reverse).dropWhile isSpace).reverse⟩

/-! ## Go `http.Header` -/

/-- Go `textproto.validHeaderFieldByte`: the token characters of RFC 7230. -/
def validHeaderFieldByte (c : Char) : Bool :=
  let n := c.toNat
  (48 ≤ n && n ≤ 57) || (65 ≤ n && n ≤ 90) || (97 ≤ n && n ≤ 122)
    || [33, 35, 36, 37, 38, 39, 42, 43, 45, 46, 94, 95, 96, 124, 126].contains n

/-- The second loop of Go `textproto.canonicalMIMEHeaderKey`: upper case at the
start and after each dash, lower case elsewhere. -/
def canonicalize : Bool → List Char → List Char
  | _, [] => []
  | upper, c :: cs =>
    let n := c.toNat
    let c1 : Char :=
      if upper && (97 ≤ n && n ≤ 122) then Char.ofNat (n - 32)
      else if !upper && (65 ≤ n && n ≤ 90) then Char.ofNat (n + 32)
      else c
    c1 :: canonicalize (c1 == '-') cs

/-- Go `textproto.CanonicalMIMEHeaderKey`: a key with a character that is no
token character is returned unchanged. -/
def CanonicalMIMEHeaderKey (s : String) : String :=
  if s.data.all validHeaderFieldByte then ⟨canonicalize true s.data⟩ else s

/-- The entries of a header map: names with their value lists. -/
abbrev HeaderMap := List (String × List String)

/-- Go `http.Header`, a map that may be nil (`none`). -/
abbrev Header := Option HeaderMap

/-- The result of a Go call that may panic. -/
inductive Outcome (α : Type) where
  | ret (a : α)
  | panic (msg : String)
  deriving DecidableEq, Repr

/-- Go `Header.Get`: the first value under the canonical key, or the empty string. -/
def Header.Get (h : Header) (key : String) : String :=
  match h with
  | none => ""
  | some m =>
    match m.lookup (CanonicalMIMEHeaderKey key) with
    | some (v :: _) => v
    | _ => ""

/-- Go `Header.Set`: replaces the values under the canonical key; panics on the
nil map. -/
def Header.Set (h : Header) (key value : String) : Outcome Header :=
  match h with
  | none => .panic "assignment to entry in nil map"
  | some m =>
    .ret (some ((CanonicalMIMEHeaderKey key, [value]) ::
      m.filter (fun kv => kv.1 != CanonicalMIMEHeaderKey key)))

/-! ## Requests and responses -/

/-- The fields of Go `url.URL` the handler looks at. -/
structure URL where
  Scheme : String
  Host : String
  Path : String
  RawQuery : String
  deriving DecidableEq, Repr

/-- Go `http.Request`. -/
structure Request where
  Method : String
  URL : URL
  Proto : String
  Header : Header
  Body : String
  Host : String
  RequestURI : String
  RemoteAddr : String
  deriving DecidableEq, Repr

/-- Go `http.Response`. -/
structure Response where
  Status : String
  StatusCode : Int
  Proto : String
  ProtoMajor : Int
  ProtoMinor : Int
  Header : Header
  Body : String
  ContentLength : Int
  Close : Bool
  deriving DecidableEq, Repr

/-- Go `http.MethodConnect`. -/
def MethodConnect : String := "CONNECT"

/-- Go `http.StatusBadRequest`. -/
def StatusBadRequest : Int := 400
/-- Go `http.StatusForbidden`. -/
def StatusForbidden : Int := 403
/-- Go `http.StatusProxyAuthRequired`. -/
def StatusProxyAuthRequired : Int := 407
/-- Go `http.StatusBadGateway`. -/
def StatusBadGateway : Int := 502

/-- Go `http.StatusText`; the empty string for an unknown code. -/
def StatusText (code : Int) : String :=
  match code with
  | 100 => "Continue"
  | 101 => "Switching Protocols"
  | 102 => "Processing"
  | 103 => "Early Hints"
  | 200 => "OK"
  | 201 => "Created"
  | 202 => "Accepted"
  | 203 => "Non-Authoritative Information"
  | 204 => "No Content"
  | 205 => "Reset Content"
  | 206 => "Partial Content"
  | 207 => "Multi-Status"
  | 208 => "Already Reported"
  | 226 => "IM Used"
  | 300 => "Multiple Choices"
  | 301 => "Moved Permanently"
  | 302 => "Found"
  | 303 => "See Other"
  | 304 => "Not Modified"
  | 305 => "Use Proxy"
  | 307 => "Temporary Redirect"
  | 308 => "Permanent Redirect"
  | 400 => "Bad Request"
  | 401 => "Unauthorized"
  | 402 => "Payment Required"
  | 403 => "Forbidden"
  | 404 => "Not Found"
  | 405 => "Method Not Allowed"
  | 406 => "Not Acceptable"
  | 407 => "Proxy Authentication Required"
  | 408 => "Request Timeout"
  | 409 => "Conflict"
  | 410 => "Gone"
  | 411 => "Length Required"
  | 412 => "Precondition Failed"
  | 413 => "Request Entity Too Large"
  | 414 => "Request URI Too Long"
  | 415 => "Unsupported Media Type"
  | 416 => "Requested Range Not Satisfiable"
  | 417 => "Expectation Failed"
  | 418 => "I" ++ String.singleton (Char.ofNat 39) ++ "m a teapot"
  | 421 => "Misdirected Request"
  | 422 => "Unprocessable Entity"
  | 423 => "Locked"
  | 424 => "Failed Dependency"
  | 425 => "Too Early"
  | 426 => "Upgrade Required"
  | 428 => "Precondition Required"
  | 429 => "Too Many Requests"
  | 431 => "Request Header Fields Too Large"
  | 451 => "Unavailable For Legal Reasons"
  | 500 => "Internal Server Error"
  | 501 => "Not Implemented"
  | 502 => "Bad Gateway"
  | 503 => "Service Unavailable"
  | 504 => "Gateway Timeout"
  | 505 => "HTTP Version Not Supported"
  | 506 => "Variant Also Negotiates"
  | 507 => "Insufficient Storage"
  | 508 => "Loop Detected"
  | 510 => "Not Extended"
  | 511 => "Network Authentication Required"
  | _ => ""

/-- The function `responseWith` of proxy.go: a fresh response with the given
status code, its standard status text, protocol HTTP/1.1 and an empty, non-nil
header map; every other field has its zero value. -/
def responseWith (statusCode : Int) : Response :=
  { StatusCode := statusCode
    Status := StatusText statusCode
    Proto := "HTTP/1.1"
    ProtoMajor := 1
    ProtoMinor := 1
    Header := some []
    Body := ""
    ContentLength := 0
    Close := false }

/-! ## Collaborators that are not in proxy.go -/

/-- The nine hop-by-hop header names. -/
def hopByHopHeaders : List String :=
  ["Connection", "Keep-Alive", "Proxy-Authenticate", "Proxy-Authorization",
   "Proxy-Connection", "Te", "Trailer", "Transfer-Encoding", "Upgrade"]

/-- A header name with its ASCII capitals lower-cased, for comparing names
without regard to case. -/
def foldName (s : String) : String :=
  ⟨s.data.map (fun c =>
    if 65 ≤ c.toNat ∧ c.toNat ≤ 90 then Char.ofNat (c.toNat + 32) else c)⟩

/-- Modelled from the spec: `RemoveHopByHopHeaders` is defined in another file
of the package.  The spec (section 4.3) has it remove the fixed set
`hopByHopHeaders` from any header mapping, by name and without regard to case.
The map is changed in place, so the caller sees the result; the nil map stays
nil. -/
def RemoveHopByHopHeaders (h : Header) : Header :=
  h.map (fun m =>
    m.filter (fun kv => !(hopByHopHeaders.map foldName).contains (foldName kv.1)))

/-- A value of Go type `interface{}` as the credential cache holds it: a
boolean, or something else. -/
inductive Any where
  | bool (b : Bool)
  | other (tag : String)
  deriving DecidableEq, Repr

/-- Go `time.Minute`, in nanoseconds. -/
def Minute : Nat := 60 * 1000000000

/-- One cache entry: the stored value and the instant it expires. -/
structure Element where
  Payload : Any
  Expired : Nat
  deriving DecidableEq, Repr

/-- Modelled from the spec: the expiring cache of `common/cache` is not among
the sources.  The spec (sections 3, 5, 6) gives it `get(key) -> value|absent`
and `put(key, value, ttl)` with lazy expiry, a read past the time-to-live being
treated as absent.  Instants are clock readings in nanoseconds. -/
structure Cache where
  mapping : List (String × Element)
  deriving DecidableEq, Repr

/-- Modelled from the spec: `get(key) -> value|absent`; an entry read past its
expiry instant is absent. -/
def Cache.Get (c : Cache) (now : Nat) (key : String) : Option Any :=
  match c.mapping.lookup key with
  | none => none
  | some e => if now ≤ e.Expired then some e.Payload else none

/-- Modelled from the spec: `put(key, value, ttl)` stores the value under the
key, replacing an older entry, to expire `ttl` after the present instant. -/
def Cache.Put (c : Cache) (now : Nat) (key : String) (payload : Any) (ttl : Nat) : Cache :=
  ⟨(key, ⟨payload, now + ttl⟩) :: c.mapping.filter (fun kv => kv.1 != key)⟩

/-- What the handler gets from outside proxy.go: the process-wide authenticator
(`authStore.Authenticator()`, `none` when it is nil, otherwise its `Verify`),
and the package helpers defined in other files.
`DecodeBasicProxyAuthorization` gives `none` when it returns an error. -/
structure Env where
  Authenticator : Option (String → String → Bool)
  ParseBasicProxyAuthorization : Request → String
  DecodeBasicProxyAuthorization : String → Option (String × String)
  RemoveExtraHTTPHostPort : Request → Request

/-- What one call of `client.Do` does: the response pointer and the error it
returns, and the values the client sent meanwhile on the channel `in`, which
`newClient(c.RemoteAddr(), in)` hands to it; each value is named by the address
the client asked for. -/
structure DoResult where
  resp : Option Response
  err : Option String
  sent : List String
  deriving DecidableEq, Repr

/-! ## Traces -/

/-- The actions of a run, in the order they happen. -/
inductive Event where
  /-- `ReadRequest` returned: a request, or `none` for an error. -/
  | read (result : Option Request)
  /-- `authenticate` was called. -/
  | authCall (request : Request)
  /-- `cache.Get`. -/
  | cacheGet (key : String)
  /-- `authenticator.Verify`. -/
  | verify (user pass : String)
  /-- `cache.Put`. -/
  | cachePut (key : String) (value : Any) (ttl : Nat)
  /-- `log.Infoln`. -/
  | log (line : String)
  /-- `authenticate` returned. -/
  | authReturn (resp : Option Response)
  /-- `client.Do` was called with the request and returned the result; what the
  client sent on the channel during the call is part of the result. -/
  | roundTrip (request : Request) (result : DoResult)
  /-- `resp.Write(conn)`; `ok` when it returned no error. -/
  | write (resp : Response) (ok : Bool)
  /-- The send of `inbound.NewHTTPS(request, conn)` on the channel by
  `HandleConn` itself (line 54). -/
  | push (request : Request)
  /-- `conn.Close()`. -/
  | close
  /-- The deferred `client.CloseIdleConnections()`. -/
  | closeIdle
  deriving DecidableEq, Repr

/-! ## authenticate -/

/-- What a call of `authenticate` does: its return value (or panic), the cache
afterwards, and its actions on the cache, the verifier and the log. -/
structure AuthResult where
  ret : Outcome (Option Response)
  cache : Option Cache
  events : List Event

/-- Go type assertion `authed.(bool)`. -/
def assertBool : Any → Outcome Bool
  | .bool b => .ret b
  | .other _ => .panic "interface conversion: interface is not bool"

/-- Lines 114-121 of proxy.go: the branch on the verdict. -/
def verdict (request : Request) (cache : Option Cache) (events : List Event)
    (authed : Any) : AuthResult :=
  match assertBool authed with
  | .panic msg => ⟨.panic msg, cache, events⟩
  | .ret true => ⟨.ret none, cache, events⟩
  | .ret false =>
    ⟨.ret (some (responseWith StatusForbidden)), cache,
      events ++ [.log ("Auth failed from " ++ request.RemoteAddr)]⟩

/-- The function `authenticate` of proxy.go.  `now` is the clock reading during
the call; the cache pointer may be nil. -/
def authenticate (env : Env) (now : Nat) (request : Request) (cache : Option Cache) :
    AuthResult :=
  match env.Authenticator with
  | none => ⟨.ret none, cache, []⟩
  | some authenticator =>
    let credential := env.ParseBasicProxyAuthorization request
    if credential = "" then
      let resp := responseWith StatusProxyAuthRequired
      match resp.Header.Set "Proxy-Authenticate" "Basic" with
      | .panic msg => ⟨.panic msg, cache, []⟩
      | .ret h => ⟨.ret (some { resp with Header := h }), cache, []⟩
    else
      match cache with
      | none => ⟨.panic "invalid memory address or nil pointer dereference", none, []⟩
      | some c =>
        match c.Get now credential with
        | some authed => verdict request (some c) [.cacheGet credential] authed
        | none =>
          match env.DecodeBasicProxyAuthorization credential with
          | none =>
            verdict request (some (c.Put now credential (.bool false) Minute))
              [.cacheGet credential, .cachePut credential (.bool false) Minute]
              (.bool false)
          | some (user, pass) =>
            let authed := authenticator user pass
            verdict request (some (c.Put now credential (.bool authed) Minute))
              [.cacheGet credential, .verify user pass,
               .cachePut credential (.bool authed) Minute]
              (.bool authed)

/-! ## HandleConn -/

/-- One pass of the outside world through the loop: what `ReadRequest` returns
(`none` for an error), the clock reading during the pass, what `client.Do`
answers to a request and sends on the channel while it runs, and whether the
`Write` of this pass succeeds. -/
structure Cycle where
  read : Option Request
  now : Nat
  Do : Request → DoResult
  writeOk : Bool

/-- How one pass through the loop body ends. -/
inductive Next where
  /-- The end of the body was reached, with these values of the two flags. -/
  | proceed (keepAlive trusted : Bool)
  /-- A `break`: the loop is left and the connection closed. -/
  | close
  /-- The `return` after the push: the connection is hijacked. -/
  | hijack
  /-- A run-time panic. -/
  | panic (msg : String)
  deriving DecidableEq, Repr

/-- What one part of the loop body does. -/
structure Step where
  events : List Event
  cache : Option Cache
  next : Next

/-- Line 34: the keep-alive intent of a request. -/
def keepAliveIntent (request : Request) : Bool :=
  trimSpace (toLower (request.Header.Get "Proxy-Connection")) == "keep-alive"

/-- Lines 79-87: the response as it is handed to `Write`. -/
def prepareResponse (keepAlive : Bool) (resp : Response) : Outcome Response :=
  let header := RemoveHopByHopHeaders resp.Header
  if keepAlive then
    match header.Set "Proxy-Connection" "keep-alive" with
    | .panic msg => .panic msg
    | .ret h1 =>
      match h1.Set "Connection" "keep-alive" with
      | .panic msg => .panic msg
      | .ret h2 =>
        match h2.Set "Keep-Alive" "timeout=4" with
        | .panic msg => .panic msg
        | .ret h3 => .ret { resp with Header := h3, Close := !keepAlive }
  else .ret { resp with Header := header, Close := !keepAlive }

/-- Lines 79-92: the end of the loop body, entered with the response variable
`resp` (nil when `none`) and the two flags. -/
def writeResponse (c : Cycle) (keepAlive trusted : Bool) (cache : Option Cache)
    (resp : Option Response) : Step :=
  match resp with
  | none => ⟨[], cache, .panic "invalid memory address or nil pointer dereference"⟩
  | some resp =>
    match prepareResponse keepAlive resp with
    | .panic msg => ⟨[], cache, .panic msg⟩
    | .ret out =>
      if c.writeOk then ⟨[.write out true], cache, .proceed keepAlive trusted⟩
      else ⟨[.write out false], cache, .close⟩

/-- Lines 46-48: the response to a CONNECT request. -/
def connectResponse : Response :=
  { responseWith 200 with Status := "Connection established", ContentLength := -1 }

/-- Lines 59-67: the request as it is handed to the outbound client. -/
def sanitize (env : Env) (request : Request) : Request :=
  let host := request.Header.Get "Host"
  let request := if host ≠ "" then { request with Host := host } else request
  let request := { request with RequestURI := "" }
  let request := { request with Header := RemoveHopByHopHeaders request.Header }
  env.RemoveExtraHTTPHostPort request

/-- Lines 44-92 for a trusted pass: the dispatch of the request, and then the
end of the loop body unless the request is a CONNECT. -/
def dispatch (env : Env) (c : Cycle) (request : Request) (keepAlive : Bool)
    (cache : Option Cache) : Step :=
  if request.Method = MethodConnect then
    if c.writeOk then ⟨[.write connectResponse true, .push request], cache, .hijack⟩
    else ⟨[.write connectResponse false], cache, .close⟩
  else
    let request := sanitize env request
    if request.URL.Scheme = "" ∨ request.URL.Host = "" then
      writeResponse c keepAlive true cache (some (responseWith StatusBadRequest))
    else
      let r := c.Do request
      let resp := if r.err.isSome then some (responseWith StatusBadGateway) else r.resp
      let s := writeResponse c keepAlive true cache resp
      { s with events := .roundTrip request r :: s.events }

/-- Lines 32-92: the loop body after a successful read of `request`, entered
with the flag `trusted`. -/
def body (env : Env) (remoteAddr : String) (c : Cycle) (request : Request)
    (trusted : Bool) (cache : Option Cache) : Step :=
  let request1 := { request with RemoteAddr := remoteAddr }
  let keepAlive := keepAliveIntent request1
  if trusted then
    let s := dispatch env c request1 keepAlive cache
    { s with events := .read (some request) :: s.events }
  else
    let a := authenticate env c.now request1 cache
    match a.ret with
    | .panic msg => ⟨[.read (some request), .authCall request1] ++ a.events, a.cache, .panic msg⟩
    | .ret none =>
      let s := dispatch env c request1 keepAlive a.cache
      { s with events :=
          [.read (some request), .authCall request1] ++ a.events ++ [.authReturn none]
            ++ s.events }
    | .ret (some denial) =>
      let s := writeResponse c keepAlive false a.cache (some denial)
      { s with events :=
          [.read (some request), .authCall request1] ++ a.events
            ++ [.authReturn (some denial)] ++ s.events }

/-- How a run of `HandleConn` ends. -/
inductive Exit where
  /-- The loop was left and `conn.Close()` called. -/
  | closed
  /-- The `return` after the push of a CONNECT request. -/
  | hijacked
  /-- A run-time panic. -/
  | panicked (msg : String)
  deriving DecidableEq, Repr

/-- A run: its trace, how it ended, and the cache afterwards. -/
structure Run where
  trace : List Event
  exit : Exit
  cache : Option Cache

/-- Lines 26-95: the loop `for keepAlive` and the `conn.Close()` after it, from
given values of the two flags, against the rest of the script. -/
def loop (env : Env) (remoteAddr : String) :
    List Cycle → Bool → Bool → Option Cache → Run
  | [], keepAlive, _, cache =>
    if keepAlive then ⟨[.read none, .close], .closed, cache⟩
    else ⟨[.close], .closed, cache⟩
  | c :: cs, keepAlive, trusted, cache =>
    if keepAlive then
      match c.read with
      | none => ⟨[.read none, .close], .closed, cache⟩
      | some request =>
        let s := body env remoteAddr c request trusted cache
        match s.next with
        | .proceed keepAlive1 trusted1 =>
          let r := loop env remoteAddr cs keepAlive1 trusted1 s.cache
          ⟨s.events ++ r.trace, r.exit, r.cache⟩
        | .close => ⟨s.events ++ [.close], .closed, s.cache⟩
        | .hijack => ⟨s.events, .hijacked, s.cache⟩
        | .panic msg => ⟨s.events, .panicked msg, s.cache⟩
    else ⟨[.close], .closed, cache⟩

/-- The function `HandleConn` of proxy.go.  The connection is its remote
address and its script; the channel is seen through the `push` events and the
`sent` component of the `roundTrip` events; the cache pointer may be nil.  The deferred `CloseIdleConnections` runs last on
every exit. -/
def HandleConn (env : Env) (remoteAddr : String) (cycles : List Cycle)
    (cache : Option Cache) : Run :=
  let r := loop env remoteAddr cycles true cache.isNone cache
  { r with trace := r.trace ++ [.closeIdle] }

/-! ## Sample inputs and predicates on traces -/

/-- A sample authenticator backend: one account. -/
def sampleVerify (user pass : String) : Bool := user == "alice" && pass == "secret"

/-- A sample `ParseBasicProxyAuthorization`: the text after `Basic ` in the
Proxy-Authorization header, or the empty string. -/
def sampleParse (request : Request) : String :=
  match (request.Header.Get "Proxy-Authorization").data with
  | 'B' :: 'a' :: 's' :: 'i' :: 'c' :: ' ' :: rest => ⟨rest⟩
  | _ => ""

/-- A sample `DecodeBasicProxyAuthorization`, on three credentials: the base64
forms of `alice:secret` and `bob:wrong`, and anything else, which fails. -/
def sampleDecode (credential : String) : Option (String × String) :=
  if credential = "YWxpY2U6c2VjcmV0" then some ("alice", "secret")
  else if credential = "Ym9iOndyb25n" then some ("bob", "wrong")
  else none

/-- A sample environment with an authenticator configured. -/
def sampleEnv : Env :=
  { Authenticator := some sampleVerify
    ParseBasicProxyAuthorization := sampleParse
    DecodeBasicProxyAuthorization := sampleDecode
    RemoveExtraHTTPHostPort := fun r => r }

/-- The sample environment without an authenticator. -/
def openEnv : Env := { sampleEnv with Authenticator := none }

/-- A sample request with the given method, absolute target and headers. -/
def sampleRequest (method scheme host : String) (header : HeaderMap) : Request :=
  { Method := method
    URL := { Scheme := scheme, Host := host, Path := "/", RawQuery := "" }
    Proto := "HTTP/1.1"
    Header := some header
    Body := ""
    Host := host
    RequestURI := ""
    RemoteAddr := "" }

/-- GET http://example.com/ with no Proxy-Authorization header. -/
def getPlain : Request := sampleRequest "GET" "http" "example.com" []

/-- GET http://example.com/ with the credential of `alice:secret`. -/
def getAlice : Request :=
  sampleRequest "GET" "http" "example.com" [("Proxy-Authorization", ["Basic YWxpY2U6c2VjcmV0"])]

/-- GET http://example.com/ with the credential of `bob:wrong`. -/
def getBob : Request :=
  sampleRequest "GET" "http" "example.com" [("Proxy-Authorization", ["Basic Ym9iOndyb25n"])]

/-- GET http://example.com/ with a credential that does not decode. -/
def getGarbled : Request :=
  sampleRequest "GET" "http" "example.com" [("Proxy-Authorization", ["Basic !!!"])]

/-- The empty cache. -/
def emptyCache : Cache := ⟨[]⟩

/-- Whether an event is a call of the verifier. -/
def Event.isVerify : Event → Bool
  | .verify _ _ => true
  | _ => false

/-- Whether an event is a `cache.Put`. -/
def Event.isCachePut : Event → Bool
  | .cachePut _ _ _ => true
  | _ => false

/-- The 407 response of `authenticate`. -/
def proxyAuthRequired : Response :=
  { responseWith StatusProxyAuthRequired with Header := some [("Proxy-Authenticate", ["Basic"])] }

/-- The verdict on a credential in words: decoding succeeded and
the verifier accepted the decoded pair. -/
def freshVerdict (env : Env) (verify : String → String → Bool) (credential : String) : Bool :=
  match env.DecodeBasicProxyAuthorization credential with
  | none => false
  | some (user, pass) => verify user pass

/-- Whether an event is a call of `authenticate`, its return, or one of its
actions on the cache, the verifier and the log. -/
def Event.isAuth : Event → Bool
  | .authCall _ => true
  | .cacheGet _ => true
  | .verify _ _ => true
  | .cachePut _ _ _ => true
  | .log _ => true
  | .authReturn _ => true
  | _ => false

/-- Whether an event is one of the actions inside `authenticate`. -/
def Event.isBackend : Event → Bool
  | .cacheGet _ => true
  | .verify _ _ => true
  | .cachePut _ _ _ => true
  | .log _ => true
  | _ => false

/-- Whether an event is a successful read. -/
def Event.isRead : Event → Bool
  | .read (some _) => true
  | _ => false

/-- Whether an event is the push of line 54: the send on the channel by
`HandleConn` itself. -/
def Event.isPush : Event → Bool
  | .push _ => true
  | _ => false

/-- Whether an event is the dispatch of the request read as `request` on a
connection with the given remote address: for a CONNECT, the write of the 200
response; otherwise the write of the 400 response when the sanitized target
lacks a scheme or a host, and else the call of the outbound client with the
sanitized request. -/
def dispatches (env : Env) (remoteAddr : String) (request : Request) : Event → Bool
  | .write out _ =>
    let request1 := { request with RemoteAddr := remoteAddr }
    if request1.Method = MethodConnect then out == connectResponse
    else
      ((sanitize env request1).URL.Scheme == "" || (sanitize env request1).URL.Host == "")
        && prepareResponse (keepAliveIntent request1) (responseWith StatusBadRequest) == .ret out
  | .roundTrip r _ =>
    let request1 := { request with RemoteAddr := remoteAddr }
    request1.Method != MethodConnect
      && !((sanitize env request1).URL.Scheme == "" || (sanitize env request1).URL.Host == "")
      && r == sanitize env request1
  | _ => false

/-- The value of the response variable after line 76, for a request that is
forwarded. -/
def forwarded (c : Cycle) (r : Request) : Option Response :=
  if (c.Do r).err.isSome then some (responseWith StatusBadGateway) else (c.Do r).resp

/-- Every successfully read request of the trace is at once followed by the
event that dispatches it. -/
def ReadsDispatched (env : Env) (remoteAddr : String) (tr : List Event) : Prop :=
  ∀ pre request post, tr = pre ++ .read (some request) :: post →
    ∃ e rest, post = e :: rest ∧ dispatches env remoteAddr request e = true

/-- Every response written in the trace comes from the dispatch: it is the 200
response to a CONNECT, or the 400 or the 502 response after lines 79-87, or
after those lines a response that a call of the outbound client in the trace
returned without an error. -/
def WritesFromDispatch (tr : List Event) : Prop :=
  ∀ out ok, .write out ok ∈ tr →
    out = connectResponse ∨
    (∃ k, prepareResponse k (responseWith StatusBadRequest) = .ret out) ∨
    (∃ k, prepareResponse k (responseWith StatusBadGateway) = .ret out) ∨
    (∃ k r res u, .roundTrip r res ∈ tr ∧ res.resp = some u ∧ res.err = none ∧
      prepareResponse k u = .ret out)

/-- What holds of a trace all of whose passes are trusted: no event of
`authenticate`, every read request dispatched at once, every written response
from the dispatch. -/
def TrustedTrace (env : Env) (remoteAddr : String) (tr : List Event) : Prop :=
  (∀ e ∈ tr, e.isAuth = false) ∧ ReadsDispatched env remoteAddr tr ∧ WritesFromDispatch tr

/-- Whatever follows a return of nil from `authenticate` in the trace is the
trace of trusted passes. -/
def TrustedAfterReturn (env : Env) (remoteAddr : String) (tr : List Event) : Prop :=
  ∀ pre post, tr = pre ++ .authReturn none :: post → TrustedTrace env remoteAddr post

/-- Whether an event is a write of a response. -/
def Event.isWrite : Event → Bool
  | .write _ _ => true
  | _ => false

/-- A failed write, when the events of a pass have one, is the last of them and
the pass ends in a `break`; a pass that ends otherwise has no failed write. -/
def FailedWriteLast (events : List Event) (next : Next) : Prop :=
  (next = .close → ∃ head out, events = head ++ [.write out false] ∧
    ∀ e ∈ head, e.isWrite = false) ∧
  (next ≠ .close → ∀ out, Event.write out false ∉ events)

/-- Every push of the trace is followed by exactly the events `after`, pushes a
CONNECT request, and comes right after the successful write of the 200
response, itself right after the read of that request (trusted pass) or the
return of nil from `authenticate` called with it. -/
def PushPlaced (remoteAddr : String) (tr after : List Event) : Prop :=
  ∀ pre r post, tr = pre ++ .push r :: post →
    post = after ∧ r.Method = MethodConnect ∧
    ∃ pre1 last, pre = pre1 ++ [last, .write connectResponse true] ∧
      ((∃ r0, last = .read (some r0) ∧ r = { r0 with RemoteAddr := remoteAddr }) ∨
       (last = .authReturn none ∧ Event.authCall r ∈ pre1))

/-- Every failed write of the trace is followed by exactly the events `after`. -/
def FailedWriteEnds (tr after : List Event) : Prop :=
  ∀ pre out post, tr = pre ++ .write out false :: post → post = after

/-- CONNECT example.com:443. -/
def connectPlain : Request := sampleRequest "CONNECT" "" "example.com:443" []

/-- A sample upstream: the client dials the host of the request, which sends one
value on the channel, and the answer is 200 with the body `ok`. -/
def sampleUpstream (r : Request) : DoResult :=
  ⟨some { responseWith 200 with Body := "ok" }, none, [r.URL.Host]⟩

/-- A pass that reads the given request at instant 0 against the sample
upstream; `writeOk` tells whether its write succeeds. -/
def passOf (request : Request) (writeOk : Bool) : Cycle :=
  { read := some request, now := 0, Do := sampleUpstream, writeOk := writeOk }

/-- The remote address of the sample connection. -/
def sampleAddr : String := "192.0.2.7:50000"

/-! ## Further predicates on headers, traces and caches, and sample inputs -/

/-- A header map has no entry under the name, whatever the letter case of its
keys; the nil map has no entry at all. -/
def Header.lacks (h : Header) (name : String) : Prop :=
  ∀ m, h = some m → ∀ kv ∈ m, foldName kv.1 ≠ foldName name

/-- The three entries that lines 82-84 set, in the order they end up in. -/
def keepAliveEntries : HeaderMap :=
  [("Keep-Alive", ["timeout=4"]), ("Connection", ["keep-alive"]),
   ("Proxy-Connection", ["keep-alive"])]

/-- The hop-by-hop names other than the three of `keepAliveEntries`. -/
def otherHopByHopHeaders : List String :=
  ["Proxy-Authenticate", "Proxy-Authorization", "Te", "Trailer", "Transfer-Encoding",
   "Upgrade"]

/-- Whether an event is `conn.Close()`. -/
def Event.isClose : Event → Bool
  | .close => true
  | _ => false

/-- Whether an event is the deferred `CloseIdleConnections`. -/
def Event.isCloseIdle : Event → Bool
  | .closeIdle => true
  | _ => false

/-- Whether an event is a failed `ReadRequest`. -/
def Event.isReadError : Event → Bool
  | .read none => true
  | _ => false

/-- Whether an event is a call of the outbound client. -/
def Event.isRoundTrip : Event → Bool
  | .roundTrip _ _ => true
  | _ => false

/-- GET http://example.com/ with hop-by-hop headers in several letter cases next
to an end-to-end header, asking for keep-alive. -/
def getMixedCase : Request :=
  sampleRequest "GET" "http" "example.com"
    [("Proxy-Connection", ["keep-alive"]), ("KEEP-ALIVE", ["timeout=9"]),
     ("te", ["trailers"]), ("Upgrade", ["h2c"]), ("Accept", ["*/*"])]

/-- What the header map of a response handed to `Write` by lines 79-89 looks
like, for the names of the list and the three keep-alive names: no entry under a
name of the list; without keep-alive no entry under the three names either; with
keep-alive the three entries of `keepAliveEntries` in front of a map that has no
entry under the three names. -/
def HopByHopFree (names : List String) (keepAlive : Bool) (h : Header) : Prop :=
  (∀ name ∈ names, h.lacks name) ∧
  (keepAlive = false →
    h.lacks "Proxy-Connection" ∧ h.lacks "Connection" ∧ h.lacks "Keep-Alive") ∧
  (keepAlive = true →
    ∃ m0, h = some (keepAliveEntries ++ m0) ∧
      Header.lacks (some m0) "Proxy-Connection" ∧ Header.lacks (some m0) "Connection" ∧
      Header.lacks (some m0) "Keep-Alive")

/-- The response written for `getMixedCase` against the sample upstream: the 200
of the upstream with the three keep-alive headers. -/
def keptAlive200 : Response :=
  { responseWith 200 with Body := "ok", Header := some keepAliveEntries }

/-- The request `getMixedCase` as the loop body sees it on the sample
connection. -/
def mixedCaseAt : Request := { getMixedCase with RemoteAddr := sampleAddr }

/-- Whether a pass ends in a panic. -/
def Next.isPanic : Next → Bool
  | .panic _ => true
  | _ => false

/-- The contract of `client.Do` for one pass: when it returns no error, the
response pointer is not nil and the header map of the response is not nil. -/
def DoContract (c : Cycle) : Prop :=
  ∀ r, (c.Do r).err = none → ∃ u m, (c.Do r).resp = some u ∧ u.Header = some m

/-- The sanitized target of a request lacks a scheme or a host (line 69). -/
def badTarget (env : Env) (request1 : Request) : Prop :=
  (sanitize env request1).URL.Scheme = "" ∨ (sanitize env request1).URL.Host = ""

/-- GET with a relative target: no scheme and no host. -/
def getRelative : Request := sampleRequest "GET" "" "" []

/-- POST with a relative target: no scheme and no host. -/
def postRelative : Request := sampleRequest "POST" "" "" []

/-- An upstream that fails with a transport error, after the client has dialled
the host of the request and so sent one value on the channel. -/
def failingUpstream (r : Request) : DoResult :=
  ⟨none, some "dial tcp: connection refused", [r.URL.Host]⟩

/-- A pass that reads the given request against the failing upstream. -/
def failingPassOf (request : Request) (writeOk : Bool) : Cycle :=
  { read := some request, now := 0, Do := failingUpstream, writeOk := writeOk }

/-- Whether a run ends in a panic. -/
def Exit.isPanic : Exit → Bool
  | .panicked _ => true
  | _ => false

/-- A pass whose `ReadRequest` fails. -/
def failedRead : Cycle :=
  { read := none, now := 0, Do := sampleUpstream, writeOk := true }

/-- Every value in the cache is a boolean. -/
def Cache.AllBool (c : Cache) : Prop :=
  ∀ kv ∈ c.mapping, ∃ b, kv.2.Payload = Any.bool b

/-- The panic of a failed type assertion `authed.(bool)`. -/
def assertionFailure : String := "interface conversion: interface is not bool"

/-- The panic of a nil pointer dereference. -/
def nilDereference : String := "invalid memory address or nil pointer dereference"

/-- The panic of a write to a nil map. -/
def nilMapWrite : String := "assignment to entry in nil map"

/-- An upstream that breaks the contract of `client.Do`: no response and no
error. -/
def nilUpstream (_ : Request) : DoResult := ⟨none, none, []⟩

/-- A cache that holds a value that is no boolean under the credential of
`alice:secret`. -/
def pollutedCache : Cache := ⟨[("YWxpY2U6c2VjcmV0", ⟨.other "string", Minute⟩)]⟩

/-! ## The values sent on the channel -/

/-- The number of values the outbound client sent on the channel during the
call of `client.Do` that an event records; no other event is a send of the
client. -/
def Event.clientSends : Event → Nat
  | .roundTrip _ result => result.sent.length
  | _ => 0

/-- The number of values an event puts on the channel: one for the push of line
54, and for a call of `client.Do` what the client sent during the call. -/
def Event.channelSends : Event → Nat
  | .push _ => 1
  | .roundTrip _ result => result.sent.length
  | _ => 0

/-- The number of values the outbound client sent on the channel in a trace. -/
def clientSends (tr : List Event) : Nat := (tr.map Event.clientSends).sum

/-- The number of values sent on the channel in a trace, by `HandleConn` itself
and by the outbound client together. -/
def channelSends (tr : List Event) : Nat := (tr.map Event.channelSends).sum

/-- GET http://example.org/, asking for keep-alive: a second host. -/
def getOther : Request :=
  sampleRequest "GET" "http" "example.org" [("Proxy-Connection", ["keep-alive"])]

/-! ## Theorems -/

/-! ### The cache -/

theorem Cache.get_put_same (c : Cache) (now later : Nat) (key : String) (v : Any) (ttl : Nat) :
    (c.Put now key v ttl).Get later key = if later ≤ now + ttl then some v else none := by
  simp [Cache.Get, Cache.Put, List.lookup]

/-! ### authenticate, case by case -/

theorem authenticate_no_authenticator (env : Env) (now : Nat) (request : Request)
    (cache : Option Cache) (hauth : env.Authenticator = none) :
    authenticate env now request cache = ⟨.ret none, cache, []⟩ := by
  simp only [authenticate, hauth]

theorem authenticate_no_credential (env : Env) (verify : String → String → Bool)
    (now : Nat) (request : Request) (cache : Option Cache)
    (hauth : env.Authenticator = some verify)
    (hcred : env.ParseBasicProxyAuthorization request = "") :
    authenticate env now request cache = ⟨.ret (some proxyAuthRequired), cache, []⟩ := by
  simp only [authenticate, hauth, hcred, if_true]
  rfl

theorem authenticate_hit (env : Env) (verify : String → String → Bool)
    (now : Nat) (request : Request) (c : Cache) (authed : Any)
    (hauth : env.Authenticator = some verify)
    (hcred : env.ParseBasicProxyAuthorization request ≠ "")
    (hget : c.Get now (env.ParseBasicProxyAuthorization request) = some authed) :
    authenticate env now request (some c) =
      verdict request (some c) [.cacheGet (env.ParseBasicProxyAuthorization request)] authed := by
  simp only [authenticate, hauth, hcred, if_false, hget]

theorem authenticate_miss_undecodable (env : Env) (verify : String → String → Bool)
    (now : Nat) (request : Request) (c : Cache)
    (hauth : env.Authenticator = some verify)
    (hcred : env.ParseBasicProxyAuthorization request ≠ "")
    (hget : c.Get now (env.ParseBasicProxyAuthorization request) = none)
    (hdec : env.DecodeBasicProxyAuthorization (env.ParseBasicProxyAuthorization request) = none) :
    authenticate env now request (some c) =
      verdict request
        (some (c.Put now (env.ParseBasicProxyAuthorization request) (.bool false) Minute))
        [.cacheGet (env.ParseBasicProxyAuthorization request),
         .cachePut (env.ParseBasicProxyAuthorization request) (.bool false) Minute]
        (.bool false) := by
  simp only [authenticate, hauth, hcred, if_false, hget, hdec]

theorem authenticate_miss_decoded (env : Env) (verify : String → String → Bool)
    (now : Nat) (request : Request) (c : Cache) (user pass : String)
    (hauth : env.Authenticator = some verify)
    (hcred : env.ParseBasicProxyAuthorization request ≠ "")
    (hget : c.Get now (env.ParseBasicProxyAuthorization request) = none)
    (hdec : env.DecodeBasicProxyAuthorization (env.ParseBasicProxyAuthorization request)
      = some (user, pass)) :
    authenticate env now request (some c) =
      verdict request
        (some (c.Put now (env.ParseBasicProxyAuthorization request)
          (.bool (verify user pass)) Minute))
        [.cacheGet (env.ParseBasicProxyAuthorization request), .verify user pass,
         .cachePut (env.ParseBasicProxyAuthorization request) (.bool (verify user pass)) Minute]
        (.bool (verify user pass)) := by
  simp only [authenticate, hauth, hcred, if_false, hget, hdec]

theorem verdict_true (request : Request) (cache : Option Cache) (events : List Event) :
    verdict request cache events (.bool true) = ⟨.ret none, cache, events⟩ := rfl

theorem verdict_false (request : Request) (cache : Option Cache) (events : List Event) :
    verdict request cache events (.bool false) =
      ⟨.ret (some (responseWith StatusForbidden)), cache,
        events ++ [.log ("Auth failed from " ++ request.RemoteAddr)]⟩ := rfl

/-- C2.  With an authenticator configured, a request whose credential parses to
the empty string gets the 407 response: status text Proxy Authentication
Required, protocol HTTP/1.1, header Proxy-Authenticate equal to Basic.  The call
does nothing to the cache (nil or not) and never reaches the verifier. -/
theorem authenticate_empty_credential (env : Env) (verify : String → String → Bool)
    (now : Nat) (request : Request) (cache : Option Cache)
    (hauth : env.Authenticator = some verify)
    (hcred : env.ParseBasicProxyAuthorization request = "") :
    ∃ resp : Response,
      (authenticate env now request cache).ret = .ret (some resp) ∧
      resp.StatusCode = 407 ∧
      resp.Status = "Proxy Authentication Required" ∧
      resp.Proto = "HTTP/1.1" ∧ resp.ProtoMajor = 1 ∧ resp.ProtoMinor = 1 ∧
      resp.Header = some [("Proxy-Authenticate", ["Basic"])] ∧
      resp.Header.Get "Proxy-Authenticate" = "Basic" ∧
      (authenticate env now request cache).events = [] ∧
      (authenticate env now request cache).cache = cache := by
  rw [authenticate_no_credential env verify now request cache hauth hcred]
  exact ⟨proxyAuthRequired, rfl, rfl, rfl, rfl, rfl, rfl, rfl, by decide, rfl, rfl⟩

theorem authenticate_empty_credential_witness :
    ∃ resp : Response,
      (authenticate sampleEnv 0 getPlain (some emptyCache)).ret = .ret (some resp) ∧
      resp.StatusCode = 407 ∧
      resp.Status = "Proxy Authentication Required" ∧
      resp.Proto = "HTTP/1.1" ∧ resp.ProtoMajor = 1 ∧ resp.ProtoMinor = 1 ∧
      resp.Header = some [("Proxy-Authenticate", ["Basic"])] ∧
      resp.Header.Get "Proxy-Authenticate" = "Basic" ∧
      (authenticate sampleEnv 0 getPlain (some emptyCache)).events = [] ∧
      (authenticate sampleEnv 0 getPlain (some emptyCache)).cache = some emptyCache :=
  authenticate_empty_credential sampleEnv sampleVerify 0 getPlain (some emptyCache) rfl
    (by decide)

/-- C6.  With no authenticator configured, `authenticate` returns nil for every
request and every cache, nil or not, and does nothing at all: no cache read, no
cache write, no verifier call, the cache is as before. -/
theorem authenticate_disabled (env : Env) (now : Nat) (request : Request)
    (cache : Option Cache) (hauth : env.Authenticator = none) :
    (authenticate env now request cache).ret = .ret none ∧
    (authenticate env now request cache).events = [] ∧
    (authenticate env now request cache).cache = cache := by
  rw [authenticate_no_authenticator env now request cache hauth]
  exact ⟨rfl, rfl, rfl⟩

theorem authenticate_disabled_witness :
    ((authenticate openEnv 0 getPlain (some emptyCache)).ret = .ret none ∧
      (authenticate openEnv 0 getPlain (some emptyCache)).events = [] ∧
      (authenticate openEnv 0 getPlain (some emptyCache)).cache = some emptyCache) ∧
    ((authenticate openEnv 0 getGarbled none).ret = .ret none ∧
      (authenticate openEnv 0 getGarbled none).events = [] ∧
      (authenticate openEnv 0 getGarbled none).cache = none) ∧
    ((authenticate openEnv 0 getBob (some emptyCache)).ret = .ret none ∧
      (authenticate openEnv 0 getBob (some emptyCache)).events = [] ∧
      (authenticate openEnv 0 getBob (some emptyCache)).cache = some emptyCache) :=
  ⟨authenticate_disabled openEnv 0 getPlain (some emptyCache) rfl,
   authenticate_disabled openEnv 0 getGarbled none rfl,
   authenticate_disabled openEnv 0 getBob (some emptyCache) rfl⟩

theorem authenticate_miss (env : Env) (verify : String → String → Bool)
    (now : Nat) (request : Request) (c : Cache)
    (hauth : env.Authenticator = some verify)
    (hcred : env.ParseBasicProxyAuthorization request ≠ "")
    (hget : c.Get now (env.ParseBasicProxyAuthorization request) = none) :
    (authenticate env now request (some c)).cache =
        some (c.Put now (env.ParseBasicProxyAuthorization request)
          (.bool (freshVerdict env verify (env.ParseBasicProxyAuthorization request))) Minute) ∧
    (authenticate env now request (some c)).ret =
        (if freshVerdict env verify (env.ParseBasicProxyAuthorization request) then .ret none
         else .ret (some (responseWith StatusForbidden))) ∧
    (authenticate env now request (some c)).events.filter Event.isCachePut =
        [.cachePut (env.ParseBasicProxyAuthorization request)
          (.bool (freshVerdict env verify (env.ParseBasicProxyAuthorization request))) Minute] ∧
    (authenticate env now request (some c)).events.countP Event.isVerify =
        (if (env.DecodeBasicProxyAuthorization (env.ParseBasicProxyAuthorization request)).isSome
         then 1 else 0) := by
  cases hdec : env.DecodeBasicProxyAuthorization (env.ParseBasicProxyAuthorization request) with
  | none =>
    rw [authenticate_miss_undecodable env verify now request c hauth hcred hget hdec]
    simp [freshVerdict, hdec, verdict_false, Event.isCachePut, Event.isVerify]
  | some up =>
    obtain ⟨user, pass⟩ := up
    rw [authenticate_miss_decoded env verify now request c user pass hauth hcred hget hdec]
    cases hv : verify user pass <;>
      simp [freshVerdict, hdec, hv, verdict_false, verdict_true, Event.isCachePut,
        Event.isVerify]

/-- C4.  For a non-empty credential that the cache does not hold, `authenticate`
puts the verdict (decoding succeeded and the verifier accepted) into the cache
under that credential with a time-to-live of one minute, be the verdict true or
false: it is the one `Put` of the call, the entry is read back up to one minute
later and is absent after that.  The call returns nil exactly when the verdict
is true and a 403 response exactly when it is false. -/
theorem authenticate_miss_stores_verdict (env : Env) (verify : String → String → Bool)
    (now : Nat) (request : Request) (c : Cache)
    (hauth : env.Authenticator = some verify)
    (hcred : env.ParseBasicProxyAuthorization request ≠ "")
    (hget : c.Get now (env.ParseBasicProxyAuthorization request) = none) :
    (authenticate env now request (some c)).cache =
        some (c.Put now (env.ParseBasicProxyAuthorization request)
          (.bool (freshVerdict env verify (env.ParseBasicProxyAuthorization request))) Minute) ∧
    (authenticate env now request (some c)).events.filter Event.isCachePut =
        [.cachePut (env.ParseBasicProxyAuthorization request)
          (.bool (freshVerdict env verify (env.ParseBasicProxyAuthorization request))) Minute] ∧
    Minute = 60 * 1000000000 ∧
    (∀ later : Nat, ∀ c1 : Cache, (authenticate env now request (some c)).cache = some c1 →
      c1.Get later (env.ParseBasicProxyAuthorization request) =
        if later ≤ now + Minute then
          some (.bool (freshVerdict env verify (env.ParseBasicProxyAuthorization request)))
        else none) ∧
    ((authenticate env now request (some c)).ret = .ret none ↔
      freshVerdict env verify (env.ParseBasicProxyAuthorization request) = true) ∧
    ((∃ resp : Response, (authenticate env now request (some c)).ret = .ret (some resp) ∧
        resp.StatusCode = 403) ↔
      freshVerdict env verify (env.ParseBasicProxyAuthorization request) = false) := by
  obtain ⟨hc, hr, hp, -⟩ := authenticate_miss env verify now request c hauth hcred hget
  refine ⟨hc, hp, rfl, ?_, ?_, ?_⟩
  · intro later c1 h1
    rw [hc] at h1
    cases h1
    exact Cache.get_put_same c now later _ _ Minute
  · rw [hr]
    cases freshVerdict env verify (env.ParseBasicProxyAuthorization request) <;> simp
  · rw [hr]
    cases freshVerdict env verify (env.ParseBasicProxyAuthorization request)
    · simp [responseWith, StatusForbidden]
    · simp

theorem authenticate_miss_stores_verdict_witness :
    (sampleEnv.ParseBasicProxyAuthorization getAlice ≠ "" ∧
      emptyCache.Get 0 (sampleEnv.ParseBasicProxyAuthorization getAlice) = none ∧
      (authenticate sampleEnv 0 getAlice (some emptyCache)).cache =
        some (emptyCache.Put 0 "YWxpY2U6c2VjcmV0" (.bool true) Minute) ∧
      (authenticate sampleEnv 0 getAlice (some emptyCache)).ret = .ret none) ∧
    (sampleEnv.ParseBasicProxyAuthorization getBob ≠ "" ∧
      emptyCache.Get 0 (sampleEnv.ParseBasicProxyAuthorization getBob) = none ∧
      (authenticate sampleEnv 0 getBob (some emptyCache)).cache =
        some (emptyCache.Put 0 "Ym9iOndyb25n" (.bool false) Minute) ∧
      ∃ resp : Response, (authenticate sampleEnv 0 getBob (some emptyCache)).ret
        = .ret (some resp) ∧ resp.StatusCode = 403) :=
  ⟨⟨by decide, by decide,
    (authenticate_miss_stores_verdict sampleEnv sampleVerify 0 getAlice emptyCache rfl
      (by decide) (by decide)).1,
    (authenticate_miss_stores_verdict sampleEnv sampleVerify 0 getAlice emptyCache rfl
      (by decide) (by decide)).2.2.2.2.1.mpr (by decide)⟩,
   ⟨by decide, by decide,
    (authenticate_miss_stores_verdict sampleEnv sampleVerify 0 getBob emptyCache rfl
      (by decide) (by decide)).1,
    (authenticate_miss_stores_verdict sampleEnv sampleVerify 0 getBob emptyCache rfl
      (by decide) (by decide)).2.2.2.2.2.mpr (by decide)⟩⟩

/-- C5.  Verification fails closed.  For a non-empty credential that the cache
does not hold and that `DecodeBasicProxyAuthorization` rejects, `authenticate`
returns the 403 response, makes no call of the verifier, whatever the verifier
is, and puts the verdict false into the cache under that credential. -/
theorem authenticate_fails_closed (env : Env) (verify : String → String → Bool)
    (now : Nat) (request : Request) (c : Cache)
    (hauth : env.Authenticator = some verify)
    (hcred : env.ParseBasicProxyAuthorization request ≠ "")
    (hget : c.Get now (env.ParseBasicProxyAuthorization request) = none)
    (hdec : env.DecodeBasicProxyAuthorization (env.ParseBasicProxyAuthorization request) = none) :
    (authenticate env now request (some c)).ret = .ret (some (responseWith StatusForbidden)) ∧
    (responseWith StatusForbidden).StatusCode = 403 ∧
    (∀ e ∈ (authenticate env now request (some c)).events, e.isVerify = false) ∧
    (authenticate env now request (some c)).events =
      [.cacheGet (env.ParseBasicProxyAuthorization request),
       .cachePut (env.ParseBasicProxyAuthorization request) (.bool false) Minute,
       .log ("Auth failed from " ++ request.RemoteAddr)] ∧
    (authenticate env now request (some c)).cache =
      some (c.Put now (env.ParseBasicProxyAuthorization request) (.bool false) Minute) ∧
    (c.Put now (env.ParseBasicProxyAuthorization request) (.bool false) Minute).Get now
      (env.ParseBasicProxyAuthorization request) = some (.bool false) := by
  rw [authenticate_miss_undecodable env verify now request c hauth hcred hget hdec,
    verdict_false]
  refine ⟨rfl, rfl, ?_, rfl, rfl, ?_⟩
  · intro e he
    simp at he
    rcases he with rfl | rfl | rfl <;> rfl
  · rw [Cache.get_put_same]
    simp

theorem authenticate_fails_closed_witness :
    (authenticate sampleEnv 0 getGarbled (some emptyCache)).ret
      = .ret (some (responseWith StatusForbidden)) ∧
    (responseWith StatusForbidden).StatusCode = 403 ∧
    (∀ e ∈ (authenticate sampleEnv 0 getGarbled (some emptyCache)).events, e.isVerify = false) ∧
    (authenticate sampleEnv 0 getGarbled (some emptyCache)).events =
      [.cacheGet (sampleEnv.ParseBasicProxyAuthorization getGarbled),
       .cachePut (sampleEnv.ParseBasicProxyAuthorization getGarbled) (.bool false) Minute,
       .log ("Auth failed from " ++ getGarbled.RemoteAddr)] ∧
    (authenticate sampleEnv 0 getGarbled (some emptyCache)).cache =
      some (emptyCache.Put 0 (sampleEnv.ParseBasicProxyAuthorization getGarbled)
        (.bool false) Minute) ∧
    (emptyCache.Put 0 (sampleEnv.ParseBasicProxyAuthorization getGarbled) (.bool false)
      Minute).Get 0 (sampleEnv.ParseBasicProxyAuthorization getGarbled) = some (.bool false) :=
  authenticate_fails_closed sampleEnv sampleVerify 0 getGarbled emptyCache rfl
    (by decide) (by decide) (by decide)

theorem authenticate_hit_bool (env : Env) (verify : String → String → Bool)
    (now : Nat) (request : Request) (c : Cache) (b : Bool)
    (hauth : env.Authenticator = some verify)
    (hcred : env.ParseBasicProxyAuthorization request ≠ "")
    (hget : c.Get now (env.ParseBasicProxyAuthorization request) = some (.bool b)) :
    (authenticate env now request (some c)).cache = some c ∧
    (authenticate env now request (some c)).ret =
      (if b then .ret none else .ret (some (responseWith StatusForbidden))) ∧
    (∀ e ∈ (authenticate env now request (some c)).events,
      e.isVerify = false ∧ e.isCachePut = false) ∧
    (authenticate env now request (some c)).events.countP Event.isVerify = 0 := by
  rw [authenticate_hit env verify now request c _ hauth hcred hget]
  cases b
  · rw [verdict_false]
    refine ⟨rfl, rfl, ?_, ?_⟩
    · intro e he
      simp at he
      rcases he with rfl | rfl <;> exact ⟨rfl, rfl⟩
    · simp [Event.isVerify]
  · rw [verdict_true]
    refine ⟨rfl, rfl, ?_, ?_⟩
    · intro e he
      simp at he
      subst he
      exact ⟨rfl, rfl⟩
    · simp [Event.isVerify]

/-- C3, amended.  With an authenticator configured and a non-empty credential:
(1) when the cache holds an unexpired verdict for the credential, `authenticate`
makes no verifier call and no `Put`, leaves the cache as it is, and returns nil
for the verdict true and the 403 response for the verdict false;
(2) of two successive calls with the same credential, the first a miss and the
second at most one minute after it, the second returns what the first returned,
and together they make exactly one verifier call when the credential decodes and
none when it does not;
(3) the entry of the first call is absent once more than a minute has passed;
(4) whenever the cache reports the credential absent and the credential decodes,
the call asks the verifier. -/
theorem authenticate_cached_verdict (env : Env) (verify : String → String → Bool)
    (request request2 : Request)
    (hauth : env.Authenticator = some verify)
    (hcred : env.ParseBasicProxyAuthorization request ≠ "")
    (hsame : env.ParseBasicProxyAuthorization request2 = env.ParseBasicProxyAuthorization request) :
    (∀ (c : Cache) (now : Nat) (b : Bool),
      c.Get now (env.ParseBasicProxyAuthorization request) = some (.bool b) →
        (authenticate env now request (some c)).cache = some c ∧
        (∀ e ∈ (authenticate env now request (some c)).events,
          e.isVerify = false ∧ e.isCachePut = false) ∧
        (authenticate env now request (some c)).ret =
          (if b then .ret none else .ret (some (responseWith StatusForbidden)))) ∧
    (∀ (c : Cache) (t1 t2 : Nat),
      c.Get t1 (env.ParseBasicProxyAuthorization request) = none → t2 ≤ t1 + Minute →
        (authenticate env t2 request2 (authenticate env t1 request (some c)).cache).ret =
          (authenticate env t1 request (some c)).ret ∧
        ((authenticate env t1 request (some c)).events ++
          (authenticate env t2 request2 (authenticate env t1 request (some c)).cache).events
          ).countP Event.isVerify =
          (if (env.DecodeBasicProxyAuthorization
                (env.ParseBasicProxyAuthorization request)).isSome then 1 else 0)) ∧
    (∀ (c : Cache) (t1 t3 : Nat),
      c.Get t1 (env.ParseBasicProxyAuthorization request) = none → t1 + Minute < t3 →
        ∃ c1 : Cache, (authenticate env t1 request (some c)).cache = some c1 ∧
          c1.Get t3 (env.ParseBasicProxyAuthorization request) = none) ∧
    (∀ (c : Cache) (now : Nat) (user pass : String),
      c.Get now (env.ParseBasicProxyAuthorization request) = none →
      env.DecodeBasicProxyAuthorization (env.ParseBasicProxyAuthorization request)
        = some (user, pass) →
        Event.verify user pass ∈ (authenticate env now request (some c)).events) := by
  refine ⟨?_, ?_, ?_, ?_⟩
  · intro c now b hget
    obtain ⟨h1, h2, h3, -⟩ := authenticate_hit_bool env verify now request c b hauth hcred hget
    exact ⟨h1, h3, h2⟩
  · intro c t1 t2 hget ht
    obtain ⟨hc, hr, -, hv⟩ := authenticate_miss env verify t1 request c hauth hcred hget
    have hcred2 : env.ParseBasicProxyAuthorization request2 ≠ "" := by rw [hsame]; exact hcred
    have hget2 : (c.Put t1 (env.ParseBasicProxyAuthorization request)
        (.bool (freshVerdict env verify (env.ParseBasicProxyAuthorization request))) Minute).Get
        t2 (env.ParseBasicProxyAuthorization request2) =
        some (.bool (freshVerdict env verify (env.ParseBasicProxyAuthorization request))) := by
      rw [hsame, Cache.get_put_same, if_pos ht]
    obtain ⟨-, h2, -, h4⟩ := authenticate_hit_bool env verify t2 request2 _ _ hauth hcred2 hget2
    rw [hc, List.countP_append, h4, h2, hr, hv]
    exact ⟨rfl, rfl⟩
  · intro c t1 t3 hget ht
    obtain ⟨hc, -, -, -⟩ := authenticate_miss env verify t1 request c hauth hcred hget
    refine ⟨_, hc, ?_⟩
    rw [Cache.get_put_same, if_neg (by omega)]
  · intro c now user pass hget hdec
    rw [authenticate_miss_decoded env verify now request c user pass hauth hcred hget hdec]
    cases verify user pass
    · rw [verdict_false]; simp
    · rw [verdict_true]; simp

theorem authenticate_cached_verdict_witness :
    (authenticate sampleEnv 5 getBob
        (authenticate sampleEnv 0 getBob (some emptyCache)).cache).ret =
      (authenticate sampleEnv 0 getBob (some emptyCache)).ret ∧
    ((authenticate sampleEnv 0 getBob (some emptyCache)).events ++
      (authenticate sampleEnv 5 getBob
        (authenticate sampleEnv 0 getBob (some emptyCache)).cache).events
      ).countP Event.isVerify =
      (if (sampleEnv.DecodeBasicProxyAuthorization
            (sampleEnv.ParseBasicProxyAuthorization getBob)).isSome then 1 else 0) :=
  (authenticate_cached_verdict sampleEnv sampleVerify getBob getBob rfl (by decide) rfl).2.1
    emptyCache 0 5 (by decide) (by decide)

/-- C3 as stated fails for a credential that does not decode: two successive
calls with the credential `!!!`, one nanosecond apart and starting from the
empty cache, both return the 403 response and make no verifier call at all (not
exactly one); and after the entry has expired the next call again makes no
verifier call. -/
theorem garbled_credential_never_reaches_verifier :
    sampleEnv.Authenticator = some sampleVerify ∧
    sampleEnv.ParseBasicProxyAuthorization getGarbled = "!!!" ∧
    (authenticate sampleEnv 0 getGarbled (some emptyCache)).ret
      = .ret (some (responseWith StatusForbidden)) ∧
    (authenticate sampleEnv 1 getGarbled
        (authenticate sampleEnv 0 getGarbled (some emptyCache)).cache).ret
      = .ret (some (responseWith StatusForbidden)) ∧
    ((authenticate sampleEnv 0 getGarbled (some emptyCache)).events ++
      (authenticate sampleEnv 1 getGarbled
        (authenticate sampleEnv 0 getGarbled (some emptyCache)).cache).events
      ).countP Event.isVerify = 0 ∧
    (emptyCache.Put 0 "!!!" (.bool false) Minute).Get (Minute + 1) "!!!" = none ∧
    (authenticate sampleEnv (Minute + 1) getGarbled
        (authenticate sampleEnv 0 getGarbled (some emptyCache)).cache).events.countP
      Event.isVerify = 0 :=
  ⟨rfl, by decide, by decide, by decide, by decide, by decide, by decide⟩

/-! ### The events of authenticate -/

theorem verdict_events_backend (request : Request) (cache : Option Cache)
    (events : List Event) (authed : Any) (h : ∀ e ∈ events, e.isBackend = true) :
    ∀ e ∈ (verdict request cache events authed).events, e.isBackend = true := by
  cases authed with
  | other t => exact h
  | bool b =>
    cases b
    · rw [verdict_false]
      intro e he
      simp only [List.mem_append, List.mem_singleton] at he
      rcases he with he | rfl
      · exact h e he
      · rfl
    · exact h

theorem authenticate_nil_cache (env : Env) (verify : String → String → Bool)
    (now : Nat) (request : Request)
    (hauth : env.Authenticator = some verify)
    (hcred : env.ParseBasicProxyAuthorization request ≠ "") :
    authenticate env now request none =
      ⟨.panic "invalid memory address or nil pointer dereference", none, []⟩ := by
  simp only [authenticate, hauth, hcred, if_false]

theorem authenticate_events_backend (env : Env) (now : Nat) (request : Request)
    (cache : Option Cache) :
    ∀ e ∈ (authenticate env now request cache).events, e.isBackend = true := by
  cases hauth : env.Authenticator with
  | none => rw [authenticate_no_authenticator env now request cache hauth]; simp
  | some verify =>
    by_cases hcred : env.ParseBasicProxyAuthorization request = ""
    · rw [authenticate_no_credential env verify now request cache hauth hcred]; simp
    · cases cache with
      | none => rw [authenticate_nil_cache env verify now request hauth hcred]; simp
      | some c =>
        cases hget : c.Get now (env.ParseBasicProxyAuthorization request) with
        | some authed =>
          rw [authenticate_hit env verify now request c authed hauth hcred hget]
          apply verdict_events_backend
          simp [Event.isBackend]
        | none =>
          cases hdec : env.DecodeBasicProxyAuthorization
              (env.ParseBasicProxyAuthorization request) with
          | none =>
            rw [authenticate_miss_undecodable env verify now request c hauth hcred hget hdec]
            apply verdict_events_backend
            simp [Event.isBackend]
          | some up =>
            obtain ⟨user, pass⟩ := up
            rw [authenticate_miss_decoded env verify now request c user pass hauth hcred
              hget hdec]
            apply verdict_events_backend
            simp [Event.isBackend]

/-! ### The end of the loop body, the dispatch, the body -/

theorem writeResponse_cases (c : Cycle) (keepAlive trusted : Bool) (cache : Option Cache)
    (resp : Option Response) :
    (writeResponse c keepAlive trusted cache resp).cache = cache ∧
    (((writeResponse c keepAlive trusted cache resp).events = [] ∧
        ∃ msg, (writeResponse c keepAlive trusted cache resp).next = .panic msg) ∨
     (∃ u out, resp = some u ∧ prepareResponse keepAlive u = .ret out ∧
        (writeResponse c keepAlive trusted cache resp).events = [.write out c.writeOk] ∧
        (writeResponse c keepAlive trusted cache resp).next =
          if c.writeOk then .proceed keepAlive trusted else .close)) := by
  cases resp with
  | none => exact ⟨rfl, Or.inl ⟨rfl, _, rfl⟩⟩
  | some u =>
    cases hp : prepareResponse keepAlive u with
    | panic msg =>
      have e : writeResponse c keepAlive trusted cache (some u) = ⟨[], cache, .panic msg⟩ := by
        simp only [writeResponse, hp]
      rw [e]
      exact ⟨rfl, Or.inl ⟨rfl, _, rfl⟩⟩
    | ret out =>
      have e : writeResponse c keepAlive trusted cache (some u) =
          if c.writeOk then ⟨[.write out true], cache, .proceed keepAlive trusted⟩
          else ⟨[.write out false], cache, .close⟩ := by
        simp only [writeResponse, hp]
      rw [e]
      cases hw : c.writeOk
      · exact ⟨rfl, Or.inr ⟨u, out, rfl, hp, rfl, rfl⟩⟩
      · exact ⟨rfl, Or.inr ⟨u, out, rfl, hp, rfl, rfl⟩⟩

theorem prepareResponse_of_header (keepAlive : Bool) (resp : Response) (m : HeaderMap)
    (h : resp.Header = some m) : ∃ out, prepareResponse keepAlive resp = .ret out := by
  cases keepAlive <;> simp [prepareResponse, h, RemoveHopByHopHeaders, Header.Set]

theorem prepareResponse_statusCode (keepAlive : Bool) (resp out : Response)
    (h : prepareResponse keepAlive resp = .ret out) :
    out.StatusCode = resp.StatusCode ∧ out.Status = resp.Status ∧ out.Proto = resp.Proto
      ∧ out.Body = resp.Body ∧ out.Close = !keepAlive := by
  cases keepAlive
  · simp [prepareResponse] at h
    subst h
    simp
  · cases hh : resp.Header with
    | none => simp [prepareResponse, hh, RemoveHopByHopHeaders, Header.Set] at h
    | some m =>
      simp [prepareResponse, hh, RemoveHopByHopHeaders, Header.Set] at h
      subst h
      simp

theorem writeResponse_events (c : Cycle) (keepAlive trusted : Bool) (cache : Option Cache)
    (resp : Option Response) :
    ∀ e ∈ (writeResponse c keepAlive trusted cache resp).events,
      ∃ u out, resp = some u ∧ prepareResponse keepAlive u = .ret out ∧
        e = .write out c.writeOk := by
  intro e he
  rcases (writeResponse_cases c keepAlive trusted cache resp).2 with ⟨h, -⟩ | ⟨u, out, hu, hp, h, -⟩
  · rw [h] at he; simp at he
  · rw [h] at he
    simp only [List.mem_singleton] at he
    exact ⟨u, out, hu, hp, he⟩

theorem writeResponse_next (c : Cycle) (keepAlive trusted : Bool) (cache : Option Cache)
    (resp : Option Response) :
    (writeResponse c keepAlive trusted cache resp).next ≠ .hijack ∧
    (∀ k t, (writeResponse c keepAlive trusted cache resp).next = .proceed k t →
      k = keepAlive ∧ t = trusted ∧ c.writeOk = true) ∧
    ((writeResponse c keepAlive trusted cache resp).next = .close →
      c.writeOk = false ∧ ∃ out,
        (writeResponse c keepAlive trusted cache resp).events = [.write out false]) ∧
    (∀ out, .write out false ∈ (writeResponse c keepAlive trusted cache resp).events →
      (writeResponse c keepAlive trusted cache resp).events = [.write out false] ∧
      (writeResponse c keepAlive trusted cache resp).next = .close) := by
  rcases (writeResponse_cases c keepAlive trusted cache resp).2 with
    ⟨he, msg, h⟩ | ⟨u, out, -, -, he, h⟩
  · rw [h, he]
    simp
  · rw [h, he]
    cases c.writeOk <;> simp

theorem dispatch_cases (env : Env) (c : Cycle) (request1 : Request) (keepAlive : Bool)
    (cache : Option Cache) :
    (dispatch env c request1 keepAlive cache).cache = cache ∧
    ((request1.Method = MethodConnect ∧ c.writeOk = true ∧
        (dispatch env c request1 keepAlive cache).events
          = [.write connectResponse true, .push request1] ∧
        (dispatch env c request1 keepAlive cache).next = .hijack) ∨
     (request1.Method = MethodConnect ∧ c.writeOk = false ∧
        (dispatch env c request1 keepAlive cache).events = [.write connectResponse false] ∧
        (dispatch env c request1 keepAlive cache).next = .close) ∨
     (request1.Method ≠ MethodConnect ∧
        ((sanitize env request1).URL.Scheme = "" ∨ (sanitize env request1).URL.Host = "") ∧
        (dispatch env c request1 keepAlive cache).events =
          (writeResponse c keepAlive true cache (some (responseWith StatusBadRequest))).events ∧
        (dispatch env c request1 keepAlive cache).next =
          (writeResponse c keepAlive true cache (some (responseWith StatusBadRequest))).next) ∨
     (request1.Method ≠ MethodConnect ∧
        ¬ ((sanitize env request1).URL.Scheme = "" ∨ (sanitize env request1).URL.Host = "") ∧
        (dispatch env c request1 keepAlive cache).events =
          .roundTrip (sanitize env request1) (c.Do (sanitize env request1)) ::
            (writeResponse c keepAlive true cache (forwarded c (sanitize env request1))).events ∧
        (dispatch env c request1 keepAlive cache).next =
          (writeResponse c keepAlive true cache (forwarded c (sanitize env request1))).next)) := by
  by_cases hm : request1.Method = MethodConnect
  · cases hw : c.writeOk
    · simp [dispatch, hm, hw]
    · simp [dispatch, hm, hw]
  · by_cases hu : (sanitize env request1).URL.Scheme = "" ∨ (sanitize env request1).URL.Host = ""
    · have e : dispatch env c request1 keepAlive cache =
          writeResponse c keepAlive true cache (some (responseWith StatusBadRequest)) := by
        simp only [dispatch, hm, if_false, hu, if_true]
      rw [e]
      exact ⟨(writeResponse_cases _ _ _ _ _).1, Or.inr (Or.inr (Or.inl ⟨hm, hu, rfl, rfl⟩))⟩
    · have e : dispatch env c request1 keepAlive cache =
          { writeResponse c keepAlive true cache (forwarded c (sanitize env request1)) with
            events := .roundTrip (sanitize env request1) (c.Do (sanitize env request1)) ::
              (writeResponse c keepAlive true cache
                (forwarded c (sanitize env request1))).events } := by
        simp only [dispatch, hm, if_false, hu, forwarded]
      rw [e]
      exact ⟨(writeResponse_cases _ _ _ _ _).1, Or.inr (Or.inr (Or.inr ⟨hm, hu, rfl, rfl⟩))⟩

theorem dispatch_no_auth (env : Env) (c : Cycle) (request1 : Request) (keepAlive : Bool)
    (cache : Option Cache) :
    ∀ e ∈ (dispatch env c request1 keepAlive cache).events,
      e.isAuth = false ∧ e.isRead = false := by
  intro e he
  rcases (dispatch_cases env c request1 keepAlive cache).2 with
    ⟨-, -, h, -⟩ | ⟨-, -, h, -⟩ | ⟨-, -, h, -⟩ | ⟨-, -, h, -⟩
  · rw [h] at he
    simp only [List.mem_cons, List.mem_singleton, List.not_mem_nil, or_false] at he
    rcases he with rfl | rfl <;> exact ⟨rfl, rfl⟩
  · rw [h] at he
    simp only [List.mem_singleton] at he
    subst he
    exact ⟨rfl, rfl⟩
  · rw [h] at he
    obtain ⟨u, out, -, -, rfl⟩ := writeResponse_events _ _ _ _ _ e he
    exact ⟨rfl, rfl⟩
  · rw [h] at he
    simp only [List.mem_cons] at he
    rcases he with rfl | he
    · exact ⟨rfl, rfl⟩
    · obtain ⟨u, out, -, -, rfl⟩ := writeResponse_events _ _ _ _ _ e he
      exact ⟨rfl, rfl⟩

theorem dispatch_continue (env : Env) (c : Cycle) (request1 : Request) (keepAlive : Bool)
    (cache : Option Cache) (k t : Bool)
    (hn : (dispatch env c request1 keepAlive cache).next = .proceed k t) :
    k = keepAlive ∧ t = true := by
  rcases (dispatch_cases env c request1 keepAlive cache).2 with
    ⟨-, -, -, h⟩ | ⟨-, -, -, h⟩ | ⟨-, -, -, h⟩ | ⟨-, -, -, h⟩
  · rw [h] at hn; cases hn
  · rw [h] at hn; cases hn
  · rw [h] at hn
    obtain ⟨h1, h2, -⟩ := (writeResponse_next _ _ _ _ _).2.1 k t hn
    exact ⟨h1, h2⟩
  · rw [h] at hn
    obtain ⟨h1, h2, -⟩ := (writeResponse_next _ _ _ _ _).2.1 k t hn
    exact ⟨h1, h2⟩

theorem dispatch_push (env : Env) (c : Cycle) (request1 : Request) (keepAlive : Bool)
    (cache : Option Cache) :
    ((dispatch env c request1 keepAlive cache).next = .hijack ∧
      request1.Method = MethodConnect ∧ c.writeOk = true ∧
      (dispatch env c request1 keepAlive cache).events
        = [.write connectResponse true, .push request1]) ∨
    ((dispatch env c request1 keepAlive cache).next ≠ .hijack ∧
      (request1.Method = MethodConnect → c.writeOk = false) ∧
      ∀ e ∈ (dispatch env c request1 keepAlive cache).events, e.isPush = false) := by
  rcases (dispatch_cases env c request1 keepAlive cache).2 with
    ⟨hm, hw, h, hn⟩ | ⟨hm, hw, h, hn⟩ | ⟨hm, -, h, hn⟩ | ⟨hm, -, h, hn⟩
  · exact Or.inl ⟨hn, hm, hw, h⟩
  · refine Or.inr ⟨by rw [hn]; simp, fun _ => hw, ?_⟩
    rw [h]
    simp [Event.isPush]
  · refine Or.inr ⟨by rw [hn]; exact (writeResponse_next _ _ _ _ _).1,
      fun h' => absurd h' hm, ?_⟩
    rw [h]
    intro e he
    obtain ⟨u, out, -, -, rfl⟩ := writeResponse_events _ _ _ _ _ e he
    rfl
  · refine Or.inr ⟨by rw [hn]; exact (writeResponse_next _ _ _ _ _).1,
      fun h' => absurd h' hm, ?_⟩
    rw [h]
    intro e he
    simp only [List.mem_cons] at he
    rcases he with rfl | he
    · rfl
    · obtain ⟨u, out, -, -, rfl⟩ := writeResponse_events _ _ _ _ _ e he
      rfl

theorem writeResponse_bad_request (c : Cycle) (keepAlive trusted : Bool)
    (cache : Option Cache) :
    ∃ out, prepareResponse keepAlive (responseWith StatusBadRequest) = .ret out ∧
      (writeResponse c keepAlive trusted cache (some (responseWith StatusBadRequest))).events
        = [.write out c.writeOk] := by
  obtain ⟨out, hout⟩ := prepareResponse_of_header keepAlive (responseWith StatusBadRequest) [] rfl
  refine ⟨out, hout, ?_⟩
  simp only [writeResponse, hout]
  cases c.writeOk <;> rfl

theorem dispatch_head (env : Env) (remoteAddr : String) (c : Cycle) (request : Request)
    (cache : Option Cache) :
    ∃ d more,
      (dispatch env c { request with RemoteAddr := remoteAddr }
        (keepAliveIntent { request with RemoteAddr := remoteAddr }) cache).events = d :: more ∧
      dispatches env remoteAddr request d = true := by
  rcases (dispatch_cases env c { request with RemoteAddr := remoteAddr }
      (keepAliveIntent { request with RemoteAddr := remoteAddr }) cache).2 with
    ⟨hm, -, h, -⟩ | ⟨hm, -, h, -⟩ | ⟨hm, hu, h, -⟩ | ⟨hm, hu, h, -⟩
  · have hm1 : request.Method = MethodConnect := hm
    exact ⟨_, _, h, by simp [dispatches, hm1]⟩
  · have hm1 : request.Method = MethodConnect := hm
    exact ⟨_, _, h, by simp [dispatches, hm1]⟩
  · have hm1 : ¬ request.Method = MethodConnect := hm
    obtain ⟨out, hout, hev⟩ := writeResponse_bad_request c
      (keepAliveIntent { request with RemoteAddr := remoteAddr }) true cache
    refine ⟨_, _, h.trans hev, ?_⟩
    simp only [dispatches, hm1, if_false, hout, beq_self_eq_true, Bool.and_true,
      Bool.or_eq_true, beq_iff_eq]
    exact hu
  · have hm1 : ¬ request.Method = MethodConnect := hm
    refine ⟨_, _, h, ?_⟩
    simp only [dispatches, Bool.and_eq_true, bne_iff_ne, ne_eq, Bool.not_eq_true',
      Bool.or_eq_false_iff, beq_eq_false_iff_ne, beq_self_eq_true, and_true]
    exact ⟨hm1, not_or.mp hu⟩

theorem body_trusted (env : Env) (remoteAddr : String) (c : Cycle) (request : Request)
    (cache : Option Cache) :
    (body env remoteAddr c request true cache).events =
      .read (some request) ::
        (dispatch env c { request with RemoteAddr := remoteAddr }
          (keepAliveIntent { request with RemoteAddr := remoteAddr }) cache).events ∧
    (body env remoteAddr c request true cache).next =
      (dispatch env c { request with RemoteAddr := remoteAddr }
        (keepAliveIntent { request with RemoteAddr := remoteAddr }) cache).next ∧
    (body env remoteAddr c request true cache).cache = cache := by
  refine ⟨rfl, rfl, ?_⟩
  exact (dispatch_cases env c _ _ cache).1

theorem body_auth_panic (env : Env) (remoteAddr : String) (c : Cycle) (request : Request)
    (cache : Option Cache) (msg : String)
    (ha : (authenticate env c.now { request with RemoteAddr := remoteAddr } cache).ret
      = .panic msg) :
    (body env remoteAddr c request false cache).events =
      [.read (some request), .authCall { request with RemoteAddr := remoteAddr }] ++
        (authenticate env c.now { request with RemoteAddr := remoteAddr } cache).events ∧
    (body env remoteAddr c request false cache).next = .panic msg := by
  simp only [body, ha]
  exact ⟨rfl, rfl⟩

theorem body_auth_nil (env : Env) (remoteAddr : String) (c : Cycle) (request : Request)
    (cache : Option Cache)
    (ha : (authenticate env c.now { request with RemoteAddr := remoteAddr } cache).ret
      = .ret none) :
    (body env remoteAddr c request false cache).events =
      [.read (some request), .authCall { request with RemoteAddr := remoteAddr }] ++
        (authenticate env c.now { request with RemoteAddr := remoteAddr } cache).events ++
        [.authReturn none] ++
        (dispatch env c { request with RemoteAddr := remoteAddr }
          (keepAliveIntent { request with RemoteAddr := remoteAddr })
          (authenticate env c.now { request with RemoteAddr := remoteAddr } cache).cache).events ∧
    (body env remoteAddr c request false cache).next =
      (dispatch env c { request with RemoteAddr := remoteAddr }
        (keepAliveIntent { request with RemoteAddr := remoteAddr })
        (authenticate env c.now { request with RemoteAddr := remoteAddr } cache).cache).next := by
  simp only [body, ha]
  exact ⟨rfl, rfl⟩

theorem body_auth_denied (env : Env) (remoteAddr : String) (c : Cycle) (request : Request)
    (cache : Option Cache) (denial : Response)
    (ha : (authenticate env c.now { request with RemoteAddr := remoteAddr } cache).ret
      = .ret (some denial)) :
    (body env remoteAddr c request false cache).events =
      [.read (some request), .authCall { request with RemoteAddr := remoteAddr }] ++
        (authenticate env c.now { request with RemoteAddr := remoteAddr } cache).events ++
        [.authReturn (some denial)] ++
        (writeResponse c (keepAliveIntent { request with RemoteAddr := remoteAddr }) false
          (authenticate env c.now { request with RemoteAddr := remoteAddr } cache).cache
          (some denial)).events ∧
    (body env remoteAddr c request false cache).next =
      (writeResponse c (keepAliveIntent { request with RemoteAddr := remoteAddr }) false
        (authenticate env c.now { request with RemoteAddr := remoteAddr } cache).cache
        (some denial)).next := by
  simp only [body, ha]
  exact ⟨rfl, rfl⟩

/-! ### The loop -/

theorem loop_stop (env : Env) (remoteAddr : String) (cs : List Cycle) (trusted : Bool)
    (cache : Option Cache) :
    loop env remoteAddr cs false trusted cache = ⟨[.close], .closed, cache⟩ := by
  cases cs <;> simp [loop]

theorem loop_nil (env : Env) (remoteAddr : String) (trusted : Bool) (cache : Option Cache) :
    loop env remoteAddr [] true trusted cache = ⟨[.read none, .close], .closed, cache⟩ := by
  simp [loop]

theorem loop_read_error (env : Env) (remoteAddr : String) (c : Cycle) (cs : List Cycle)
    (trusted : Bool) (cache : Option Cache) (hr : c.read = none) :
    loop env remoteAddr (c :: cs) true trusted cache
      = ⟨[.read none, .close], .closed, cache⟩ := by
  simp [loop, hr]

theorem loop_continue (env : Env) (remoteAddr : String) (c : Cycle) (cs : List Cycle)
    (trusted : Bool) (cache : Option Cache) (request : Request) (k t : Bool)
    (hr : c.read = some request)
    (hn : (body env remoteAddr c request trusted cache).next = .proceed k t) :
    loop env remoteAddr (c :: cs) true trusted cache =
      ⟨(body env remoteAddr c request trusted cache).events ++
          (loop env remoteAddr cs k t (body env remoteAddr c request trusted cache).cache).trace,
        (loop env remoteAddr cs k t (body env remoteAddr c request trusted cache).cache).exit,
        (loop env remoteAddr cs k t (body env remoteAddr c request trusted cache).cache).cache⟩ := by
  simp [loop, hr, hn]

theorem loop_close (env : Env) (remoteAddr : String) (c : Cycle) (cs : List Cycle)
    (trusted : Bool) (cache : Option Cache) (request : Request)
    (hr : c.read = some request)
    (hn : (body env remoteAddr c request trusted cache).next = .close) :
    loop env remoteAddr (c :: cs) true trusted cache =
      ⟨(body env remoteAddr c request trusted cache).events ++ [.close], .closed,
        (body env remoteAddr c request trusted cache).cache⟩ := by
  simp [loop, hr, hn]

theorem loop_hijack (env : Env) (remoteAddr : String) (c : Cycle) (cs : List Cycle)
    (trusted : Bool) (cache : Option Cache) (request : Request)
    (hr : c.read = some request)
    (hn : (body env remoteAddr c request trusted cache).next = .hijack) :
    loop env remoteAddr (c :: cs) true trusted cache =
      ⟨(body env remoteAddr c request trusted cache).events, .hijacked,
        (body env remoteAddr c request trusted cache).cache⟩ := by
  simp [loop, hr, hn]

theorem loop_panic (env : Env) (remoteAddr : String) (c : Cycle) (cs : List Cycle)
    (trusted : Bool) (cache : Option Cache) (request : Request) (msg : String)
    (hr : c.read = some request)
    (hn : (body env remoteAddr c request trusted cache).next = .panic msg) :
    loop env remoteAddr (c :: cs) true trusted cache =
      ⟨(body env remoteAddr c request trusted cache).events, .panicked msg,
        (body env remoteAddr c request trusted cache).cache⟩ := by
  simp [loop, hr, hn]

/-- Induction over the passes of the loop: a property of (trusted flag, trace,
exit) that holds of the ways the loop stops and is carried back over one pass
holds of every run of the loop. -/
theorem loop_induction (env : Env) (remoteAddr : String)
    (P : Bool → List Event → Exit → Prop)
    (hstop : ∀ t, P t [.close] .closed)
    (hfail : ∀ t, P t [.read none, .close] .closed)
    (hcont : ∀ (c : Cycle) (request : Request) (t : Bool) (cache : Option Cache)
      (k1 t1 : Bool) (rest : List Event) (x : Exit),
      (body env remoteAddr c request t cache).next = .proceed k1 t1 → P t1 rest x →
      P t ((body env remoteAddr c request t cache).events ++ rest) x)
    (hclose : ∀ (c : Cycle) (request : Request) (t : Bool) (cache : Option Cache),
      (body env remoteAddr c request t cache).next = .close →
      P t ((body env remoteAddr c request t cache).events ++ [.close]) .closed)
    (hhijack : ∀ (c : Cycle) (request : Request) (t : Bool) (cache : Option Cache),
      (body env remoteAddr c request t cache).next = .hijack →
      P t (body env remoteAddr c request t cache).events .hijacked)
    (hpanic : ∀ (c : Cycle) (request : Request) (t : Bool) (cache : Option Cache)
      (msg : String),
      (body env remoteAddr c request t cache).next = .panic msg →
      P t (body env remoteAddr c request t cache).events (.panicked msg)) :
    ∀ (cs : List Cycle) (k t : Bool) (cache : Option Cache),
      P t (loop env remoteAddr cs k t cache).trace (loop env remoteAddr cs k t cache).exit := by
  intro cs
  induction cs with
  | nil =>
    intro k t cache
    cases k
    · rw [loop_stop]; exact hstop t
    · rw [loop_nil]; exact hfail t
  | cons c cs ih =>
    intro k t cache
    cases k
    · rw [loop_stop]; exact hstop t
    · cases hr : c.read with
      | none => rw [loop_read_error env remoteAddr c cs t cache hr]; exact hfail t
      | some request =>
        cases hn : (body env remoteAddr c request t cache).next with
        | proceed k1 t1 =>
          rw [loop_continue env remoteAddr c cs t cache request k1 t1 hr hn]
          exact hcont c request t cache k1 t1 _ _ hn (ih k1 t1 _)
        | close =>
          rw [loop_close env remoteAddr c cs t cache request hr hn]
          exact hclose c request t cache hn
        | hijack =>
          rw [loop_hijack env remoteAddr c cs t cache request hr hn]
          exact hhijack c request t cache hn
        | panic msg =>
          rw [loop_panic env remoteAddr c cs t cache request msg hr hn]
          exact hpanic c request t cache msg hn

/-! ### Traces of trusted passes -/

theorem split_after {α : Type} (q : α → Prop) (a b pre post : List α) (x : α)
    (ha : ∀ e ∈ a, ¬ q e) (hx : q x) (h : a ++ b = pre ++ x :: post) :
    ∃ mid, pre = a ++ mid ∧ b = mid ++ x :: post := by
  induction a generalizing pre with
  | nil => exact ⟨pre, rfl, h⟩
  | cons y a ih =>
    cases pre with
    | nil =>
      simp only [List.cons_append, List.nil_append, List.cons.injEq] at h
      exact absurd (h.1 ▸ hx) (ha y (List.mem_cons_self y a))
    | cons z pre =>
      simp only [List.cons_append, List.cons.injEq] at h
      obtain ⟨mid, h1, h2⟩ := ih pre (fun e he => ha e (List.mem_cons_of_mem y he)) h.2
      exact ⟨mid, by rw [h.1, h1]; rfl, h2⟩

theorem readsDispatched_of_no_read (env : Env) (remoteAddr : String) (tr : List Event)
    (h : ∀ e ∈ tr, e.isRead = false) : ReadsDispatched env remoteAddr tr := by
  intro pre request post he
  have : Event.read (some request) ∈ tr := by rw [he]; simp
  have := h _ this
  simp [Event.isRead] at this

theorem readsDispatched_append (env : Env) (remoteAddr : String) (a b : List Event)
    (ha : ∀ e ∈ a, e.isRead = false) (hb : ReadsDispatched env remoteAddr b) :
    ReadsDispatched env remoteAddr (a ++ b) := by
  intro pre request post he
  obtain ⟨mid, -, h2⟩ := split_after (fun e => e.isRead = true) a b pre post _
    (fun e he' => by simp [ha e he']) rfl he
  exact hb mid request post h2

theorem readsDispatched_cons (env : Env) (remoteAddr : String) (request : Request)
    (d : Event) (more b : List Event)
    (hd : dispatches env remoteAddr request d = true)
    (hm : ∀ e ∈ d :: more, e.isRead = false) (hb : ReadsDispatched env remoteAddr b) :
    ReadsDispatched env remoteAddr (.read (some request) :: (d :: more) ++ b) := by
  intro pre request2 post he
  cases pre with
  | nil =>
    simp only [List.nil_append, List.cons_append, List.cons.injEq, Event.read.injEq,
      Option.some.injEq] at he
    obtain ⟨rfl, rfl⟩ := he
    exact ⟨d, more ++ b, rfl, hd⟩
  | cons z pre =>
    simp only [List.cons_append, List.cons.injEq] at he
    exact readsDispatched_append env remoteAddr (d :: more) b hm hb pre request2 post he.2

theorem dispatch_write_origin (env : Env) (c : Cycle) (request1 : Request) (keepAlive : Bool)
    (cache : Option Cache) :
    WritesFromDispatch (dispatch env c request1 keepAlive cache).events := by
  intro out ok hw
  rcases (dispatch_cases env c request1 keepAlive cache).2 with
    ⟨-, -, h, -⟩ | ⟨-, -, h, -⟩ | ⟨-, -, h, -⟩ | ⟨-, -, h, -⟩
  · rw [h] at hw
    simp at hw
    exact Or.inl hw.1
  · rw [h] at hw
    simp at hw
    exact Or.inl hw.1
  · rw [h] at hw
    obtain ⟨u, out1, hu, hp, he⟩ := writeResponse_events _ _ _ _ _ _ hw
    cases hu
    cases he
    exact Or.inr (Or.inl ⟨keepAlive, hp⟩)
  · rw [h] at hw ⊢
    simp only [List.mem_cons] at hw
    rcases hw with hw | hw
    · cases hw
    obtain ⟨u, out1, hu, hp, he⟩ := writeResponse_events _ _ _ _ _ _ hw
    cases he
    by_cases herr : (c.Do (sanitize env request1)).err.isSome = true
    · simp only [forwarded, herr, if_true, Option.some.injEq] at hu
      subst hu
      exact Or.inr (Or.inr (Or.inl ⟨keepAlive, hp⟩))
    · simp only [forwarded, herr, if_false] at hu
      refine Or.inr (Or.inr (Or.inr ⟨keepAlive, sanitize env request1,
        c.Do (sanitize env request1), u, List.mem_cons_self _ _, hu, ?_, hp⟩))
      simpa using herr

theorem writesFromDispatch_append (a b : List Event)
    (ha : WritesFromDispatch a) (hb : WritesFromDispatch b) : WritesFromDispatch (a ++ b) := by
  intro out ok hw
  rcases List.mem_append.mp hw with h | h
  · rcases ha out ok h with h1 | h1 | h1 | ⟨k, r, res, u, hm, h2⟩
    · exact Or.inl h1
    · exact Or.inr (Or.inl h1)
    · exact Or.inr (Or.inr (Or.inl h1))
    · exact Or.inr (Or.inr (Or.inr ⟨k, r, res, u, List.mem_append_left _ hm, h2⟩))
  · rcases hb out ok h with h1 | h1 | h1 | ⟨k, r, res, u, hm, h2⟩
    · exact Or.inl h1
    · exact Or.inr (Or.inl h1)
    · exact Or.inr (Or.inr (Or.inl h1))
    · exact Or.inr (Or.inr (Or.inr ⟨k, r, res, u, List.mem_append_right _ hm, h2⟩))

theorem writesFromDispatch_of_no_write (tr : List Event)
    (h : ∀ out ok, Event.write out ok ∉ tr) : WritesFromDispatch tr :=
  fun out ok hw => absurd hw (h out ok)

theorem trustedTrace_of_plain (env : Env) (remoteAddr : String) (tr : List Event)
    (h1 : ∀ e ∈ tr, e.isAuth = false) (h2 : ∀ e ∈ tr, e.isRead = false)
    (h3 : ∀ out ok, Event.write out ok ∉ tr) : TrustedTrace env remoteAddr tr :=
  ⟨h1, readsDispatched_of_no_read env remoteAddr tr h2, writesFromDispatch_of_no_write tr h3⟩

theorem trustedTrace_close (env : Env) (remoteAddr : String) :
    TrustedTrace env remoteAddr [.close] :=
  trustedTrace_of_plain env remoteAddr _ (by simp [Event.isAuth]) (by simp [Event.isRead])
    (by simp)

theorem trustedTrace_nil (env : Env) (remoteAddr : String) :
    TrustedTrace env remoteAddr [] :=
  trustedTrace_of_plain env remoteAddr _ (by simp) (by simp) (by simp)

theorem trustedTrace_read_error (env : Env) (remoteAddr : String) :
    TrustedTrace env remoteAddr [.read none, .close] :=
  trustedTrace_of_plain env remoteAddr _ (by simp [Event.isAuth]) (by simp [Event.isRead])
    (by simp)

theorem trustedTrace_dispatch (env : Env) (remoteAddr : String) (c : Cycle)
    (request : Request) (cache : Option Cache) (rest : List Event)
    (hrest : TrustedTrace env remoteAddr rest) :
    TrustedTrace env remoteAddr
      (.read (some request) ::
        (dispatch env c { request with RemoteAddr := remoteAddr }
          (keepAliveIntent { request with RemoteAddr := remoteAddr }) cache).events ++ rest) := by
  obtain ⟨h1, h2, h3⟩ := hrest
  have hd := dispatch_no_auth env c { request with RemoteAddr := remoteAddr }
    (keepAliveIntent { request with RemoteAddr := remoteAddr }) cache
  refine ⟨?_, ?_, ?_⟩
  · intro e he
    simp only [List.cons_append, List.mem_cons, List.mem_append] at he
    rcases he with rfl | he | he
    · rfl
    · exact (hd e he).1
    · exact h1 e he
  · obtain ⟨d, more, hev, hdis⟩ := dispatch_head env remoteAddr c request cache
    rw [hev]
    apply readsDispatched_cons env remoteAddr request d more rest hdis _ h2
    intro e he
    rw [← hev] at he
    exact (hd e he).2
  · have : WritesFromDispatch ([Event.read (some request)] ++
        (dispatch env c { request with RemoteAddr := remoteAddr }
          (keepAliveIntent { request with RemoteAddr := remoteAddr }) cache).events) :=
      writesFromDispatch_append _ _ (writesFromDispatch_of_no_write _ (by simp))
        (dispatch_write_origin env c _ _ cache)
    exact writesFromDispatch_append _ _ this h3

theorem trustedTrace_body (env : Env) (remoteAddr : String) (c : Cycle)
    (request : Request) (cache : Option Cache) (rest : List Event)
    (hrest : TrustedTrace env remoteAddr rest) :
    TrustedTrace env remoteAddr ((body env remoteAddr c request true cache).events ++ rest) := by
  rw [(body_trusted env remoteAddr c request cache).1]
  exact trustedTrace_dispatch env remoteAddr c request cache rest hrest

theorem body_trusted_stays (env : Env) (remoteAddr : String) (c : Cycle)
    (request : Request) (cache : Option Cache) (k t : Bool)
    (hn : (body env remoteAddr c request true cache).next = .proceed k t) : t = true := by
  rw [(body_trusted env remoteAddr c request cache).2.1] at hn
  exact (dispatch_continue env c _ _ cache k t hn).2

theorem loop_trusted (env : Env) (remoteAddr : String) (cs : List Cycle) (k : Bool)
    (cache : Option Cache) :
    TrustedTrace env remoteAddr (loop env remoteAddr cs k true cache).trace := by
  have h := loop_induction env remoteAddr
    (fun t tr _ => t = true → TrustedTrace env remoteAddr tr)
    (fun _ _ => trustedTrace_close env remoteAddr)
    (fun _ _ => trustedTrace_read_error env remoteAddr)
    (by
      intro c request t cache k1 t1 rest x hn ih ht
      subst ht
      exact trustedTrace_body env remoteAddr c request cache rest
        (ih (body_trusted_stays env remoteAddr c request cache k1 t1 hn)))
    (by
      intro c request t cache _ ht
      subst ht
      exact trustedTrace_body env remoteAddr c request cache _ (trustedTrace_close env remoteAddr))
    (by
      intro c request t cache _ ht
      subst ht
      have := trustedTrace_body env remoteAddr c request cache [] (trustedTrace_nil env remoteAddr)
      rwa [List.append_nil] at this)
    (by
      intro c request t cache msg _ ht
      subst ht
      have := trustedTrace_body env remoteAddr c request cache [] (trustedTrace_nil env remoteAddr)
      rwa [List.append_nil] at this)
    cs k true cache
  exact h rfl

theorem trustedTrace_append_closeIdle (env : Env) (remoteAddr : String) (tr : List Event)
    (h : TrustedTrace env remoteAddr tr) : TrustedTrace env remoteAddr (tr ++ [.closeIdle]) := by
  obtain ⟨h1, h2, h3⟩ := h
  refine ⟨?_, ?_, ?_⟩
  · intro e he
    simp only [List.mem_append, List.mem_singleton] at he
    rcases he with he | rfl
    · exact h1 e he
    · rfl
  · intro pre request post he
    rcases List.eq_nil_or_concat post with rfl | ⟨post1, x, rfl⟩
    · have := congrArg List.getLast? he
      simp at this
    · rw [List.concat_eq_append] at he
      have he2 : tr ++ [Event.closeIdle] = (pre ++ Event.read (some request) :: post1) ++ [x] := by
        rw [he]; simp
      obtain ⟨h4, -⟩ := List.append_inj' he2 rfl
      obtain ⟨e, rest, hr, hd⟩ := h2 pre request post1 h4
      exact ⟨e, rest ++ [x], by rw [hr]; simp, hd⟩
  · exact writesFromDispatch_append _ _ h3 (writesFromDispatch_of_no_write _ (by simp))

/-! ### Traces after authenticate has returned nil -/

theorem trustedAfterReturn_of_absent (env : Env) (remoteAddr : String) (tr : List Event)
    (h : ∀ e ∈ tr, e ≠ .authReturn none) : TrustedAfterReturn env remoteAddr tr := by
  intro pre post he
  exact absurd rfl (h (.authReturn none) (by rw [he]; simp))

theorem trustedAfterReturn_of_trusted (env : Env) (remoteAddr : String) (tr : List Event)
    (h : TrustedTrace env remoteAddr tr) : TrustedAfterReturn env remoteAddr tr := by
  apply trustedAfterReturn_of_absent
  intro e he heq
  have := h.1 e he
  rw [heq] at this
  cases this

theorem trustedAfterReturn_append (env : Env) (remoteAddr : String) (a b : List Event)
    (ha : ∀ e ∈ a, e ≠ .authReturn none) (hb : TrustedAfterReturn env remoteAddr b) :
    TrustedAfterReturn env remoteAddr (a ++ b) := by
  intro pre post he
  obtain ⟨mid, -, h2⟩ := split_after (fun e => e = .authReturn none) a b pre post _ ha rfl he
  exact hb mid post h2

theorem trustedAfterReturn_at (env : Env) (remoteAddr : String) (a b : List Event)
    (ha : ∀ e ∈ a, e ≠ .authReturn none) (hb : TrustedTrace env remoteAddr b) :
    TrustedAfterReturn env remoteAddr (a ++ .authReturn none :: b) := by
  intro pre post he
  obtain ⟨mid, -, h2⟩ := split_after (fun e => e = .authReturn none) a _ pre post _ ha rfl he
  cases mid with
  | nil =>
    simp only [List.nil_append, List.cons.injEq, true_and] at h2
    rw [← h2]
    exact hb
  | cons y mid =>
    simp only [List.cons_append, List.cons.injEq] at h2
    have : Event.authReturn none ∈ b := by rw [h2.2]; simp
    have := hb.1 _ this
    cases this

theorem backend_ne_authReturn (e : Event) (h : e.isBackend = true) : e ≠ .authReturn none := by
  intro he
  rw [he] at h
  cases h

theorem trustedTrace_tail (env : Env) (remoteAddr : String) (c : Cycle)
    (request1 : Request) (keepAlive : Bool) (cache : Option Cache) (rest : List Event)
    (hrest : TrustedTrace env remoteAddr rest) :
    TrustedTrace env remoteAddr ((dispatch env c request1 keepAlive cache).events ++ rest) := by
  obtain ⟨h1, h2, h3⟩ := hrest
  have hd := dispatch_no_auth env c request1 keepAlive cache
  refine ⟨?_, ?_, ?_⟩
  · intro e he
    rcases List.mem_append.mp he with he | he
    · exact (hd e he).1
    · exact h1 e he
  · exact readsDispatched_append env remoteAddr _ rest (fun e he => (hd e he).2) h2
  · exact writesFromDispatch_append _ _ (dispatch_write_origin env c _ _ cache) h3

theorem body_auth_becomes_trusted (env : Env) (remoteAddr : String) (c : Cycle)
    (request : Request) (cache : Option Cache) (k t : Bool)
    (ha : (authenticate env c.now { request with RemoteAddr := remoteAddr } cache).ret
      = .ret none)
    (hn : (body env remoteAddr c request false cache).next = .proceed k t) : t = true := by
  rw [(body_auth_nil env remoteAddr c request cache ha).2] at hn
  exact (dispatch_continue env c _ _ _ k t hn).2

theorem body_after_return (env : Env) (remoteAddr : String) (c : Cycle)
    (request : Request) (cache : Option Cache) (rest : List Event)
    (hQ : TrustedAfterReturn env remoteAddr rest)
    (hT : (authenticate env c.now { request with RemoteAddr := remoteAddr } cache).ret
      = .ret none → TrustedTrace env remoteAddr rest) :
    TrustedAfterReturn env remoteAddr
      ((body env remoteAddr c request false cache).events ++ rest) := by
  have hb := authenticate_events_backend env c.now { request with RemoteAddr := remoteAddr } cache
  have hpre : ∀ e ∈ [Event.read (some request),
      Event.authCall { request with RemoteAddr := remoteAddr }] ++
      (authenticate env c.now { request with RemoteAddr := remoteAddr } cache).events,
      e ≠ .authReturn none := by
    intro e he
    simp only [List.cons_append, List.nil_append, List.mem_cons] at he
    rcases he with rfl | rfl | he
    · simp
    · simp
    · exact backend_ne_authReturn e (hb e he)
  cases ha : (authenticate env c.now { request with RemoteAddr := remoteAddr } cache).ret with
  | panic msg =>
    rw [(body_auth_panic env remoteAddr c request cache msg ha).1]
    exact trustedAfterReturn_append env remoteAddr _ rest hpre hQ
  | ret r =>
    cases r with
    | none =>
      rw [(body_auth_nil env remoteAddr c request cache ha).1]
      have := trustedAfterReturn_at env remoteAddr _ _ hpre
        (trustedTrace_tail env remoteAddr c { request with RemoteAddr := remoteAddr }
          (keepAliveIntent { request with RemoteAddr := remoteAddr })
          (authenticate env c.now { request with RemoteAddr := remoteAddr } cache).cache
          rest (hT ha))
      simpa [List.append_assoc] using this
    | some denial =>
      rw [(body_auth_denied env remoteAddr c request cache denial ha).1]
      apply trustedAfterReturn_append env remoteAddr _ rest _ hQ
      intro e he
      simp only [List.append_assoc, List.mem_append, List.mem_singleton] at he
      rcases he with he | he | he | he
      · exact hpre e (List.mem_append_left _ he)
      · exact backend_ne_authReturn e (hb e he)
      · rw [he]; simp
      · obtain ⟨u, out, -, -, rfl⟩ := writeResponse_events _ _ _ _ _ e he
        simp

theorem body_step_trust (env : Env) (remoteAddr : String) (c : Cycle)
    (request : Request) (t : Bool) (cache : Option Cache) (rest : List Event)
    (hQ : TrustedAfterReturn env remoteAddr rest)
    (hT : t = true ∨
        (authenticate env c.now { request with RemoteAddr := remoteAddr } cache).ret = .ret none →
      TrustedTrace env remoteAddr rest) :
    (t = true → TrustedTrace env remoteAddr
      ((body env remoteAddr c request t cache).events ++ rest)) ∧
    TrustedAfterReturn env remoteAddr ((body env remoteAddr c request t cache).events ++ rest) := by
  cases t
  · refine ⟨fun h => Bool.noConfusion h, ?_⟩
    exact body_after_return env remoteAddr c request cache rest hQ (fun ha => hT (Or.inr ha))
  · have := trustedTrace_body env remoteAddr c request cache rest (hT (Or.inl rfl))
    exact ⟨fun _ => this, trustedAfterReturn_of_trusted env remoteAddr _ this⟩

theorem loop_trust (env : Env) (remoteAddr : String) (cs : List Cycle) (k t : Bool)
    (cache : Option Cache) :
    (t = true → TrustedTrace env remoteAddr (loop env remoteAddr cs k t cache).trace) ∧
    TrustedAfterReturn env remoteAddr (loop env remoteAddr cs k t cache).trace := by
  have hclose : TrustedAfterReturn env remoteAddr [.close] :=
    trustedAfterReturn_of_trusted env remoteAddr _ (trustedTrace_close env remoteAddr)
  have hnil : TrustedAfterReturn env remoteAddr [] :=
    trustedAfterReturn_of_trusted env remoteAddr _ (trustedTrace_nil env remoteAddr)
  exact loop_induction env remoteAddr
    (fun t tr _ => (t = true → TrustedTrace env remoteAddr tr) ∧
      TrustedAfterReturn env remoteAddr tr)
    (fun _ => ⟨fun _ => trustedTrace_close env remoteAddr, hclose⟩)
    (fun _ => ⟨fun _ => trustedTrace_read_error env remoteAddr,
      trustedAfterReturn_of_trusted env remoteAddr _ (trustedTrace_read_error env remoteAddr)⟩)
    (by
      intro c request t cache k1 t1 rest x hn ih
      apply body_step_trust env remoteAddr c request t cache rest ih.2
      intro h
      apply ih.1
      rcases h with rfl | ha
      · exact body_trusted_stays env remoteAddr c request cache k1 t1 hn
      · cases t
        · exact body_auth_becomes_trusted env remoteAddr c request cache k1 t1 ha hn
        · exact body_trusted_stays env remoteAddr c request cache k1 t1 hn)
    (by
      intro c request t cache _
      exact body_step_trust env remoteAddr c request t cache _ hclose
        (fun _ => trustedTrace_close env remoteAddr))
    (by
      intro c request t cache _
      have := body_step_trust env remoteAddr c request t cache [] hnil
        (fun _ => trustedTrace_nil env remoteAddr)
      rwa [List.append_nil] at this)
    (by
      intro c request t cache msg _
      have := body_step_trust env remoteAddr c request t cache [] hnil
        (fun _ => trustedTrace_nil env remoteAddr)
      rwa [List.append_nil] at this)
    cs k t cache

theorem trustedAfterReturn_append_closeIdle (env : Env) (remoteAddr : String)
    (tr : List Event) (h : TrustedAfterReturn env remoteAddr tr) :
    TrustedAfterReturn env remoteAddr (tr ++ [.closeIdle]) := by
  intro pre post he
  rcases List.eq_nil_or_concat post with rfl | ⟨post1, x, rfl⟩
  · have := congrArg List.getLast? he
    simp at this
  · rw [List.concat_eq_append] at he
    have he2 : tr ++ [Event.closeIdle] = (pre ++ Event.authReturn none :: post1) ++ [x] := by
      rw [he]; simp
    obtain ⟨h4, h5⟩ := List.append_inj' he2 rfl
    simp only [List.cons.injEq, and_true] at h5
    rw [List.concat_eq_append, ← h5]
    exact trustedTrace_append_closeIdle env remoteAddr post1 (h pre post1 h4)

/-- C7.  With a nil cache authentication is off for the whole connection, also
with an authenticator configured: the trace of `HandleConn` has no event of
`authenticate` (no call, no cache read or write, no verifier call, no log line);
every successfully read request is at once followed by its dispatch, the 200
write of a CONNECT or the forwarding call or the 400 write; and every response
written is the 200 of a CONNECT, a 400, a 502, or a response the outbound client
returned, so that a written 407 or 403 is the status of such a response and
never one made locally. -/
theorem HandleConn_nil_cache_disables_authentication (env : Env) (remoteAddr : String)
    (cycles : List Cycle) :
    (∀ e ∈ (HandleConn env remoteAddr cycles none).trace, e.isAuth = false) ∧
    ReadsDispatched env remoteAddr (HandleConn env remoteAddr cycles none).trace ∧
    WritesFromDispatch (HandleConn env remoteAddr cycles none).trace ∧
    (∀ out ok, .write out ok ∈ (HandleConn env remoteAddr cycles none).trace →
      out.StatusCode = 407 ∨ out.StatusCode = 403 →
      ∃ k r res u, .roundTrip r res ∈ (HandleConn env remoteAddr cycles none).trace ∧
        res.resp = some u ∧ res.err = none ∧ prepareResponse k u = .ret out ∧
        u.StatusCode = out.StatusCode) := by
  have h : TrustedTrace env remoteAddr (HandleConn env remoteAddr cycles none).trace :=
    trustedTrace_append_closeIdle env remoteAddr _ (loop_trusted env remoteAddr cycles true none)
  refine ⟨h.1, h.2.1, h.2.2, ?_⟩
  intro out ok hw hs
  rcases h.2.2 out ok hw with h1 | ⟨k, h1⟩ | ⟨k, h1⟩ | ⟨k, r, res, u, hm, hu, he, hp⟩
  · rw [h1] at hs
    exact absurd hs (by decide)
  · rw [(prepareResponse_statusCode k _ out h1).1] at hs
    exact absurd hs (by decide)
  · rw [(prepareResponse_statusCode k _ out h1).1] at hs
    exact absurd hs (by decide)
  · exact ⟨k, r, res, u, hm, hu, he, hp, (prepareResponse_statusCode k u out hp).1.symm⟩

/-- C8.  Trust belongs to the connection and never goes back.  (1) A pass that
starts trusted ends with the flag still true.  (2) A pass in which `authenticate`
returns nil ends with the flag true.  (3) From a trusted state on, whatever the
rest of the script, the cache and the credentials of the later requests, the
loop makes no event of `authenticate`, dispatches every request it reads at
once, and writes only responses of the dispatch.  (4) In every run of
`HandleConn`, the same holds of everything that follows a return of nil from
`authenticate`.  (5) With a nil cache it holds of the whole run. -/
theorem trust_is_per_connection_and_monotone (env : Env) (remoteAddr : String) :
    (∀ (c : Cycle) (request : Request) (cache : Option Cache) (k t : Bool),
      (body env remoteAddr c request true cache).next = .proceed k t → t = true) ∧
    (∀ (c : Cycle) (request : Request) (cache : Option Cache) (k t : Bool),
      (authenticate env c.now { request with RemoteAddr := remoteAddr } cache).ret = .ret none →
      (body env remoteAddr c request false cache).next = .proceed k t → t = true) ∧
    (∀ (cs : List Cycle) (k : Bool) (cache : Option Cache),
      (∀ e ∈ (loop env remoteAddr cs k true cache).trace, e.isAuth = false) ∧
      ReadsDispatched env remoteAddr (loop env remoteAddr cs k true cache).trace ∧
      WritesFromDispatch (loop env remoteAddr cs k true cache).trace) ∧
    (∀ (cycles : List Cycle) (cache : Option Cache) (pre post : List Event),
      (HandleConn env remoteAddr cycles cache).trace = pre ++ .authReturn none :: post →
      (∀ e ∈ post, e.isAuth = false) ∧
      ReadsDispatched env remoteAddr post ∧
      WritesFromDispatch post) ∧
    (∀ (cycles : List Cycle),
      ∀ e ∈ (HandleConn env remoteAddr cycles none).trace, e.isAuth = false) := by
  refine ⟨?_, ?_, ?_, ?_, ?_⟩
  · intro c request cache k t hn
    exact body_trusted_stays env remoteAddr c request cache k t hn
  · intro c request cache k t ha hn
    exact body_auth_becomes_trusted env remoteAddr c request cache k t ha hn
  · intro cs k cache
    exact loop_trusted env remoteAddr cs k cache
  · intro cycles cache pre post he
    exact trustedAfterReturn_append_closeIdle env remoteAddr _
      (loop_trust env remoteAddr cycles true cache.isNone cache).2 pre post he
  · intro cycles
    exact (trustedTrace_append_closeIdle env remoteAddr _
      (loop_trusted env remoteAddr cycles true none)).1

/-! ### Pushes and failed writes -/

theorem writeResponse_failedWriteLast (c : Cycle) (keepAlive trusted : Bool)
    (cache : Option Cache) (resp : Option Response) :
    FailedWriteLast (writeResponse c keepAlive trusted cache resp).events
      (writeResponse c keepAlive trusted cache resp).next := by
  rcases (writeResponse_cases c keepAlive trusted cache resp).2 with
    ⟨he, msg, h⟩ | ⟨u, out, -, -, he, h⟩
  · rw [h, he]
    exact ⟨fun h' => (by cases h'), fun _ out => by simp⟩
  · rw [h, he]
    cases c.writeOk
    · exact ⟨fun _ => ⟨[], out, rfl, by simp⟩, fun h' => absurd rfl h'⟩
    · exact ⟨fun h' => (by cases h'), fun _ out' => by simp⟩

theorem failedWriteLast_cons (e : Event) (events : List Event) (next : Next)
    (he : e.isWrite = false) (h : FailedWriteLast events next) :
    FailedWriteLast (e :: events) next := by
  refine ⟨fun hn => ?_, fun hn out hm => ?_⟩
  · obtain ⟨head, out, h1, h2⟩ := h.1 hn
    refine ⟨e :: head, out, by rw [h1]; rfl, ?_⟩
    intro x hx
    rcases List.mem_cons.mp hx with rfl | hx
    · exact he
    · exact h2 x hx
  · rcases List.mem_cons.mp hm with rfl | hm
    · cases he
    · exact h.2 hn out hm

theorem failedWriteLast_append (head events : List Event) (next : Next)
    (hh : ∀ e ∈ head, e.isWrite = false) (h : FailedWriteLast events next) :
    FailedWriteLast (head ++ events) next := by
  induction head with
  | nil => exact h
  | cons e head ih =>
    exact failedWriteLast_cons e _ next (hh e (List.mem_cons_self _ _))
      (ih (fun x hx => hh x (List.mem_cons_of_mem _ hx)))

theorem dispatch_failedWriteLast (env : Env) (c : Cycle) (request1 : Request)
    (keepAlive : Bool) (cache : Option Cache) :
    FailedWriteLast (dispatch env c request1 keepAlive cache).events
      (dispatch env c request1 keepAlive cache).next := by
  rcases (dispatch_cases env c request1 keepAlive cache).2 with
    ⟨-, -, h, hn⟩ | ⟨-, -, h, hn⟩ | ⟨-, -, h, hn⟩ | ⟨-, -, h, hn⟩
  · rw [h, hn]
    exact ⟨fun h' => (by cases h'), fun _ out => by simp⟩
  · rw [h, hn]
    exact ⟨fun _ => ⟨[], _, rfl, by simp⟩, fun h' => absurd rfl h'⟩
  · rw [h, hn]
    exact writeResponse_failedWriteLast _ _ _ _ _
  · rw [h, hn]
    exact failedWriteLast_cons _ _ _ rfl (writeResponse_failedWriteLast _ _ _ _ _)

theorem backend_plain (e : Event) (h : e.isBackend = true) :
    e.isWrite = false ∧ e.isPush = false ∧ e.isRead = false := by
  cases e <;> first | exact ⟨rfl, rfl, rfl⟩ | cases h

/-- The events of a pass split into a head, the read and for an untrusted pass
what `authenticate` does, and a tail: the dispatch, or the write of a denial,
or nothing when `authenticate` panics. -/
theorem body_decomp (env : Env) (remoteAddr : String) (c : Cycle) (request : Request)
    (t : Bool) (cache : Option Cache) :
    ∃ head tail, (body env remoteAddr c request t cache).events = head ++ tail ∧
      (∀ e ∈ head, e.isWrite = false ∧ e.isPush = false) ∧
      ((∃ cache1,
          tail = (dispatch env c { request with RemoteAddr := remoteAddr }
            (keepAliveIntent { request with RemoteAddr := remoteAddr }) cache1).events ∧
          (body env remoteAddr c request t cache).next =
            (dispatch env c { request with RemoteAddr := remoteAddr }
              (keepAliveIntent { request with RemoteAddr := remoteAddr }) cache1).next ∧
          ∃ head1 last, head = head1 ++ [last] ∧
            ((last = .read (some request) ∧ head1 = [] ∧ t = true) ∨
             (last = .authReturn none ∧ t = false ∧
               Event.authCall { request with RemoteAddr := remoteAddr } ∈ head1 ∧
               (authenticate env c.now { request with RemoteAddr := remoteAddr } cache).ret
                 = .ret none))) ∨
       (∃ cache1 denial,
          (authenticate env c.now { request with RemoteAddr := remoteAddr } cache).ret
            = .ret (some denial) ∧ t = false ∧
          tail = (writeResponse c (keepAliveIntent { request with RemoteAddr := remoteAddr })
            false cache1 (some denial)).events ∧
          (body env remoteAddr c request t cache).next =
            (writeResponse c (keepAliveIntent { request with RemoteAddr := remoteAddr })
              false cache1 (some denial)).next) ∨
       (tail = [] ∧ ∃ msg, (body env remoteAddr c request t cache).next = .panic msg)) := by
  have hb := authenticate_events_backend env c.now { request with RemoteAddr := remoteAddr } cache
  have hpre : ∀ e ∈ [Event.read (some request),
      Event.authCall { request with RemoteAddr := remoteAddr }] ++
      (authenticate env c.now { request with RemoteAddr := remoteAddr } cache).events,
      e.isWrite = false ∧ e.isPush = false := by
    intro e he
    simp only [List.cons_append, List.nil_append, List.mem_cons] at he
    rcases he with rfl | rfl | he
    · exact ⟨rfl, rfl⟩
    · exact ⟨rfl, rfl⟩
    · exact ⟨(backend_plain e (hb e he)).1, (backend_plain e (hb e he)).2.1⟩
  cases t
  · cases ha : (authenticate env c.now { request with RemoteAddr := remoteAddr } cache).ret with
    | panic msg =>
      obtain ⟨h1, h2⟩ := body_auth_panic env remoteAddr c request cache msg ha
      exact ⟨_, [], by rw [h1, List.append_nil], hpre, Or.inr (Or.inr ⟨rfl, msg, h2⟩)⟩
    | ret r =>
      cases r with
      | none =>
        obtain ⟨h1, h2⟩ := body_auth_nil env remoteAddr c request cache ha
        refine ⟨_, _, h1, ?_, Or.inl ⟨_, rfl, h2, _, _, rfl, Or.inr ⟨rfl, rfl, ?_, rfl⟩⟩⟩
        · intro e he
          rcases List.mem_append.mp he with he | he
          · exact hpre e he
          · simp only [List.mem_singleton] at he
            subst he
            exact ⟨rfl, rfl⟩
        · simp
      | some denial =>
        obtain ⟨h1, h2⟩ := body_auth_denied env remoteAddr c request cache denial ha
        refine ⟨_, _, h1, ?_, Or.inr (Or.inl ⟨_, denial, rfl, rfl, rfl, h2⟩)⟩
        intro e he
        rcases List.mem_append.mp he with he | he
        · exact hpre e he
        · simp only [List.mem_singleton] at he
          subst he
          exact ⟨rfl, rfl⟩
  · obtain ⟨h1, h2, -⟩ := body_trusted env remoteAddr c request cache
    refine ⟨[.read (some request)], _, h1, ?_,
      Or.inl ⟨cache, rfl, h2, [], _, rfl, Or.inl ⟨rfl, rfl, rfl⟩⟩⟩
    intro e he
    simp only [List.mem_singleton] at he
    subst he
    exact ⟨rfl, rfl⟩

theorem body_failedWriteLast (env : Env) (remoteAddr : String) (c : Cycle)
    (request : Request) (t : Bool) (cache : Option Cache) :
    FailedWriteLast (body env remoteAddr c request t cache).events
      (body env remoteAddr c request t cache).next := by
  obtain ⟨head, tail, he, hh, h⟩ := body_decomp env remoteAddr c request t cache
  rw [he]
  apply failedWriteLast_append head tail _ (fun e h' => (hh e h').1)
  rcases h with ⟨cache1, h1, h2, -⟩ | ⟨cache1, denial, -, -, h1, h2⟩ | ⟨h1, msg, h2⟩
  · rw [h1, h2]; exact dispatch_failedWriteLast _ _ _ _ _
  · rw [h1, h2]; exact writeResponse_failedWriteLast _ _ _ _ _
  · rw [h1, h2]
    exact ⟨fun h' => (by cases h'), fun _ out => by simp⟩

theorem body_push (env : Env) (remoteAddr : String) (c : Cycle) (request : Request)
    (t : Bool) (cache : Option Cache) :
    ((body env remoteAddr c request t cache).next = .hijack ∧
      request.Method = MethodConnect ∧ c.writeOk = true ∧
      ∃ head1 last, (body env remoteAddr c request t cache).events =
          head1 ++ [last, .write connectResponse true,
            .push { request with RemoteAddr := remoteAddr }] ∧
        (∀ e ∈ head1 ++ [last, .write connectResponse true], e.isPush = false) ∧
        ((last = .read (some request) ∧ head1 = [] ∧ t = true) ∨
         (last = .authReturn none ∧ t = false ∧
           Event.authCall { request with RemoteAddr := remoteAddr } ∈ head1 ∧
           (authenticate env c.now { request with RemoteAddr := remoteAddr } cache).ret
             = .ret none))) ∨
    ((body env remoteAddr c request t cache).next ≠ .hijack ∧
      (request.Method = MethodConnect →
        c.writeOk = false ∨
        (t = false ∧
          (authenticate env c.now { request with RemoteAddr := remoteAddr } cache).ret
            ≠ .ret none)) ∧
      ∀ e ∈ (body env remoteAddr c request t cache).events, e.isPush = false) := by
  obtain ⟨head, tail, he, hh, h⟩ := body_decomp env remoteAddr c request t cache
  rcases h with ⟨cache1, h1, h2, head1, last, h3, h4⟩ | ⟨cache1, denial, ha, ht, h1, h2⟩ |
    ⟨h1, msg, h2⟩
  · rcases dispatch_push env c { request with RemoteAddr := remoteAddr }
        (keepAliveIntent { request with RemoteAddr := remoteAddr }) cache1 with
      ⟨d1, d2, d3, d4⟩ | ⟨d1, d2, d3⟩
    · refine Or.inl ⟨by rw [h2]; exact d1, d2, d3, head1, last, ?_, ?_, h4⟩
      · rw [he, h1, d4, h3]; simp
      · intro e hm
        have : e ∈ head ∨ e = .write connectResponse true := by
          rw [h3]
          simp only [List.mem_append, List.mem_cons, List.mem_singleton, List.not_mem_nil,
            or_false] at hm ⊢
          tauto
        rcases this with hm | rfl
        · exact (hh e hm).2
        · rfl
    · refine Or.inr ⟨by rw [h2]; exact d1, fun hm => Or.inl (d2 hm), ?_⟩
      intro e hm
      rw [he] at hm
      rcases List.mem_append.mp hm with hm | hm
      · exact (hh e hm).2
      · rw [h1] at hm
        exact d3 e hm
  · refine Or.inr ⟨by rw [h2]; exact (writeResponse_next _ _ _ _ _).1,
      fun _ => Or.inr ⟨ht, by rw [ha]; simp⟩, ?_⟩
    intro e hm
    rw [he] at hm
    rcases List.mem_append.mp hm with hm | hm
    · exact (hh e hm).2
    · rw [h1] at hm
      obtain ⟨u, out, -, -, rfl⟩ := writeResponse_events _ _ _ _ _ e hm
      rfl
  · have hne : (body env remoteAddr c request t cache).next ≠ .hijack := by
      rw [h2]; simp
    have hnp : ∀ e ∈ (body env remoteAddr c request t cache).events, e.isPush = false := by
      intro e hm
      rw [he, h1, List.append_nil] at hm
      exact (hh e hm).2
    refine Or.inr ⟨hne, ?_, hnp⟩
    intro hm
    cases t
    · refine Or.inr ⟨rfl, fun ha => ?_⟩
      rw [(body_auth_nil env remoteAddr c request cache ha).2] at h2
      rcases (dispatch_cases env c { request with RemoteAddr := remoteAddr }
          (keepAliveIntent { request with RemoteAddr := remoteAddr })
          (authenticate env c.now { request with RemoteAddr := remoteAddr } cache).cache).2 with
        ⟨-, -, -, hn⟩ | ⟨-, -, -, hn⟩ | ⟨hm1, -, -, -⟩ | ⟨hm1, -, -, -⟩
      · rw [hn] at h2; cases h2
      · rw [hn] at h2; cases h2
      · exact hm1 hm
      · exact hm1 hm
    · rw [(body_trusted env remoteAddr c request cache).2.1] at h2
      rcases (dispatch_cases env c { request with RemoteAddr := remoteAddr }
          (keepAliveIntent { request with RemoteAddr := remoteAddr }) cache).2 with
        ⟨-, -, -, hn⟩ | ⟨-, -, -, hn⟩ | ⟨hm1, -, -, -⟩ | ⟨hm1, -, -, -⟩
      · rw [hn] at h2; cases h2
      · rw [hn] at h2; cases h2
      · exact absurd hm hm1
      · exact absurd hm hm1

theorem pushPlaced_of_absent (remoteAddr : String) (tr after : List Event)
    (h : ∀ e ∈ tr, e.isPush = false) : PushPlaced remoteAddr tr after := by
  intro pre r post he
  have := h (.push r) (by rw [he]; simp)
  cases this

theorem pushPlaced_append (remoteAddr : String) (a b after : List Event)
    (ha : ∀ e ∈ a, e.isPush = false) (hb : PushPlaced remoteAddr b after) :
    PushPlaced remoteAddr (a ++ b) after := by
  intro pre r post he
  obtain ⟨mid, h1, h2⟩ := split_after (fun e => e.isPush = true) a b pre post _
    (fun e he' => by simp [ha e he']) rfl he
  obtain ⟨h3, h4, pre1, last, h5, h6⟩ := hb mid r post h2
  refine ⟨h3, h4, a ++ pre1, last, by rw [h1, h5, List.append_assoc], ?_⟩
  rcases h6 with h6 | ⟨h6, h7⟩
  · exact Or.inl h6
  · exact Or.inr ⟨h6, List.mem_append_right _ h7⟩

theorem loop_pushPlaced (env : Env) (remoteAddr : String) (cs : List Cycle) (k t : Bool)
    (cache : Option Cache) :
    PushPlaced remoteAddr (loop env remoteAddr cs k t cache).trace [] := by
  have hn : ∀ (c : Cycle) (request : Request) (t : Bool) (cache : Option Cache),
      (body env remoteAddr c request t cache).next ≠ .hijack →
      ∀ e ∈ (body env remoteAddr c request t cache).events, e.isPush = false := by
    intro c request t cache hne
    rcases body_push env remoteAddr c request t cache with ⟨h, -⟩ | ⟨-, -, h⟩
    · exact absurd h hne
    · exact h
  exact loop_induction env remoteAddr (fun _ tr _ => PushPlaced remoteAddr tr [])
    (fun _ => pushPlaced_of_absent remoteAddr _ _ (by simp [Event.isPush]))
    (fun _ => pushPlaced_of_absent remoteAddr _ _ (by simp [Event.isPush]))
    (by
      intro c request t cache k1 t1 rest x hnext ih
      exact pushPlaced_append remoteAddr _ rest [] (hn c request t cache (by rw [hnext]; simp)) ih)
    (by
      intro c request t cache hnext
      exact pushPlaced_append remoteAddr _ _ [] (hn c request t cache (by rw [hnext]; simp))
        (pushPlaced_of_absent remoteAddr _ _ (by simp [Event.isPush])))
    (by
      intro c request t cache hnext
      rcases body_push env remoteAddr c request t cache with
        ⟨-, hm, -, head1, last, he, hnp, hl⟩ | ⟨h, -⟩
      · intro pre r post hd
        rw [he] at hd
        have hd2 : (head1 ++ [last, .write connectResponse true]) ++
            [Event.push { request with RemoteAddr := remoteAddr }] = pre ++ .push r :: post := by
          rw [← hd]; simp
        obtain ⟨mid, h1, h2⟩ := split_after (fun e => e.isPush = true) _ _ pre post _
          (fun e he' => by simp [hnp e he']) rfl hd2
        cases mid with
        | nil =>
          simp only [List.nil_append, List.cons.injEq, Event.push.injEq] at h2
          obtain ⟨h2, h3⟩ := h2
          subst h2
          refine ⟨h3.symm, hm, head1, last, by rw [h1, List.append_nil], ?_⟩
          rcases hl with ⟨hl, -, -⟩ | ⟨hl, -, hl2, -⟩
          · exact Or.inl ⟨request, hl, rfl⟩
          · exact Or.inr ⟨hl, hl2⟩
        | cons y mid =>
          simp only [List.cons_append, List.cons.injEq] at h2
          have := congrArg List.length h2.2
          simp at this
          omega
      · exact absurd hnext h)
    (by
      intro c request t cache msg hnext
      exact pushPlaced_of_absent remoteAddr _ _ (hn c request t cache (by rw [hnext]; simp)))
    cs k t cache

theorem failedWriteEnds_of_absent (tr after : List Event)
    (h : ∀ out, Event.write out false ∉ tr) : FailedWriteEnds tr after := by
  intro pre out post he
  exact absurd (by rw [he]; simp) (h out)

theorem failedWriteEnds_append (a b after : List Event)
    (ha : ∀ out, Event.write out false ∉ a) (hb : FailedWriteEnds b after) :
    FailedWriteEnds (a ++ b) after := by
  intro pre out post he
  obtain ⟨mid, -, h2⟩ := split_after (fun e => ∃ o, e = Event.write o false) a b pre post _
    (fun e he' ⟨o, ho⟩ => ha o (ho ▸ he')) ⟨out, rfl⟩ he
  exact hb mid out post h2

theorem loop_failedWriteEnds (env : Env) (remoteAddr : String) (cs : List Cycle) (k t : Bool)
    (cache : Option Cache) :
    FailedWriteEnds (loop env remoteAddr cs k t cache).trace [.close] := by
  have hn : ∀ (c : Cycle) (request : Request) (t : Bool) (cache : Option Cache),
      (body env remoteAddr c request t cache).next ≠ .close →
      ∀ out, Event.write out false ∉ (body env remoteAddr c request t cache).events :=
    fun c request t cache hne => (body_failedWriteLast env remoteAddr c request t cache).2 hne
  exact loop_induction env remoteAddr (fun _ tr _ => FailedWriteEnds tr [.close])
    (fun _ => failedWriteEnds_of_absent _ _ (by simp))
    (fun _ => failedWriteEnds_of_absent _ _ (by simp))
    (by
      intro c request t cache k1 t1 rest x hnext ih
      exact failedWriteEnds_append _ rest _ (hn c request t cache (by rw [hnext]; simp)) ih)
    (by
      intro c request t cache hnext
      obtain ⟨head, out1, he, hh⟩ :=
        (body_failedWriteLast env remoteAddr c request t cache).1 hnext
      intro pre out post hd
      rw [he, List.append_assoc] at hd
      obtain ⟨mid, -, h2⟩ := split_after (fun e => e.isWrite = true) head _ pre post _
        (fun e he' => by simp [hh e he']) rfl hd
      cases mid with
      | nil =>
        simp only [List.singleton_append, List.nil_append, List.cons.injEq] at h2
        exact h2.2.symm
      | cons y mid =>
        cases mid with
        | nil => simp at h2
        | cons z mid =>
          have := congrArg List.length h2
          simp at this)
    (by
      intro c request t cache hnext
      exact failedWriteEnds_of_absent _ _ (hn c request t cache (by rw [hnext]; simp)))
    (by
      intro c request t cache msg hnext
      exact failedWriteEnds_of_absent _ _ (hn c request t cache (by rw [hnext]; simp)))
    cs k t cache

theorem decomp_append_singleton {α : Type} (tr pre post : List α) (x y : α) (hxy : x ≠ y)
    (h : tr ++ [y] = pre ++ x :: post) :
    ∃ post1, post = post1 ++ [y] ∧ tr = pre ++ x :: post1 := by
  rcases List.eq_nil_or_concat post with rfl | ⟨post1, z, rfl⟩
  · have := congrArg List.getLast? h
    simp at this
    exact absurd this.symm hxy
  · rw [List.concat_eq_append] at h ⊢
    have h2 : tr ++ [y] = (pre ++ x :: post1) ++ [z] := by rw [h]; simp
    obtain ⟨h4, h5⟩ := List.append_inj' h2 rfl
    simp only [List.cons.injEq, and_true] at h5
    exact ⟨post1, by rw [h5], h4⟩

theorem count_le_one_of_last {α : Type} (p : α → Bool) (after : List α)
    (ha : ∀ e ∈ after, p e = false) (tr : List α)
    (h : ∀ pre x post, p x = true → tr = pre ++ x :: post → post = after) :
    tr.countP p ≤ 1 := by
  induction tr with
  | nil => simp
  | cons e tr ih =>
    cases hp : p e
    · rw [List.countP_cons_of_neg]
      · apply ih
        intro pre x post hx he
        exact h (e :: pre) x post hx (by rw [he]; rfl)
      · simp [hp]
    · have := h [] e tr hp rfl
      rw [List.countP_cons_of_pos _ _ hp, this]
      have : after.countP p = 0 := by
        rw [List.countP_eq_zero]
        intro x hx
        simp [ha x hx]
      omega

/-- C1, the code at a failing input.  An authenticator is configured, the cache
is not nil, and the one request of the connection carries no Proxy-Authorization
header.  `authenticate` returns the 407 response with Proxy-Authenticate set to
Basic, but the response that `HandleConn` writes has lost the header: line 79
strips the hop-by-hop headers, Proxy-Authenticate among them, from every
response before the write. -/
theorem HandleConn_writes_407_without_proxy_authenticate :
    (HandleConn sampleEnv sampleAddr [passOf getPlain true] (some emptyCache)).trace =
      [.read (some getPlain),
       .authCall { getPlain with RemoteAddr := sampleAddr },
       .authReturn (some proxyAuthRequired),
       .write { proxyAuthRequired with Header := some [], Close := true } true,
       .close,
       .closeIdle] ∧
    proxyAuthRequired.StatusCode = 407 ∧
    proxyAuthRequired.Header.Get "Proxy-Authenticate" = "Basic" ∧
    ({ proxyAuthRequired with Header := some [], Close := true } : Response).Header.Get
      "Proxy-Authenticate" = "" := by
  decide

/-- The general fact behind C1: with an authenticator configured, a pass that
is not yet trusted and whose request has no credential writes a 407 response
that has no Proxy-Authenticate header, whatever the request and the cache. -/
theorem denial_407_loses_proxy_authenticate (env : Env) (verify : String → String → Bool)
    (remoteAddr : String) (c : Cycle) (request : Request) (cache : Option Cache)
    (hauth : env.Authenticator = some verify)
    (hcred : env.ParseBasicProxyAuthorization { request with RemoteAddr := remoteAddr } = "") :
    ∃ out, (body env remoteAddr c request false cache).events =
        [.read (some request), .authCall { request with RemoteAddr := remoteAddr },
         .authReturn (some proxyAuthRequired), .write out c.writeOk] ∧
      out.StatusCode = 407 ∧ out.Header.Get "Proxy-Authenticate" = "" := by
  have ha := authenticate_no_credential env verify c.now
    { request with RemoteAddr := remoteAddr } cache hauth hcred
  have hret : (authenticate env c.now { request with RemoteAddr := remoteAddr } cache).ret
      = .ret (some proxyAuthRequired) := by rw [ha]
  obtain ⟨h1, -⟩ := body_auth_denied env remoteAddr c request cache proxyAuthRequired hret
  obtain ⟨out, hp⟩ := prepareResponse_of_header
    (keepAliveIntent { request with RemoteAddr := remoteAddr }) proxyAuthRequired _ rfl
  have hw : (writeResponse c (keepAliveIntent { request with RemoteAddr := remoteAddr }) false
      (authenticate env c.now { request with RemoteAddr := remoteAddr } cache).cache
      (some proxyAuthRequired)).events = [.write out c.writeOk] := by
    simp only [writeResponse, hp]
    cases c.writeOk <;> rfl
  refine ⟨out, ?_, ?_, ?_⟩
  · rw [h1, hw, ha]
    rfl
  · rw [(prepareResponse_statusCode _ _ _ hp).1]
    rfl
  · revert hp
    cases keepAliveIntent { request with RemoteAddr := remoteAddr }
    · intro hp
      have : out = { proxyAuthRequired with Header := some [], Close := true } := by
        have h2 : prepareResponse false proxyAuthRequired =
            .ret { proxyAuthRequired with Header := some [], Close := true } := by decide
        rw [h2] at hp
        cases hp
        rfl
      rw [this]
      decide
    · intro hp
      have : out = { proxyAuthRequired with
          Header := some [("Keep-Alive", ["timeout=4"]), ("Connection", ["keep-alive"]),
            ("Proxy-Connection", ["keep-alive"])], Close := false } := by
        have h2 : prepareResponse true proxyAuthRequired =
            .ret { proxyAuthRequired with
              Header := some [("Keep-Alive", ["timeout=4"]), ("Connection", ["keep-alive"]),
                ("Proxy-Connection", ["keep-alive"])], Close := false } := by decide
        rw [h2] at hp
        cases hp
        rfl
      rw [this]
      decide

/-- C9, amended.  For a CONNECT request read on a trusted pass, whatever the rest
of the script and the cache: the response handed to `Write` has status code 200,
status text Connection established, protocol HTTP/1.1 and content length -1; it
is the one write of the pass.  When that write succeeds the pass is exactly
read, write, push of the request with the connection, and the loop returns
(hijack): no further read, write or close, no forwarding call; the same holds
when the pass becomes trusted by `authenticate` returning nil.  When the write
fails there is no push and the connection is closed.  In a whole run, nothing
but the deferred `CloseIdleConnections` follows a push. -/
theorem connect_on_trusted_pass (env : Env) (remoteAddr : String) (c : Cycle)
    (cs : List Cycle) (cache : Option Cache) (request : Request)
    (hr : c.read = some request) (hm : request.Method = MethodConnect) :
    (connectResponse.StatusCode = 200 ∧ connectResponse.Status = "Connection established" ∧
      connectResponse.Proto = "HTTP/1.1" ∧ connectResponse.ContentLength = -1) ∧
    (c.writeOk = true →
      loop env remoteAddr (c :: cs) true true cache =
        ⟨[.read (some request), .write connectResponse true,
          .push { request with RemoteAddr := remoteAddr }], .hijacked, cache⟩) ∧
    (c.writeOk = false →
      loop env remoteAddr (c :: cs) true true cache =
        ⟨[.read (some request), .write connectResponse false, .close], .closed, cache⟩) ∧
    ((authenticate env c.now { request with RemoteAddr := remoteAddr } cache).ret = .ret none →
      c.writeOk = true →
      (loop env remoteAddr (c :: cs) true false cache).trace =
        [.read (some request), .authCall { request with RemoteAddr := remoteAddr }] ++
          (authenticate env c.now { request with RemoteAddr := remoteAddr } cache).events ++
          [.authReturn none, .write connectResponse true,
           .push { request with RemoteAddr := remoteAddr }] ∧
      (loop env remoteAddr (c :: cs) true false cache).exit = .hijacked) ∧
    ((authenticate env c.now { request with RemoteAddr := remoteAddr } cache).ret = .ret none →
      c.writeOk = false →
      (loop env remoteAddr (c :: cs) true false cache).trace =
        [.read (some request), .authCall { request with RemoteAddr := remoteAddr }] ++
          (authenticate env c.now { request with RemoteAddr := remoteAddr } cache).events ++
          [.authReturn none, .write connectResponse false, .close] ∧
      (loop env remoteAddr (c :: cs) true false cache).exit = .closed) ∧
    (∀ (cycles : List Cycle) (cache0 : Option Cache) (pre post : List Event) (r : Request),
      (HandleConn env remoteAddr cycles cache0).trace = pre ++ .push r :: post →
      post = [.closeIdle]) := by
  refine ⟨by decide, ?_, ?_, ?_, ?_, ?_⟩
  · intro hw
    have hd : dispatch env c { request with RemoteAddr := remoteAddr }
        (keepAliveIntent { request with RemoteAddr := remoteAddr }) cache =
        ⟨[.write connectResponse true, .push { request with RemoteAddr := remoteAddr }],
          cache, .hijack⟩ := by
      simp [dispatch, hm, hw]
    have hb : body env remoteAddr c request true cache =
        ⟨[.read (some request), .write connectResponse true,
          .push { request with RemoteAddr := remoteAddr }], cache, .hijack⟩ := by
      simp only [body, if_true, hd]
    rw [loop_hijack env remoteAddr c cs true cache request hr (by rw [hb]), hb]
  · intro hw
    have hd : dispatch env c { request with RemoteAddr := remoteAddr }
        (keepAliveIntent { request with RemoteAddr := remoteAddr }) cache =
        ⟨[.write connectResponse false], cache, .close⟩ := by
      simp [dispatch, hm, hw]
    have hb : body env remoteAddr c request true cache =
        ⟨[.read (some request), .write connectResponse false], cache, .close⟩ := by
      simp only [body, if_true, hd]
    rw [loop_close env remoteAddr c cs true cache request hr (by rw [hb]), hb]
    rfl
  · intro ha hw
    obtain ⟨h1, h2⟩ := body_auth_nil env remoteAddr c request cache ha
    have hd : ∀ cache1, dispatch env c { request with RemoteAddr := remoteAddr }
        (keepAliveIntent { request with RemoteAddr := remoteAddr }) cache1 =
        ⟨[.write connectResponse true, .push { request with RemoteAddr := remoteAddr }],
          cache1, .hijack⟩ := by
      intro cache1
      simp [dispatch, hm, hw]
    rw [hd] at h1 h2
    rw [loop_hijack env remoteAddr c cs false cache request hr h2, h1]
    simp
  · intro ha hw
    obtain ⟨h1, h2⟩ := body_auth_nil env remoteAddr c request cache ha
    have hd : ∀ cache1, dispatch env c { request with RemoteAddr := remoteAddr }
        (keepAliveIntent { request with RemoteAddr := remoteAddr }) cache1 =
        ⟨[.write connectResponse false], cache1, .close⟩ := by
      intro cache1
      simp [dispatch, hm, hw]
    rw [hd] at h1 h2
    rw [loop_close env remoteAddr c cs false cache request hr h2, h1]
    simp
  · intro cycles cache0 pre post r he
    obtain ⟨post1, h1, h2⟩ := decomp_append_singleton _ pre post (.push r) .closeIdle
      (by simp) he
    rw [h1, (loop_pushPlaced env remoteAddr cycles true cache0.isNone cache0 pre r post1 h2).1]
    rfl

theorem connect_on_trusted_pass_witness :
    loop openEnv sampleAddr [passOf connectPlain true] true true none =
      ⟨[.read (some connectPlain), .write connectResponse true,
        .push { connectPlain with RemoteAddr := sampleAddr }], .hijacked, none⟩ :=
  (connect_on_trusted_pass openEnv sampleAddr (passOf connectPlain true) [] none connectPlain
    rfl rfl).2.1 rfl

/-- C9 as stated fails when the write of the 200 response fails: the run on a
connection whose one request is a CONNECT, with authentication off, makes the
write, no push, and closes the connection. -/
theorem connect_write_failure_pushes_nothing :
    connectPlain.Method = MethodConnect ∧
    (HandleConn openEnv sampleAddr [passOf connectPlain false] none).trace =
      [.read (some connectPlain), .write connectResponse false, .close, .closeIdle] ∧
    (HandleConn openEnv sampleAddr [passOf connectPlain false] none).trace.countP
      Event.isPush = 0 := by
  decide

/-! ### Header maps after the stripping -/

theorem mem_of_lookup {α : Type} (k : String) (v : α) (m : List (String × α))
    (h : m.lookup k = some v) : (k, v) ∈ m := by
  induction m with
  | nil => simp [List.lookup] at h
  | cons kv m ih =>
    obtain ⟨k1, v1⟩ := kv
    by_cases hk : k = k1
    · subst hk
      simp [List.lookup] at h
      subst h
      exact List.mem_cons_self _ _
    · have hb : (k == k1) = false := by simpa using hk
      simp only [List.lookup, hb] at h
      exact List.mem_cons_of_mem _ (ih h)

theorem get_of_lacks (h : Header) (name : String)
    (hc : CanonicalMIMEHeaderKey name = name) (hl : h.lacks name) : h.Get name = "" := by
  cases h with
  | none => rfl
  | some m =>
    simp only [Header.Get, hc]
    cases hlk : m.lookup name with
    | none => rfl
    | some vs => exact absurd rfl (hl m rfl _ (mem_of_lookup name vs m hlk))

theorem hopByHop_canonical (name : String) (h : name ∈ hopByHopHeaders) :
    CanonicalMIMEHeaderKey name = name := by
  simp only [hopByHopHeaders, List.mem_cons, List.mem_singleton, List.not_mem_nil,
    or_false] at h
  rcases h with rfl | rfl | rfl | rfl | rfl | rfl | rfl | rfl | rfl <;> decide

theorem removeHopByHopHeaders_lacks (h : Header) (name : String)
    (hn : name ∈ hopByHopHeaders) : (RemoveHopByHopHeaders h).lacks name := by
  intro m hm kv hkv heq
  cases h with
  | none => simp [RemoveHopByHopHeaders] at hm
  | some m0 =>
    simp only [RemoveHopByHopHeaders, Option.map_some', Option.some.injEq] at hm
    subst hm
    have := (List.mem_filter.mp hkv).2
    simp only [Bool.not_eq_true', List.contains_eq_any_beq, List.any_eq_false,
      List.mem_map, beq_iff_eq, forall_exists_index, and_imp,
      forall_apply_eq_imp_iff₂] at this
    exact this name hn heq

theorem filter_ne_of_lacks (m : HeaderMap) (name : String)
    (hl : Header.lacks (some m) name) :
    m.filter (fun kv => kv.1 != name) = m := by
  rw [List.filter_eq_self]
  intro kv hkv
  have := hl m rfl kv hkv
  simp only [bne_iff_ne, ne_eq]
  intro h
  exact this (by rw [h])

theorem prepareResponse_close (resp out : Response)
    (h : prepareResponse false resp = .ret out) :
    out = { resp with Header := RemoveHopByHopHeaders resp.Header, Close := true } := by
  simp [prepareResponse] at h
  exact h.symm

theorem prepareResponse_keepAlive (resp out : Response)
    (h : prepareResponse true resp = .ret out) :
    ∃ m0, RemoveHopByHopHeaders resp.Header = some m0 ∧
      out = { resp with Header := some (keepAliveEntries ++ m0), Close := false } := by
  cases hh : RemoveHopByHopHeaders resp.Header with
  | none => simp [prepareResponse, hh, Header.Set] at h
  | some m0 =>
    have c1 : CanonicalMIMEHeaderKey "Proxy-Connection" = "Proxy-Connection" := by decide
    have c2 : CanonicalMIMEHeaderKey "Connection" = "Connection" := by decide
    have c3 : CanonicalMIMEHeaderKey "Keep-Alive" = "Keep-Alive" := by decide
    have l1 : Header.lacks (some m0) "Proxy-Connection" := by
      rw [← hh]; exact removeHopByHopHeaders_lacks _ _ (by decide)
    have l2 : Header.lacks (some m0) "Connection" := by
      rw [← hh]; exact removeHopByHopHeaders_lacks _ _ (by decide)
    have l3 : Header.lacks (some m0) "Keep-Alive" := by
      rw [← hh]; exact removeHopByHopHeaders_lacks _ _ (by decide)
    refine ⟨m0, rfl, ?_⟩
    simp only [prepareResponse, hh, Header.Set, c1, c2, c3, if_true, List.filter_cons,
      filter_ne_of_lacks m0 _ l1, filter_ne_of_lacks m0 _ l2, filter_ne_of_lacks m0 _ l3,
      Outcome.ret.injEq] at h
    rw [← h]
    simp [keepAliveEntries]
    intro a b hab heq
    exact l3 m0 rfl (a, b) hab (by rw [heq])

/-! ### The responses a pass writes -/

theorem dispatch_write_cases (env : Env) (c : Cycle) (request1 : Request) (keepAlive : Bool)
    (cache : Option Cache) (out : Response) (ok : Bool)
    (hw : .write out ok ∈ (dispatch env c request1 keepAlive cache).events) :
    ok = c.writeOk ∧
    ((request1.Method = MethodConnect ∧ out = connectResponse) ∨
     (request1.Method ≠ MethodConnect ∧ ∃ u, prepareResponse keepAlive u = .ret out ∧
        (u = responseWith StatusBadRequest ∨ u = responseWith StatusBadGateway ∨
          ((c.Do (sanitize env request1)).resp = some u ∧
            (c.Do (sanitize env request1)).err = none)))) := by
  rcases (dispatch_cases env c request1 keepAlive cache).2 with
    ⟨hm, hok, h, -⟩ | ⟨hm, hok, h, -⟩ | ⟨hm, -, h, -⟩ | ⟨hm, -, h, -⟩
  · rw [h] at hw
    simp at hw
    exact ⟨by rw [hok, hw.2], Or.inl ⟨hm, hw.1⟩⟩
  · rw [h] at hw
    simp at hw
    exact ⟨by rw [hok, hw.2], Or.inl ⟨hm, hw.1⟩⟩
  · rw [h] at hw
    obtain ⟨u, out1, hu, hp, he⟩ := writeResponse_events _ _ _ _ _ _ hw
    cases hu
    cases he
    exact ⟨rfl, Or.inr ⟨hm, _, hp, Or.inl rfl⟩⟩
  · rw [h] at hw
    simp only [List.mem_cons] at hw
    rcases hw with hw | hw
    · cases hw
    obtain ⟨u, out1, hu, hp, he⟩ := writeResponse_events _ _ _ _ _ _ hw
    cases he
    refine ⟨rfl, Or.inr ⟨hm, u, hp, ?_⟩⟩
    by_cases herr : (c.Do (sanitize env request1)).err.isSome = true
    · simp only [forwarded, herr, if_true, Option.some.injEq] at hu
      exact Or.inr (Or.inl hu.symm)
    · simp only [forwarded, herr, if_false] at hu
      exact Or.inr (Or.inr ⟨hu, by simpa using herr⟩)

theorem body_write_cases (env : Env) (remoteAddr : String) (c : Cycle) (request : Request)
    (t : Bool) (cache : Option Cache) (out : Response) (ok : Bool)
    (hw : .write out ok ∈ (body env remoteAddr c request t cache).events) :
    ok = c.writeOk ∧
    ((request.Method = MethodConnect ∧ out = connectResponse) ∨
     (request.Method ≠ MethodConnect ∧
        ∃ u, prepareResponse (keepAliveIntent { request with RemoteAddr := remoteAddr }) u
            = .ret out ∧
          (u = responseWith StatusBadRequest ∨ u = responseWith StatusBadGateway ∨
            ((c.Do (sanitize env { request with RemoteAddr := remoteAddr })).resp = some u ∧
              (c.Do (sanitize env { request with RemoteAddr := remoteAddr })).err = none))) ∨
     (t = false ∧
        ∃ u, prepareResponse (keepAliveIntent { request with RemoteAddr := remoteAddr }) u
            = .ret out ∧
          (authenticate env c.now { request with RemoteAddr := remoteAddr } cache).ret
            = .ret (some u))) := by
  obtain ⟨head, tail, he, hh, h⟩ := body_decomp env remoteAddr c request t cache
  rw [he] at hw
  rcases List.mem_append.mp hw with hw | hw
  · have := (hh _ hw).1
    cases this
  rcases h with ⟨cache1, h1, -, -⟩ | ⟨cache1, denial, ha, ht, h1, -⟩ | ⟨h1, -⟩
  · rw [h1] at hw
    obtain ⟨h2, h3⟩ := dispatch_write_cases env c _ _ cache1 out ok hw
    refine ⟨h2, ?_⟩
    rcases h3 with h3 | h3
    · exact Or.inl h3
    · exact Or.inr (Or.inl h3)
  · rw [h1] at hw
    obtain ⟨u, out1, hu, hp, he⟩ := writeResponse_events _ _ _ _ _ _ hw
    cases hu
    cases he
    exact ⟨rfl, Or.inr (Or.inr ⟨ht, _, hp, ha⟩)⟩
  · rw [h1] at hw
    simp at hw

/-! ### The events of a pass, by kind -/

theorem body_kinds (env : Env) (remoteAddr : String) (c : Cycle) (request : Request)
    (t : Bool) (cache : Option Cache) :
    ∃ head tail, (body env remoteAddr c request t cache).events = head ++ tail ∧
      (∀ e ∈ head, e = .read (some request) ∨ e.isAuth = true) ∧
      ((∃ cache1, tail = (dispatch env c { request with RemoteAddr := remoteAddr }
          (keepAliveIntent { request with RemoteAddr := remoteAddr }) cache1).events) ∨
       (∃ cache1 denial, tail =
          (writeResponse c (keepAliveIntent { request with RemoteAddr := remoteAddr })
            false cache1 (some denial)).events) ∨
       tail = []) := by
  have hb := authenticate_events_backend env c.now { request with RemoteAddr := remoteAddr } cache
  have hbk : ∀ e : Event, e.isBackend = true → e.isAuth = true := by
    intro e he
    cases e <;> first | rfl | cases he
  have hpre : ∀ e ∈ [Event.read (some request),
      Event.authCall { request with RemoteAddr := remoteAddr }] ++
      (authenticate env c.now { request with RemoteAddr := remoteAddr } cache).events,
      e = .read (some request) ∨ e.isAuth = true := by
    intro e he
    simp only [List.cons_append, List.nil_append, List.mem_cons] at he
    rcases he with rfl | rfl | he
    · exact Or.inl rfl
    · exact Or.inr rfl
    · exact Or.inr (hbk e (hb e he))
  cases t
  · cases ha : (authenticate env c.now { request with RemoteAddr := remoteAddr } cache).ret with
    | panic msg =>
      obtain ⟨h1, -⟩ := body_auth_panic env remoteAddr c request cache msg ha
      exact ⟨_, [], by rw [h1, List.append_nil], hpre, Or.inr (Or.inr rfl)⟩
    | ret r =>
      cases r with
      | none =>
        obtain ⟨h1, -⟩ := body_auth_nil env remoteAddr c request cache ha
        refine ⟨_, _, h1, ?_, Or.inl ⟨_, rfl⟩⟩
        intro e he
        rcases List.mem_append.mp he with he | he
        · exact hpre e he
        · simp only [List.mem_singleton] at he
          subst he
          exact Or.inr rfl
      | some denial =>
        obtain ⟨h1, -⟩ := body_auth_denied env remoteAddr c request cache denial ha
        refine ⟨_, _, h1, ?_, Or.inr (Or.inl ⟨_, denial, rfl⟩)⟩
        intro e he
        rcases List.mem_append.mp he with he | he
        · exact hpre e he
        · simp only [List.mem_singleton] at he
          subst he
          exact Or.inr rfl
  · obtain ⟨h1, -, -⟩ := body_trusted env remoteAddr c request cache
    refine ⟨[.read (some request)], _, h1, ?_, Or.inl ⟨cache, rfl⟩⟩
    intro e he
    simp only [List.mem_singleton] at he
    exact Or.inl he

theorem dispatch_kinds (env : Env) (c : Cycle) (request1 : Request) (keepAlive : Bool)
    (cache : Option Cache) :
    ∀ e ∈ (dispatch env c request1 keepAlive cache).events,
      e.isWrite = true ∨ e.isPush = true ∨
        (e = .roundTrip (sanitize env request1) (c.Do (sanitize env request1)) ∧
          request1.Method ≠ MethodConnect) := by
  intro e he
  rcases (dispatch_cases env c request1 keepAlive cache).2 with
    ⟨-, -, h, -⟩ | ⟨-, -, h, -⟩ | ⟨-, -, h, -⟩ | ⟨hm, -, h, -⟩
  · rw [h] at he
    simp only [List.mem_cons, List.mem_singleton, List.not_mem_nil, or_false] at he
    rcases he with rfl | rfl
    · exact Or.inl rfl
    · exact Or.inr (Or.inl rfl)
  · rw [h] at he
    simp only [List.mem_singleton] at he
    subst he
    exact Or.inl rfl
  · rw [h] at he
    obtain ⟨u, out, -, -, rfl⟩ := writeResponse_events _ _ _ _ _ e he
    exact Or.inl rfl
  · rw [h] at he
    simp only [List.mem_cons] at he
    rcases he with rfl | he
    · exact Or.inr (Or.inr ⟨rfl, hm⟩)
    · obtain ⟨u, out, -, -, rfl⟩ := writeResponse_events _ _ _ _ _ e he
      exact Or.inl rfl

theorem body_event_kinds (env : Env) (remoteAddr : String) (c : Cycle) (request : Request)
    (t : Bool) (cache : Option Cache) :
    ∀ e ∈ (body env remoteAddr c request t cache).events,
      e = .read (some request) ∨ e.isAuth = true ∨ e.isWrite = true ∨ e.isPush = true ∨
        (e = .roundTrip (sanitize env { request with RemoteAddr := remoteAddr })
            (c.Do (sanitize env { request with RemoteAddr := remoteAddr })) ∧
          request.Method ≠ MethodConnect) := by
  intro e he
  obtain ⟨head, tail, hev, hh, h⟩ := body_kinds env remoteAddr c request t cache
  rw [hev] at he
  rcases List.mem_append.mp he with he | he
  · rcases hh e he with h1 | h1
    · exact Or.inl h1
    · exact Or.inr (Or.inl h1)
  rcases h with ⟨cache1, h1⟩ | ⟨cache1, denial, h1⟩ | h1
  · rw [h1] at he
    exact Or.inr (Or.inr (dispatch_kinds env c _ _ cache1 e he))
  · rw [h1] at he
    obtain ⟨u, out, -, -, rfl⟩ := writeResponse_events _ _ _ _ _ e he
    exact Or.inr (Or.inr (Or.inl rfl))
  · rw [h1] at he
    simp at he

theorem body_events_plain (env : Env) (remoteAddr : String) (c : Cycle) (request : Request)
    (t : Bool) (cache : Option Cache) :
    ∀ e ∈ (body env remoteAddr c request t cache).events,
      e.isClose = false ∧ e.isCloseIdle = false ∧ e.isReadError = false := by
  intro e he
  rcases body_event_kinds env remoteAddr c request t cache e he with
    rfl | h | h | h | ⟨rfl, -⟩
  · exact ⟨rfl, rfl, rfl⟩
  · cases e <;> first | exact ⟨rfl, rfl, rfl⟩ | cases h
  · cases e <;> first | exact ⟨rfl, rfl, rfl⟩ | cases h
  · cases e <;> first | exact ⟨rfl, rfl, rfl⟩ | cases h
  · exact ⟨rfl, rfl, rfl⟩

theorem sanitize_frame (env : Env) (request1 : Request)
    (hframe : ∀ r, (env.RemoveExtraHTTPHostPort r).Header = r.Header ∧
      (env.RemoveExtraHTTPHostPort r).RequestURI = r.RequestURI) :
    (sanitize env request1).RequestURI = "" ∧
    (sanitize env request1).Header = RemoveHopByHopHeaders request1.Header := by
  unfold sanitize
  rw [(hframe _).1, (hframe _).2]
  by_cases h : request1.Header.Get "Host" = ""
  · simp [h]
  · simp [h]

/-! ### The forwarded request -/

/-- C11.  Whatever request a pass hands to the forwarding call of the outbound
client, it is the sanitized form of the request read, the request is no CONNECT,
its request-URI string is empty, and its header map has no entry under any of
the nine hop-by-hop names, in whatever letter case the keys are.  The helper
`RemoveExtraHTTPHostPort` is taken to leave the header map and the request-URI
as they are. -/
theorem forwarded_request_is_stripped (env : Env) (remoteAddr : String) (c : Cycle)
    (request : Request) (t : Bool) (cache : Option Cache) (r : Request) (res : DoResult)
    (hframe : ∀ q, (env.RemoveExtraHTTPHostPort q).Header = q.Header ∧
      (env.RemoveExtraHTTPHostPort q).RequestURI = q.RequestURI)
    (hmem : .roundTrip r res ∈ (body env remoteAddr c request t cache).events) :
    r = sanitize env { request with RemoteAddr := remoteAddr } ∧
    res = c.Do r ∧
    request.Method ≠ MethodConnect ∧
    r.RequestURI = "" ∧
    ∀ name ∈ hopByHopHeaders, r.Header.lacks name ∧ r.Header.Get name = "" := by
  have hr : r = sanitize env { request with RemoteAddr := remoteAddr } ∧ res = c.Do r ∧
      request.Method ≠ MethodConnect := by
    rcases body_event_kinds env remoteAddr c request t cache _ hmem with
      h | h | h | h | ⟨h, hm⟩
    · cases h
    · cases h
    · cases h
    · cases h
    · simp only [Event.roundTrip.injEq] at h
      exact ⟨h.1, by rw [h.2, h.1], hm⟩
  obtain ⟨h1, h2, h3⟩ := hr
  obtain ⟨f1, f2⟩ := sanitize_frame env { request with RemoteAddr := remoteAddr } hframe
  refine ⟨h1, h2, h3, by rw [h1, f1], ?_⟩
  intro name hn
  have hl : r.Header.lacks name := by
    rw [h1, f2]
    exact removeHopByHopHeaders_lacks _ name hn
  exact ⟨hl, get_of_lacks _ name (hopByHop_canonical name hn) hl⟩

theorem forwarded_request_is_stripped_witness :
    sanitize openEnv { getMixedCase with RemoteAddr := sampleAddr } =
        sanitize openEnv { getMixedCase with RemoteAddr := sampleAddr } ∧
    sampleUpstream (sanitize openEnv { getMixedCase with RemoteAddr := sampleAddr }) =
        (passOf getMixedCase true).Do
          (sanitize openEnv { getMixedCase with RemoteAddr := sampleAddr }) ∧
    getMixedCase.Method ≠ MethodConnect ∧
    (sanitize openEnv { getMixedCase with RemoteAddr := sampleAddr }).RequestURI = "" ∧
    ∀ name ∈ hopByHopHeaders,
      (sanitize openEnv { getMixedCase with RemoteAddr := sampleAddr }).Header.lacks name ∧
      (sanitize openEnv { getMixedCase with RemoteAddr := sampleAddr }).Header.Get name = "" :=
  forwarded_request_is_stripped openEnv sampleAddr (passOf getMixedCase true) getMixedCase
    true none (sanitize openEnv { getMixedCase with RemoteAddr := sampleAddr })
    (sampleUpstream (sanitize openEnv { getMixedCase with RemoteAddr := sampleAddr }))
    (fun _ => ⟨rfl, rfl⟩) (by decide)

theorem forwarded_sample_header :
    (sanitize openEnv { getMixedCase with RemoteAddr := sampleAddr }).Header
      = some [("Accept", ["*/*"])] := by
  decide

/-! ### The headers of the written responses -/

theorem prepareResponse_hopByHopFree (keepAlive : Bool) (u out : Response)
    (h : prepareResponse keepAlive u = .ret out) :
    HopByHopFree otherHopByHopHeaders keepAlive out.Header := by
  have hsub : ∀ name ∈ otherHopByHopHeaders, name ∈ hopByHopHeaders := by decide
  cases keepAlive
  · rw [prepareResponse_close u out h]
    refine ⟨fun name hn => removeHopByHopHeaders_lacks _ _ (hsub name hn), fun _ => ?_,
      fun hk => Bool.noConfusion hk⟩
    exact ⟨removeHopByHopHeaders_lacks _ _ (by decide),
      removeHopByHopHeaders_lacks _ _ (by decide),
      removeHopByHopHeaders_lacks _ _ (by decide)⟩
  · obtain ⟨m0, hm0, hout⟩ := prepareResponse_keepAlive u out h
    rw [hout]
    have hl : ∀ name ∈ hopByHopHeaders, Header.lacks (some m0) name := by
      intro name hn
      rw [← hm0]
      exact removeHopByHopHeaders_lacks _ _ hn
    refine ⟨?_, fun hk => Bool.noConfusion hk, fun _ => ⟨m0, rfl, hl _ (by decide),
      hl _ (by decide), hl _ (by decide)⟩⟩
    intro name hn m hm kv hkv
    simp only [Option.some.injEq] at hm
    subst hm
    rcases List.mem_append.mp hkv with hkv | hkv
    · simp only [otherHopByHopHeaders, List.mem_cons, List.mem_singleton, List.not_mem_nil,
        or_false] at hn
      simp only [keepAliveEntries, List.mem_cons, List.mem_singleton, List.not_mem_nil,
        or_false] at hkv
      rcases hn with rfl | rfl | rfl | rfl | rfl | rfl <;>
        rcases hkv with rfl | rfl | rfl <;> decide
    · exact hl name (hsub name hn) m0 rfl kv hkv

theorem hopByHopFree_mono (names1 names2 : List String) (keepAlive : Bool) (h : Header)
    (hsub : ∀ name ∈ names1, name ∈ names2) (hf : HopByHopFree names2 keepAlive h) :
    HopByHopFree names1 keepAlive h :=
  ⟨fun name hn => hf.1 name (hsub name hn), hf.2.1, hf.2.2⟩

/-- C12, amended.  Every response a pass hands to `Write` is the 200 response to
a CONNECT, whose header map is empty, or went through lines 79-87 and then: it
has no entry, in any letter case, under Proxy-Authorization, Te, Trailer,
Transfer-Encoding and Upgrade, nor, when it is a 400, a 502 or an upstream
response, under Proxy-Authenticate; when keep-alive is not intended it has no
entry under Proxy-Connection, Connection and Keep-Alive either; when keep-alive
is intended its header map is the three entries Keep-Alive: timeout=4,
Connection: keep-alive and Proxy-Connection: keep-alive that lines 82-84 set, in
front of a map with no entry under these three names. -/
theorem written_response_headers (env : Env) (remoteAddr : String) (c : Cycle)
    (request : Request) (t : Bool) (cache : Option Cache) (out : Response) (ok : Bool)
    (hw : .write out ok ∈ (body env remoteAddr c request t cache).events) :
    (request.Method = MethodConnect ∧ out = connectResponse ∧ out.Header = some []) ∨
    (∃ u, prepareResponse (keepAliveIntent { request with RemoteAddr := remoteAddr }) u
        = .ret out ∧
      (u = responseWith StatusBadRequest ∨ u = responseWith StatusBadGateway ∨
        ((c.Do (sanitize env { request with RemoteAddr := remoteAddr })).resp = some u ∧
          (c.Do (sanitize env { request with RemoteAddr := remoteAddr })).err = none)) ∧
      HopByHopFree
        ["Proxy-Authenticate", "Proxy-Authorization", "Te", "Trailer", "Transfer-Encoding",
         "Upgrade"]
        (keepAliveIntent { request with RemoteAddr := remoteAddr }) out.Header) ∨
    (∃ u, prepareResponse (keepAliveIntent { request with RemoteAddr := remoteAddr }) u
        = .ret out ∧
      t = false ∧
      (authenticate env c.now { request with RemoteAddr := remoteAddr } cache).ret
        = .ret (some u) ∧
      HopByHopFree ["Proxy-Authorization", "Te", "Trailer", "Transfer-Encoding", "Upgrade"]
        (keepAliveIntent { request with RemoteAddr := remoteAddr }) out.Header) := by
  rcases (body_write_cases env remoteAddr c request t cache out ok hw).2 with
    ⟨h1, h2⟩ | ⟨-, u, hp, h2⟩ | ⟨ht, u, hp, ha⟩
  · exact Or.inl ⟨h1, h2, by rw [h2]; rfl⟩
  · exact Or.inr (Or.inl ⟨u, hp, h2, prepareResponse_hopByHopFree _ u out hp⟩)
  · exact Or.inr (Or.inr ⟨u, hp, ht, ha,
      hopByHopFree_mono _ _ _ _ (by decide) (prepareResponse_hopByHopFree _ u out hp)⟩)

theorem written_response_headers_witness :
    (getMixedCase.Method = MethodConnect ∧
      ({ responseWith 200 with Body := "ok", Header := some keepAliveEntries } : Response)
        = connectResponse ∧
      ({ responseWith 200 with Body := "ok", Header := some keepAliveEntries } : Response).Header
        = some []) ∨
    (∃ u, prepareResponse (keepAliveIntent { getMixedCase with RemoteAddr := sampleAddr }) u
        = .ret { responseWith 200 with Body := "ok", Header := some keepAliveEntries } ∧
      (u = responseWith StatusBadRequest ∨ u = responseWith StatusBadGateway ∨
        (((passOf getMixedCase true).Do
            (sanitize openEnv { getMixedCase with RemoteAddr := sampleAddr })).resp = some u ∧
          ((passOf getMixedCase true).Do
            (sanitize openEnv { getMixedCase with RemoteAddr := sampleAddr })).err = none)) ∧
      HopByHopFree
        ["Proxy-Authenticate", "Proxy-Authorization", "Te", "Trailer", "Transfer-Encoding",
         "Upgrade"]
        (keepAliveIntent { getMixedCase with RemoteAddr := sampleAddr })
        ({ responseWith 200 with Body := "ok", Header := some keepAliveEntries }
          : Response).Header) ∨
    (∃ u, prepareResponse (keepAliveIntent { getMixedCase with RemoteAddr := sampleAddr }) u
        = .ret { responseWith 200 with Body := "ok", Header := some keepAliveEntries } ∧
      true = false ∧
      (authenticate openEnv (passOf getMixedCase true).now
        { getMixedCase with RemoteAddr := sampleAddr } none).ret = .ret (some u) ∧
      HopByHopFree ["Proxy-Authorization", "Te", "Trailer", "Transfer-Encoding", "Upgrade"]
        (keepAliveIntent { getMixedCase with RemoteAddr := sampleAddr })
        ({ responseWith 200 with Body := "ok", Header := some keepAliveEntries }
          : Response).Header) :=
  written_response_headers openEnv sampleAddr (passOf getMixedCase true) getMixedCase true none
    { responseWith 200 with Body := "ok", Header := some keepAliveEntries } true (by decide)

/-- C12 as stated fails when keep-alive is intended: the run on a connection
whose one request is a GET with Proxy-Connection: keep-alive, with
authentication off and an upstream that answers 200 without any header, writes a
response that carries Connection, Keep-Alive and Proxy-Connection. -/
theorem keep_alive_response_carries_hop_by_hop_headers :
    keepAliveIntent { getMixedCase with RemoteAddr := sampleAddr } = true ∧
    (HandleConn openEnv sampleAddr [passOf getMixedCase true] none).trace =
      [.read (some getMixedCase),
       .roundTrip (sanitize openEnv { getMixedCase with RemoteAddr := sampleAddr })
         ⟨some { responseWith 200 with Body := "ok" }, none, ["example.com"]⟩,
       .write { responseWith 200 with Body := "ok", Header := some keepAliveEntries } true,
       .read none, .close, .closeIdle] ∧
    ({ responseWith 200 with Body := "ok", Header := some keepAliveEntries }
      : Response).Header.Get "Connection" = "keep-alive" ∧
    ({ responseWith 200 with Body := "ok", Header := some keepAliveEntries }
      : Response).Header.Get "Keep-Alive" = "timeout=4" ∧
    ({ responseWith 200 with Body := "ok", Header := some keepAliveEntries }
      : Response).Header.Get "Proxy-Connection" = "keep-alive" := by
  decide

theorem get_keepAliveEntries (m0 : HeaderMap) :
    Header.Get (some (keepAliveEntries ++ m0)) "Proxy-Connection" = "keep-alive" ∧
    Header.Get (some (keepAliveEntries ++ m0)) "Connection" = "keep-alive" ∧
    Header.Get (some (keepAliveEntries ++ m0)) "Keep-Alive" = "timeout=4" :=
  ⟨rfl, rfl, rfl⟩

theorem prepareResponse_facts (keepAlive : Bool) (u out : Response)
    (hp : prepareResponse keepAlive u = .ret out) :
    out.Close = (!keepAlive) ∧
    out.StatusCode = u.StatusCode ∧ out.Status = u.Status ∧ out.Proto = u.Proto ∧
    out.Body = u.Body ∧
    (keepAlive = true →
      out.Header.Get "Proxy-Connection" = "keep-alive" ∧
      out.Header.Get "Connection" = "keep-alive" ∧
      out.Header.Get "Keep-Alive" = "timeout=4" ∧
      ∃ m0, RemoveHopByHopHeaders u.Header = some m0 ∧
        out.Header = some (keepAliveEntries ++ m0) ∧
        Header.lacks (some m0) "Proxy-Connection" ∧ Header.lacks (some m0) "Connection" ∧
        Header.lacks (some m0) "Keep-Alive") ∧
    (keepAlive = false →
      out.Header = RemoveHopByHopHeaders u.Header ∧
      out.Header.Get "Proxy-Connection" = "" ∧
      out.Header.Get "Connection" = "" ∧
      out.Header.Get "Keep-Alive" = "") := by
  obtain ⟨h1, h2, h3, h4, h5⟩ := prepareResponse_statusCode keepAlive u out hp
  refine ⟨h5, h1, h2, h3, h4, ?_, ?_⟩
  · intro hk
    subst hk
    obtain ⟨m0, hm0, hout⟩ := prepareResponse_keepAlive u out hp
    have hl : ∀ name ∈ hopByHopHeaders, Header.lacks (some m0) name := by
      intro name hn
      rw [← hm0]
      exact removeHopByHopHeaders_lacks _ _ hn
    have hh : out.Header = some (keepAliveEntries ++ m0) := by rw [hout]
    rw [hh]
    exact ⟨(get_keepAliveEntries m0).1, (get_keepAliveEntries m0).2.1,
      (get_keepAliveEntries m0).2.2, m0, hm0, rfl, hl _ (by decide), hl _ (by decide),
      hl _ (by decide)⟩
  · intro hk
    subst hk
    have hh : out.Header = RemoveHopByHopHeaders u.Header := by
      rw [prepareResponse_close u out hp]
    rw [hh]
    exact ⟨rfl,
      get_of_lacks _ _ (by decide) (removeHopByHopHeaders_lacks _ _ (by decide)),
      get_of_lacks _ _ (by decide) (removeHopByHopHeaders_lacks _ _ (by decide)),
      get_of_lacks _ _ (by decide) (removeHopByHopHeaders_lacks _ _ (by decide))⟩

/-- C13.  For every response a pass hands to `Write` through lines 79-89 (every
write but the 200 of a CONNECT): the keep-alive intent is the Proxy-Connection
header of the request of the pass, lower-cased and trimmed, compared with
`keep-alive`; the close flag of the response is the negation of the intent, and
status, protocol and body are those of the response before line 79.  With the
intent, the three headers have exactly the values Proxy-Connection: keep-alive,
Connection: keep-alive and Keep-Alive: timeout=4, whatever the response carried
before: they are the three first entries of the header map and the only ones
under these names.  Without the intent, the header map is the stripped map of
the response, nothing is set, and the three headers are absent. -/
theorem written_response_keep_alive (env : Env) (remoteAddr : String) (c : Cycle)
    (request : Request) (t : Bool) (cache : Option Cache) (out : Response) (ok : Bool)
    (hw : .write out ok ∈ (body env remoteAddr c request t cache).events) :
    keepAliveIntent { request with RemoteAddr := remoteAddr } =
      (trimSpace (toLower (request.Header.Get "Proxy-Connection")) == "keep-alive") ∧
    ((request.Method = MethodConnect ∧ out = connectResponse) ∨
     (∃ u, prepareResponse (keepAliveIntent { request with RemoteAddr := remoteAddr }) u
          = .ret out ∧
        out.Close = (!keepAliveIntent { request with RemoteAddr := remoteAddr }) ∧
        out.StatusCode = u.StatusCode ∧ out.Status = u.Status ∧ out.Proto = u.Proto ∧
        out.Body = u.Body ∧
        (keepAliveIntent { request with RemoteAddr := remoteAddr } = true →
          out.Header.Get "Proxy-Connection" = "keep-alive" ∧
          out.Header.Get "Connection" = "keep-alive" ∧
          out.Header.Get "Keep-Alive" = "timeout=4" ∧
          ∃ m0, RemoveHopByHopHeaders u.Header = some m0 ∧
            out.Header = some (keepAliveEntries ++ m0) ∧
            Header.lacks (some m0) "Proxy-Connection" ∧ Header.lacks (some m0) "Connection" ∧
            Header.lacks (some m0) "Keep-Alive") ∧
        (keepAliveIntent { request with RemoteAddr := remoteAddr } = false →
          out.Header = RemoveHopByHopHeaders u.Header ∧
          out.Header.Get "Proxy-Connection" = "" ∧
          out.Header.Get "Connection" = "" ∧
          out.Header.Get "Keep-Alive" = ""))) := by
  refine ⟨rfl, ?_⟩
  rcases (body_write_cases env remoteAddr c request t cache out ok hw).2 with
    h | ⟨-, u, hp, -⟩ | ⟨-, u, hp, -⟩
  · exact Or.inl h
  · exact Or.inr ⟨u, hp, prepareResponse_facts _ u out hp⟩
  · exact Or.inr ⟨u, hp, prepareResponse_facts _ u out hp⟩

theorem written_response_keep_alive_witness :
    (keepAliveIntent mixedCaseAt = true ∧
      keepAliveIntent (sampleRequest "GET" "http" "example.com"
        [("Proxy-Connection", ["  Keep-ALIVE "])]) = true ∧
      keepAliveIntent (sampleRequest "GET" "http" "example.com"
        [("Proxy-Connection", ["close"])]) = false ∧
      keepAliveIntent getPlain = false) ∧
    (keepAliveIntent mixedCaseAt =
        (trimSpace (toLower (getMixedCase.Header.Get "Proxy-Connection")) == "keep-alive") ∧
      ((getMixedCase.Method = MethodConnect ∧ keptAlive200 = connectResponse) ∨
       (∃ u, prepareResponse (keepAliveIntent mixedCaseAt) u = .ret keptAlive200 ∧
          keptAlive200.Close = (!keepAliveIntent mixedCaseAt) ∧
          keptAlive200.StatusCode = u.StatusCode ∧ keptAlive200.Status = u.Status ∧
          keptAlive200.Proto = u.Proto ∧ keptAlive200.Body = u.Body ∧
          (keepAliveIntent mixedCaseAt = true →
            keptAlive200.Header.Get "Proxy-Connection" = "keep-alive" ∧
            keptAlive200.Header.Get "Connection" = "keep-alive" ∧
            keptAlive200.Header.Get "Keep-Alive" = "timeout=4" ∧
            ∃ m0, RemoveHopByHopHeaders u.Header = some m0 ∧
              keptAlive200.Header = some (keepAliveEntries ++ m0) ∧
              Header.lacks (some m0) "Proxy-Connection" ∧
              Header.lacks (some m0) "Connection" ∧
              Header.lacks (some m0) "Keep-Alive") ∧
          (keepAliveIntent mixedCaseAt = false →
            keptAlive200.Header = RemoveHopByHopHeaders u.Header ∧
            keptAlive200.Header.Get "Proxy-Connection" = "" ∧
            keptAlive200.Header.Get "Connection" = "" ∧
            keptAlive200.Header.Get "Keep-Alive" = "")))) :=
  ⟨by decide,
   written_response_keep_alive openEnv sampleAddr (passOf getMixedCase true) getMixedCase
     true none keptAlive200 true (by decide)⟩

/-! ### Keep-alive and the next read -/

theorem body_starts_with_read (env : Env) (remoteAddr : String) (c : Cycle)
    (request : Request) (t : Bool) (cache : Option Cache) :
    ∃ rest, (body env remoteAddr c request t cache).events = .read (some request) :: rest := by
  cases t
  · cases ha : (authenticate env c.now { request with RemoteAddr := remoteAddr } cache).ret with
    | panic msg => exact ⟨_, (body_auth_panic env remoteAddr c request cache msg ha).1⟩
    | ret r =>
      cases r with
      | none => exact ⟨_, (body_auth_nil env remoteAddr c request cache ha).1⟩
      | some denial => exact ⟨_, (body_auth_denied env remoteAddr c request cache denial ha).1⟩
  · exact ⟨_, (body_trusted env remoteAddr c request cache).1⟩

theorem loop_starts_with_read (env : Env) (remoteAddr : String) (cs : List Cycle) (t : Bool)
    (cache : Option Cache) :
    ∃ r rest, (loop env remoteAddr cs true t cache).trace = .read r :: rest := by
  cases cs with
  | nil => rw [loop_nil]; exact ⟨none, _, rfl⟩
  | cons c cs =>
    cases hr : c.read with
    | none => rw [loop_read_error env remoteAddr c cs t cache hr]; exact ⟨none, _, rfl⟩
    | some request =>
      obtain ⟨rest, hb⟩ := body_starts_with_read env remoteAddr c request t cache
      cases hn : (body env remoteAddr c request t cache).next with
      | proceed k1 t1 =>
        rw [loop_continue env remoteAddr c cs t cache request k1 t1 hr hn, hb]
        exact ⟨_, _, rfl⟩
      | close =>
        rw [loop_close env remoteAddr c cs t cache request hr hn, hb]
        exact ⟨_, _, rfl⟩
      | hijack =>
        rw [loop_hijack env remoteAddr c cs t cache request hr hn, hb]
        exact ⟨_, _, rfl⟩
      | panic msg =>
        rw [loop_panic env remoteAddr c cs t cache request msg hr hn, hb]
        exact ⟨_, _, rfl⟩

theorem writeResponse_step (c : Cycle) (keepAlive trusted : Bool) (cache : Option Cache)
    (resp : Option Response) :
    (∃ msg, (writeResponse c keepAlive trusted cache resp).next = .panic msg) ∨
    (∃ out, (writeResponse c keepAlive trusted cache resp).events = [.write out c.writeOk] ∧
      (writeResponse c keepAlive trusted cache resp).next =
        if c.writeOk then .proceed keepAlive trusted else .close) := by
  rcases (writeResponse_cases c keepAlive trusted cache resp).2 with
    ⟨-, msg, h⟩ | ⟨u, out, -, -, he, h⟩
  · exact Or.inl ⟨msg, h⟩
  · exact Or.inr ⟨out, he, h⟩

theorem dispatch_step (env : Env) (c : Cycle) (request1 : Request) (keepAlive : Bool)
    (cache : Option Cache) (hm : request1.Method ≠ MethodConnect) :
    (∃ msg, (dispatch env c request1 keepAlive cache).next = .panic msg) ∨
    (∃ head out, (dispatch env c request1 keepAlive cache).events
        = head ++ [.write out c.writeOk] ∧
      (dispatch env c request1 keepAlive cache).next =
        if c.writeOk then .proceed keepAlive true else .close) := by
  rcases (dispatch_cases env c request1 keepAlive cache).2 with
    ⟨h, -⟩ | ⟨h, -⟩ | ⟨-, -, he, hn⟩ | ⟨-, -, he, hn⟩
  · exact absurd h hm
  · exact absurd h hm
  · rcases writeResponse_step c keepAlive true cache (some (responseWith StatusBadRequest)) with
      ⟨msg, h⟩ | ⟨out, h1, h2⟩
    · exact Or.inl ⟨msg, by rw [hn, h]⟩
    · exact Or.inr ⟨[], out, by rw [he, h1]; rfl, by rw [hn, h2]⟩
  · rcases writeResponse_step c keepAlive true cache (forwarded c (sanitize env request1)) with
      ⟨msg, h⟩ | ⟨out, h1, h2⟩
    · exact Or.inl ⟨msg, by rw [hn, h]⟩
    · exact Or.inr ⟨[_], out, by rw [he, h1]; rfl, by rw [hn, h2]⟩

theorem body_write_step (env : Env) (remoteAddr : String) (c : Cycle) (request : Request)
    (t : Bool) (cache : Option Cache)
    (hreach : request.Method ≠ MethodConnect ∨
      (t = false ∧ ∃ denial,
        (authenticate env c.now { request with RemoteAddr := remoteAddr } cache).ret
          = .ret (some denial))) :
    (∃ msg, (body env remoteAddr c request t cache).next = .panic msg) ∨
    (∃ head out t1, (body env remoteAddr c request t cache).events
        = head ++ [.write out c.writeOk] ∧
      (body env remoteAddr c request t cache).next =
        if c.writeOk then
          .proceed (keepAliveIntent { request with RemoteAddr := remoteAddr }) t1
        else .close) := by
  cases t
  · cases ha : (authenticate env c.now { request with RemoteAddr := remoteAddr } cache).ret with
    | panic msg => exact Or.inl ⟨msg, (body_auth_panic env remoteAddr c request cache msg ha).2⟩
    | ret r =>
      cases r with
      | none =>
        have hm : request.Method ≠ MethodConnect := by
          rcases hreach with h | ⟨-, denial, h⟩
          · exact h
          · rw [ha] at h; cases h
        obtain ⟨h1, h2⟩ := body_auth_nil env remoteAddr c request cache ha
        rcases dispatch_step env c { request with RemoteAddr := remoteAddr }
            (keepAliveIntent { request with RemoteAddr := remoteAddr })
            (authenticate env c.now { request with RemoteAddr := remoteAddr } cache).cache hm with
          ⟨msg, h⟩ | ⟨head, out, h3, h4⟩
        · exact Or.inl ⟨msg, by rw [h2, h]⟩
        · exact Or.inr ⟨_, out, true, by rw [h1, h3, ← List.append_assoc], by rw [h2, h4]⟩
      | some denial =>
        obtain ⟨h1, h2⟩ := body_auth_denied env remoteAddr c request cache denial ha
        rcases writeResponse_step c (keepAliveIntent { request with RemoteAddr := remoteAddr })
            false (authenticate env c.now { request with RemoteAddr := remoteAddr } cache).cache
            (some denial) with ⟨msg, h⟩ | ⟨out, h3, h4⟩
        · exact Or.inl ⟨msg, by rw [h2, h]⟩
        · exact Or.inr ⟨_, out, false, by rw [h1, h3], by rw [h2, h4]⟩
  · have hm : request.Method ≠ MethodConnect := by
      rcases hreach with h | ⟨h, -⟩
      · exact h
      · cases h
    obtain ⟨h1, h2, -⟩ := body_trusted env remoteAddr c request cache
    rcases dispatch_step env c { request with RemoteAddr := remoteAddr }
        (keepAliveIntent { request with RemoteAddr := remoteAddr }) cache hm with
      ⟨msg, h⟩ | ⟨head, out, h3, h4⟩
    · exact Or.inl ⟨msg, by rw [h2, h]⟩
    · exact Or.inr ⟨.read (some request) :: head, out, true, by rw [h1, h3]; rfl,
        by rw [h2, h4]⟩

/-- C14.  Take a pass that reaches the write of lines 79-89, that is a pass whose
request is no CONNECT or is denied by `authenticate`, and that does not panic.
Its last event is that write.  If the request asked for keep-alive
(Proxy-Connection, lower-cased and trimmed, equal to `keep-alive`) and the write
succeeded, the loop goes on and the next event is a read of the connection.
Otherwise the next event is the close of the connection and it is the last of
the loop: no further read or write.  This holds alike for an upstream response,
a 400, a 502 and a 407 or 403 denial. -/
theorem keep_alive_decides_next_read (env : Env) (remoteAddr : String) (c : Cycle)
    (cs : List Cycle) (request : Request) (t : Bool) (cache : Option Cache)
    (hr : c.read = some request)
    (hreach : request.Method ≠ MethodConnect ∨
      (t = false ∧ ∃ denial,
        (authenticate env c.now { request with RemoteAddr := remoteAddr } cache).ret
          = .ret (some denial)))
    (hnp : (body env remoteAddr c request t cache).next.isPanic = false) :
    (∃ head out, (body env remoteAddr c request t cache).events
      = head ++ [.write out c.writeOk]) ∧
    (keepAliveIntent { request with RemoteAddr := remoteAddr } = true ∧ c.writeOk = true →
      ∃ t1 r rest,
        (body env remoteAddr c request t cache).next = .proceed true t1 ∧
        (loop env remoteAddr (c :: cs) true t cache).trace =
          (body env remoteAddr c request t cache).events ++ .read r :: rest ∧
        (loop env remoteAddr cs true t1 (body env remoteAddr c request t cache).cache).trace
          = .read r :: rest) ∧
    (¬ (keepAliveIntent { request with RemoteAddr := remoteAddr } = true ∧ c.writeOk = true) →
      (loop env remoteAddr (c :: cs) true t cache).trace =
        (body env remoteAddr c request t cache).events ++ [.close] ∧
      (loop env remoteAddr (c :: cs) true t cache).exit = .closed) := by
  rcases body_write_step env remoteAddr c request t cache hreach with
    ⟨msg, h⟩ | ⟨head, out, t1, he, hn⟩
  · rw [h] at hnp
    cases hnp
  refine ⟨⟨head, out, he⟩, ?_, ?_⟩
  · rintro ⟨hk, hw⟩
    rw [hw, hk] at hn
    simp only [if_true] at hn
    obtain ⟨r, rest, hl⟩ := loop_starts_with_read env remoteAddr cs t1
      (body env remoteAddr c request t cache).cache
    refine ⟨t1, r, rest, hn, ?_, hl⟩
    rw [loop_continue env remoteAddr c cs t cache request true t1 hr hn, hl]
  · intro hneg
    cases hw : c.writeOk
    · rw [hw] at hn
      simp only [Bool.false_eq_true, if_false] at hn
      rw [loop_close env remoteAddr c cs t cache request hr hn]
      exact ⟨rfl, rfl⟩
    · rw [hw] at hn
      simp only [if_true] at hn
      have hk : keepAliveIntent { request with RemoteAddr := remoteAddr } = false := by
        cases hk : keepAliveIntent { request with RemoteAddr := remoteAddr }
        · rfl
        · exact absurd ⟨hk, hw⟩ hneg
      rw [hk] at hn
      rw [loop_continue env remoteAddr c cs t cache request false t1 hr hn, loop_stop]
      exact ⟨rfl, rfl⟩

theorem keep_alive_decides_next_read_witness :
    (∃ t1 r rest,
      (body openEnv sampleAddr (passOf getMixedCase true) getMixedCase true none).next
        = .proceed true t1 ∧
      (loop openEnv sampleAddr [passOf getMixedCase true, passOf getPlain true] true true
          none).trace =
        (body openEnv sampleAddr (passOf getMixedCase true) getMixedCase true none).events ++
          .read r :: rest ∧
      (loop openEnv sampleAddr [passOf getPlain true] true t1
          (body openEnv sampleAddr (passOf getMixedCase true) getMixedCase true none).cache).trace
        = .read r :: rest) ∧
    ((loop sampleEnv sampleAddr [passOf getPlain true, passOf getPlain true] true false
        (some emptyCache)).trace =
      (body sampleEnv sampleAddr (passOf getPlain true) getPlain false
        (some emptyCache)).events ++ [.close] ∧
     (loop sampleEnv sampleAddr [passOf getPlain true, passOf getPlain true] true false
        (some emptyCache)).exit = .closed) ∧
    ((loop openEnv sampleAddr [passOf getMixedCase false, passOf getPlain true] true true
        none).trace =
      (body openEnv sampleAddr (passOf getMixedCase false) getMixedCase true none).events ++
        [.close] ∧
     (loop openEnv sampleAddr [passOf getMixedCase false, passOf getPlain true] true true
        none).exit = .closed) :=
  ⟨(keep_alive_decides_next_read openEnv sampleAddr (passOf getMixedCase true)
      [passOf getPlain true] getMixedCase true none rfl (Or.inl (by decide))
      (by decide)).2.1 ⟨by decide, rfl⟩,
   (keep_alive_decides_next_read sampleEnv sampleAddr (passOf getPlain true)
      [passOf getPlain true] getPlain false (some emptyCache) rfl
      (Or.inl (by decide)) (by decide)).2.2 (by decide),
   (keep_alive_decides_next_read openEnv sampleAddr (passOf getMixedCase false)
      [passOf getPlain true] getMixedCase true none rfl (Or.inl (by decide))
      (by decide)).2.2 (by decide)⟩

/-! ### The dispatch of an ordinary request -/

theorem writeResponse_of_header (c : Cycle) (keepAlive trusted : Bool) (cache : Option Cache)
    (u : Response) (m : HeaderMap) (hm : u.Header = some m) :
    ∃ out, prepareResponse keepAlive u = .ret out ∧
      (writeResponse c keepAlive trusted cache (some u)).events = [.write out c.writeOk] ∧
      (writeResponse c keepAlive trusted cache (some u)).next =
        (if c.writeOk then .proceed keepAlive trusted else .close) := by
  obtain ⟨out, hp⟩ := prepareResponse_of_header keepAlive u m hm
  refine ⟨out, hp, ?_, ?_⟩
  · simp only [writeResponse, hp]
    cases c.writeOk <;> rfl
  · simp only [writeResponse, hp]
    cases c.writeOk <;> rfl

theorem forwarded_of_contract (c : Cycle) (r : Request) (hdo : DoContract c) :
    ∃ u m, forwarded c r = some u ∧ u.Header = some m ∧
      ((c.Do r).err ≠ none → u = responseWith StatusBadGateway) ∧
      ((c.Do r).err = none → (c.Do r).resp = some u) := by
  cases herr : (c.Do r).err with
  | none =>
    obtain ⟨u, m, h1, h2⟩ := hdo r herr
    refine ⟨u, m, ?_, h2, fun h => absurd rfl h, fun _ => h1⟩
    simp [forwarded, herr, h1]
  | some e =>
    refine ⟨responseWith StatusBadGateway, [], ?_, rfl, fun _ => rfl, fun h => by cases h⟩
    simp [forwarded, herr]

theorem dispatch_bad_target (env : Env) (c : Cycle) (request1 : Request) (keepAlive : Bool)
    (cache : Option Cache) (hm : request1.Method ≠ MethodConnect)
    (hbad : badTarget env request1) :
    ∃ out, prepareResponse keepAlive (responseWith StatusBadRequest) = .ret out ∧
      (dispatch env c request1 keepAlive cache).events = [.write out c.writeOk] ∧
      (dispatch env c request1 keepAlive cache).next =
        (if c.writeOk then .proceed keepAlive true else .close) := by
  obtain ⟨out, hp, he, hn⟩ := writeResponse_of_header c keepAlive true cache
    (responseWith StatusBadRequest) [] rfl
  rcases (dispatch_cases env c request1 keepAlive cache).2 with
    ⟨h, -⟩ | ⟨h, -⟩ | ⟨-, -, h1, h2⟩ | ⟨-, h, -⟩
  · exact absurd h hm
  · exact absurd h hm
  · exact ⟨out, hp, by rw [h1, he], by rw [h2, hn]⟩
  · exact absurd hbad h

theorem dispatch_good_target (env : Env) (c : Cycle) (request1 : Request) (keepAlive : Bool)
    (cache : Option Cache) (hm : request1.Method ≠ MethodConnect)
    (hgood : ¬ badTarget env request1) :
    (dispatch env c request1 keepAlive cache).events =
      .roundTrip (sanitize env request1) (c.Do (sanitize env request1)) ::
        (writeResponse c keepAlive true cache (forwarded c (sanitize env request1))).events ∧
    (dispatch env c request1 keepAlive cache).next =
      (writeResponse c keepAlive true cache (forwarded c (sanitize env request1))).next := by
  rcases (dispatch_cases env c request1 keepAlive cache).2 with
    ⟨h, -⟩ | ⟨h, -⟩ | ⟨-, h, -⟩ | ⟨-, -, h1, h2⟩
  · exact absurd h hm
  · exact absurd h hm
  · exact absurd h hgood
  · exact ⟨h1, h2⟩

theorem forwarded_cases (c : Cycle) (r : Request) (u : Response)
    (h : forwarded c r = some u) :
    ((c.Do r).err ≠ none ∧ u = responseWith StatusBadGateway) ∨
    ((c.Do r).err = none ∧ (c.Do r).resp = some u) := by
  cases herr : (c.Do r).err with
  | none =>
    simp only [forwarded, herr, Option.isSome_none, Bool.false_eq_true, if_false] at h
    exact Or.inr ⟨rfl, h⟩
  | some e =>
    simp only [forwarded, herr, Option.isSome_some, if_true, Option.some.injEq] at h
    exact Or.inl ⟨by simp, h.symm⟩

/-- C15.  For a request that is no CONNECT, on a trusted pass.  When the target
of the sanitized request has an empty scheme or an empty host, the pass is the
read and one write, of the response with status 400, status text Bad Request and
protocol HTTP/1.1 (after lines 79-87), and the outbound client is not called;
the same holds on the pass that becomes trusted by `authenticate` returning nil.
When scheme and host are both non-empty, the outbound client is called and every
response written comes from it: the 502 for a transport error, else the response
it returned; no 400 is made. -/
theorem missing_scheme_or_host_gets_400 (env : Env) (remoteAddr : String) (c : Cycle)
    (request : Request) (cache : Option Cache) (hm : request.Method ≠ MethodConnect) :
    (badTarget env { request with RemoteAddr := remoteAddr } →
      ∃ out,
        prepareResponse (keepAliveIntent { request with RemoteAddr := remoteAddr })
          (responseWith StatusBadRequest) = .ret out ∧
        out.StatusCode = 400 ∧ out.Status = "Bad Request" ∧ out.Proto = "HTTP/1.1" ∧
        (body env remoteAddr c request true cache).events =
          [.read (some request), .write out c.writeOk] ∧
        (∀ e ∈ (body env remoteAddr c request true cache).events, e.isRoundTrip = false) ∧
        ((authenticate env c.now { request with RemoteAddr := remoteAddr } cache).ret
            = .ret none →
          (body env remoteAddr c request false cache).events =
            [.read (some request), .authCall { request with RemoteAddr := remoteAddr }] ++
              (authenticate env c.now { request with RemoteAddr := remoteAddr } cache).events ++
              [.authReturn none, .write out c.writeOk] ∧
          ∀ e ∈ (body env remoteAddr c request false cache).events, e.isRoundTrip = false)) ∧
    (¬ badTarget env { request with RemoteAddr := remoteAddr } →
      (body env remoteAddr c request true cache).events =
        .read (some request) ::
          .roundTrip (sanitize env { request with RemoteAddr := remoteAddr })
            (c.Do (sanitize env { request with RemoteAddr := remoteAddr })) ::
          (writeResponse c (keepAliveIntent { request with RemoteAddr := remoteAddr }) true cache
            (forwarded c (sanitize env { request with RemoteAddr := remoteAddr }))).events ∧
      ∀ out ok, .write out ok ∈ (body env remoteAddr c request true cache).events →
        ∃ u, prepareResponse (keepAliveIntent { request with RemoteAddr := remoteAddr }) u
            = .ret out ∧
          (((c.Do (sanitize env { request with RemoteAddr := remoteAddr })).err ≠ none ∧
              u = responseWith StatusBadGateway) ∨
           ((c.Do (sanitize env { request with RemoteAddr := remoteAddr })).err = none ∧
              (c.Do (sanitize env { request with RemoteAddr := remoteAddr })).resp = some u))) := by
  have hm1 : ({ request with RemoteAddr := remoteAddr } : Request).Method ≠ MethodConnect := hm
  refine ⟨?_, ?_⟩
  · intro hbad
    obtain ⟨out, hp, -, -⟩ := dispatch_bad_target env c _
      (keepAliveIntent { request with RemoteAddr := remoteAddr }) cache hm1 hbad
    have hev : ∀ cache1, (dispatch env c { request with RemoteAddr := remoteAddr }
        (keepAliveIntent { request with RemoteAddr := remoteAddr }) cache1).events
        = [.write out c.writeOk] := by
      intro cache1
      obtain ⟨out1, hp1, he1, -⟩ := dispatch_bad_target env c _
        (keepAliveIntent { request with RemoteAddr := remoteAddr }) cache1 hm1 hbad
      rw [hp] at hp1
      cases hp1
      exact he1
    obtain ⟨s1, s2, s3, -, -⟩ := prepareResponse_statusCode _ _ out hp
    have hb : (body env remoteAddr c request true cache).events =
        [.read (some request), .write out c.writeOk] := by
      rw [(body_trusted env remoteAddr c request cache).1, hev]
    refine ⟨out, hp, by rw [s1]; rfl, by rw [s2]; rfl, by rw [s3]; rfl, hb, ?_, ?_⟩
    · rw [hb]
      simp [Event.isRoundTrip]
    · intro ha
      have hb2 : (body env remoteAddr c request false cache).events =
          [.read (some request), .authCall { request with RemoteAddr := remoteAddr }] ++
            (authenticate env c.now { request with RemoteAddr := remoteAddr } cache).events ++
            [.authReturn none, .write out c.writeOk] := by
        rw [(body_auth_nil env remoteAddr c request cache ha).1, hev]
        simp
      refine ⟨hb2, ?_⟩
      rw [hb2]
      intro e he
      simp only [List.cons_append, List.nil_append, List.mem_cons, List.mem_append,
        List.mem_singleton, List.not_mem_nil, or_false] at he
      rcases he with rfl | rfl | he | rfl | rfl
      · rfl
      · rfl
      · have := authenticate_events_backend env c.now _ cache e he
        cases e <;> first | rfl | cases this
      · rfl
      · rfl
  · intro hgood
    obtain ⟨h1, -⟩ := dispatch_good_target env c _
      (keepAliveIntent { request with RemoteAddr := remoteAddr }) cache hm1 hgood
    have hb := (body_trusted env remoteAddr c request cache).1
    rw [h1] at hb
    refine ⟨hb, ?_⟩
    intro out ok hw
    rw [hb] at hw
    simp only [List.mem_cons] at hw
    rcases hw with hw | hw | hw
    · cases hw
    · cases hw
    obtain ⟨u, out1, hu, hp, he⟩ := writeResponse_events _ _ _ _ _ _ hw
    cases he
    exact ⟨u, hp, forwarded_cases c _ u hu⟩

theorem missing_scheme_or_host_gets_400_witness :
    (∃ out,
      prepareResponse (keepAliveIntent { getRelative with RemoteAddr := sampleAddr })
        (responseWith StatusBadRequest) = .ret out ∧
      out.StatusCode = 400 ∧ out.Status = "Bad Request" ∧ out.Proto = "HTTP/1.1" ∧
      (body openEnv sampleAddr (passOf getRelative true) getRelative true none).events =
        [.read (some getRelative), .write out true]) ∧
    (∃ out,
      prepareResponse (keepAliveIntent { postRelative with RemoteAddr := sampleAddr })
        (responseWith StatusBadRequest) = .ret out ∧
      out.StatusCode = 400 ∧ out.Status = "Bad Request" ∧ out.Proto = "HTTP/1.1" ∧
      (body openEnv sampleAddr (passOf postRelative true) postRelative true none).events =
        [.read (some postRelative), .write out true]) := by
  obtain ⟨out, h1, h2, h3, h4, h5, -⟩ :=
    (missing_scheme_or_host_gets_400 openEnv sampleAddr (passOf getRelative true) getRelative
      none (by decide)).1 (Or.inl (by decide))
  obtain ⟨out2, g1, g2, g3, g4, g5, -⟩ :=
    (missing_scheme_or_host_gets_400 openEnv sampleAddr (passOf postRelative true) postRelative
      none (by decide)).1 (Or.inl (by decide))
  exact ⟨⟨out, h1, h2, h3, h4, h5⟩, ⟨out2, g1, g2, g3, g4, g5⟩⟩

theorem prepareResponse_only_header_and_close (keepAlive : Bool) (u out : Response)
    (h : prepareResponse keepAlive u = .ret out) :
    out = { u with Header := out.Header, Close := !keepAlive } := by
  cases keepAlive
  · rw [prepareResponse_close u out h]
    rfl
  · obtain ⟨m0, -, hout⟩ := prepareResponse_keepAlive u out h
    rw [hout]
    rfl

/-- C16.  For a request that is no CONNECT and whose sanitized target has a
scheme and a host, on a trusted pass, with an outbound client that keeps the
contract of `DoContract`: the pass is the read, one call of the outbound client
with the sanitized request (no second call), and one write.  After a transport
error the response written is the 502, status text Bad Gateway, protocol
HTTP/1.1; otherwise it is the response the client returned, with its status
code, status text, protocol and body unchanged, only the header map and the
close flag adjusted.  Either way the pass ends like any other write: with the
keep-alive intent of the request when the write succeeds, in a close when it
fails.  The same holds on the pass that becomes trusted by `authenticate`
returning nil. -/
theorem forwarding_is_attempted_once (env : Env) (remoteAddr : String) (c : Cycle)
    (request : Request) (cache : Option Cache)
    (hm : request.Method ≠ MethodConnect)
    (hgood : ¬ badTarget env { request with RemoteAddr := remoteAddr })
    (hdo : DoContract c) :
    ∃ out,
      (body env remoteAddr c request true cache).events =
        [.read (some request),
         .roundTrip (sanitize env { request with RemoteAddr := remoteAddr })
           (c.Do (sanitize env { request with RemoteAddr := remoteAddr })),
         .write out c.writeOk] ∧
      (body env remoteAddr c request true cache).events.countP Event.isRoundTrip = 1 ∧
      ((c.Do (sanitize env { request with RemoteAddr := remoteAddr })).err ≠ none →
        prepareResponse (keepAliveIntent { request with RemoteAddr := remoteAddr })
          (responseWith StatusBadGateway) = .ret out ∧
        out.StatusCode = 502 ∧ out.Status = "Bad Gateway" ∧ out.Proto = "HTTP/1.1") ∧
      ((c.Do (sanitize env { request with RemoteAddr := remoteAddr })).err = none →
        ∃ u, (c.Do (sanitize env { request with RemoteAddr := remoteAddr })).resp = some u ∧
          prepareResponse (keepAliveIntent { request with RemoteAddr := remoteAddr }) u
            = .ret out ∧
          out.StatusCode = u.StatusCode ∧ out.Status = u.Status ∧ out.Proto = u.Proto ∧
          out.Body = u.Body ∧
          out = { u with Header := out.Header,
                         Close := !keepAliveIntent { request with RemoteAddr := remoteAddr } }) ∧
      (body env remoteAddr c request true cache).next =
        (if c.writeOk then
          .proceed (keepAliveIntent { request with RemoteAddr := remoteAddr }) true
         else .close) ∧
      ((authenticate env c.now { request with RemoteAddr := remoteAddr } cache).ret
          = .ret none →
        (body env remoteAddr c request false cache).events =
          [.read (some request), .authCall { request with RemoteAddr := remoteAddr }] ++
            (authenticate env c.now { request with RemoteAddr := remoteAddr } cache).events ++
            [.authReturn none,
             .roundTrip (sanitize env { request with RemoteAddr := remoteAddr })
               (c.Do (sanitize env { request with RemoteAddr := remoteAddr })),
             .write out c.writeOk]) := by
  have hm1 : ({ request with RemoteAddr := remoteAddr } : Request).Method ≠ MethodConnect := hm
  obtain ⟨u, m, hf, hh, h502, hup⟩ := forwarded_of_contract c
    (sanitize env { request with RemoteAddr := remoteAddr }) hdo
  obtain ⟨out, hp, -, -⟩ := writeResponse_of_header c
    (keepAliveIntent { request with RemoteAddr := remoteAddr }) true cache u m hh
  have hd : ∀ cache1,
      (dispatch env c { request with RemoteAddr := remoteAddr }
        (keepAliveIntent { request with RemoteAddr := remoteAddr }) cache1).events =
        [.roundTrip (sanitize env { request with RemoteAddr := remoteAddr })
           (c.Do (sanitize env { request with RemoteAddr := remoteAddr })),
         .write out c.writeOk] ∧
      (dispatch env c { request with RemoteAddr := remoteAddr }
        (keepAliveIntent { request with RemoteAddr := remoteAddr }) cache1).next =
        (if c.writeOk then
          .proceed (keepAliveIntent { request with RemoteAddr := remoteAddr }) true
         else .close) := by
    intro cache1
    obtain ⟨h1, h2⟩ := dispatch_good_target env c _
      (keepAliveIntent { request with RemoteAddr := remoteAddr }) cache1 hm1 hgood
    obtain ⟨out1, hp1, he1, hn1⟩ := writeResponse_of_header c
      (keepAliveIntent { request with RemoteAddr := remoteAddr }) true cache1 u m hh
    rw [hp] at hp1
    cases hp1
    rw [hf] at h1 h2
    exact ⟨by rw [h1, he1], by rw [h2, hn1]⟩
  obtain ⟨s1, s2, s3, s4, -⟩ := prepareResponse_statusCode _ u out hp
  have hb : (body env remoteAddr c request true cache).events =
      [.read (some request),
       .roundTrip (sanitize env { request with RemoteAddr := remoteAddr })
         (c.Do (sanitize env { request with RemoteAddr := remoteAddr })),
       .write out c.writeOk] := by
    rw [(body_trusted env remoteAddr c request cache).1, (hd cache).1]
  refine ⟨out, hb, ?_, ?_, ?_, ?_, ?_⟩
  · rw [hb]
    rfl
  · intro herr
    have := h502 herr
    subst this
    exact ⟨hp, by rw [s1]; rfl, by rw [s2]; rfl, by rw [s3]; rfl⟩
  · intro herr
    exact ⟨u, hup herr, hp, s1, s2, s3, s4, prepareResponse_only_header_and_close _ u out hp⟩
  · rw [(body_trusted env remoteAddr c request cache).2.1, (hd cache).2]
  · intro ha
    rw [(body_auth_nil env remoteAddr c request cache ha).1, (hd _).1]
    simp

theorem forwarding_is_attempted_once_witness :
    (∃ out,
      (body openEnv sampleAddr (passOf getPlain true) getPlain true none).events =
        [.read (some getPlain),
         .roundTrip (sanitize openEnv { getPlain with RemoteAddr := sampleAddr })
           (sampleUpstream (sanitize openEnv { getPlain with RemoteAddr := sampleAddr })),
         .write out true] ∧
      out.StatusCode = 200 ∧ out.Body = "ok") ∧
    (∃ out,
      (body openEnv sampleAddr (failingPassOf getPlain true) getPlain true none).events =
        [.read (some getPlain),
         .roundTrip (sanitize openEnv { getPlain with RemoteAddr := sampleAddr })
           (failingUpstream (sanitize openEnv { getPlain with RemoteAddr := sampleAddr })),
         .write out true] ∧
      out.StatusCode = 502 ∧ out.Status = "Bad Gateway" ∧ out.Proto = "HTTP/1.1") := by
  obtain ⟨out, h1, -, -, h2, -⟩ :=
    forwarding_is_attempted_once openEnv sampleAddr (passOf getPlain true) getPlain none
      (by decide) (by unfold badTarget; decide) (fun _ _ => ⟨_, _, rfl, rfl⟩)
  obtain ⟨u, hu, -, h3, -, -, h4, -⟩ := h2 rfl
  cases hu
  obtain ⟨out2, g1, -, g2, -⟩ :=
    forwarding_is_attempted_once openEnv sampleAddr (failingPassOf getPlain true) getPlain none
      (by decide) (by unfold badTarget; decide) (fun _ h => by cases h)
  obtain ⟨-, g3, g4, g5⟩ := g2 (by decide)
  exact ⟨⟨out, h1, h3, h4⟩, ⟨out2, g1, g3, g4, g5⟩⟩

/-! ### Read failures -/

theorem loop_readErrorEnds (env : Env) (remoteAddr : String) (cs : List Cycle) (k t : Bool)
    (cache : Option Cache) :
    ∀ pre post, (loop env remoteAddr cs k t cache).trace = pre ++ .read none :: post →
      post = [.close] := by
  have hb : ∀ (c : Cycle) (request : Request) (t : Bool) (cache : Option Cache),
      ∀ e ∈ (body env remoteAddr c request t cache).events, ¬ e.isReadError = true := by
    intro c request t cache e he
    rw [(body_events_plain env remoteAddr c request t cache e he).2.2]
    simp
  have habs : ∀ (a b : List Event),
      (∀ e ∈ a, ¬ e.isReadError = true) →
      (∀ pre post, b = pre ++ .read none :: post → post = [.close]) →
      ∀ pre post, a ++ b = pre ++ .read none :: post → post = [.close] := by
    intro a b ha hb pre post he
    obtain ⟨mid, -, h2⟩ := split_after (fun e => e.isReadError = true) a b pre post _ ha rfl he
    exact hb mid post h2
  have hnone : ∀ (b : List Event), (∀ e ∈ b, ¬ e.isReadError = true) →
      ∀ pre post, b = pre ++ .read none :: post → post = [.close] := by
    intro b hb pre post he
    exact absurd rfl (hb (.read none) (by rw [he]; simp))
  exact loop_induction env remoteAddr
    (fun _ tr _ => ∀ pre post, tr = pre ++ .read none :: post → post = [.close])
    (fun _ => hnone _ (by simp [Event.isReadError]))
    (fun _ => by
      intro pre post he
      cases pre with
      | nil =>
        simp only [List.nil_append, List.cons.injEq, true_and] at he
        exact he.symm
      | cons x pre =>
        cases pre with
        | nil => simp at he
        | cons y pre =>
          have := congrArg List.length he
          simp at this)
    (fun c request t cache k1 t1 rest x _ ih =>
      habs _ rest (hb c request t cache) ih)
    (fun c request t cache _ =>
      habs _ _ (hb c request t cache) (hnone _ (by simp [Event.isReadError])))
    (fun c request t cache _ => hnone _ (hb c request t cache))
    (fun c request t cache msg _ => hnone _ (hb c request t cache))
    cs k t cache

/-- C17.  When `ReadRequest` fails, on the read of any pass or because the
stream has ended, the loop does nothing more than close the connection: from any
state the rest of the run is the failed read and the close, the cache is as it
was.  In every run of `HandleConn`, a failed read is followed by the close of
the connection and the deferred `CloseIdleConnections` and by nothing else: no
write, no call of `authenticate` or of the outbound client, no push, no further
read. -/
theorem read_failure_closes_connection (env : Env) (remoteAddr : String) :
    (∀ (c : Cycle) (cs : List Cycle) (t : Bool) (cache : Option Cache), c.read = none →
      loop env remoteAddr (c :: cs) true t cache = ⟨[.read none, .close], .closed, cache⟩) ∧
    (∀ (t : Bool) (cache : Option Cache),
      loop env remoteAddr [] true t cache = ⟨[.read none, .close], .closed, cache⟩) ∧
    (∀ (c : Cycle) (cs : List Cycle) (cache : Option Cache), c.read = none →
      (HandleConn env remoteAddr (c :: cs) cache).trace = [.read none, .close, .closeIdle] ∧
      (HandleConn env remoteAddr (c :: cs) cache).exit = .closed ∧
      (HandleConn env remoteAddr (c :: cs) cache).cache = cache) ∧
    (∀ (cycles : List Cycle) (cache : Option Cache) (pre post : List Event),
      (HandleConn env remoteAddr cycles cache).trace = pre ++ .read none :: post →
      post = [.close, .closeIdle]) := by
  refine ⟨?_, ?_, ?_, ?_⟩
  · intro c cs t cache hr
    exact loop_read_error env remoteAddr c cs t cache hr
  · intro t cache
    exact loop_nil env remoteAddr t cache
  · intro c cs cache hr
    have h := loop_read_error env remoteAddr c cs cache.isNone cache hr
    refine ⟨?_, ?_, ?_⟩
    · show (loop env remoteAddr (c :: cs) true cache.isNone cache).trace ++ [.closeIdle] = _
      rw [h]
      rfl
    · show (loop env remoteAddr (c :: cs) true cache.isNone cache).exit = _
      rw [h]
    · show (loop env remoteAddr (c :: cs) true cache.isNone cache).cache = _
      rw [h]
  · intro cycles cache pre post he
    obtain ⟨post1, h1, h2⟩ := decomp_append_singleton _ pre post (.read none) .closeIdle
      (by simp) he
    rw [h1, loop_readErrorEnds env remoteAddr cycles true cache.isNone cache pre post1 h2]
    rfl

/-! ### Cleanup on exit -/

theorem body_counts (env : Env) (remoteAddr : String) (c : Cycle) (request : Request)
    (t : Bool) (cache : Option Cache) :
    (body env remoteAddr c request t cache).events.countP Event.isClose = 0 ∧
    (body env remoteAddr c request t cache).events.countP Event.isCloseIdle = 0 ∧
    ((body env remoteAddr c request t cache).next = .hijack →
      (body env remoteAddr c request t cache).events.countP Event.isPush = 1) ∧
    ((body env remoteAddr c request t cache).next ≠ .hijack →
      (body env remoteAddr c request t cache).events.countP Event.isPush = 0) := by
  have hp := body_events_plain env remoteAddr c request t cache
  refine ⟨?_, ?_, ?_, ?_⟩
  · rw [List.countP_eq_zero]
    intro e he
    simp [(hp e he).1]
  · rw [List.countP_eq_zero]
    intro e he
    simp [(hp e he).2.1]
  · intro hn
    rcases body_push env remoteAddr c request t cache with
      ⟨-, -, -, head1, last, he, hnp, -⟩ | ⟨h, -⟩
    · have he2 : (body env remoteAddr c request t cache).events =
          (head1 ++ [last, .write connectResponse true]) ++
            [.push { request with RemoteAddr := remoteAddr }] := by
        rw [he]; simp
      have h0 : (head1 ++ [last, Event.write connectResponse true]).countP Event.isPush = 0 := by
        rw [List.countP_eq_zero]
        intro e hm
        simp [hnp e hm]
      rw [he2, List.countP_append, h0]
      rfl
    · exact absurd hn h
  · intro hn
    rcases body_push env remoteAddr c request t cache with ⟨h, -⟩ | ⟨-, -, h⟩
    · exact absurd h hn
    · rw [List.countP_eq_zero]
      intro e he
      simp [h e he]

theorem loop_counts (env : Env) (remoteAddr : String) (cs : List Cycle) (k t : Bool)
    (cache : Option Cache) :
    (loop env remoteAddr cs k t cache).trace.countP Event.isCloseIdle = 0 ∧
    ((loop env remoteAddr cs k t cache).exit = .closed →
      (loop env remoteAddr cs k t cache).trace.countP Event.isClose = 1 ∧
      (loop env remoteAddr cs k t cache).trace.countP Event.isPush = 0) ∧
    ((loop env remoteAddr cs k t cache).exit = .hijacked →
      (loop env remoteAddr cs k t cache).trace.countP Event.isClose = 0 ∧
      (loop env remoteAddr cs k t cache).trace.countP Event.isPush = 1) ∧
    ((loop env remoteAddr cs k t cache).exit.isPanic = true →
      (loop env remoteAddr cs k t cache).trace.countP Event.isClose = 0 ∧
      (loop env remoteAddr cs k t cache).trace.countP Event.isPush = 0) := by
  exact loop_induction env remoteAddr
    (fun _ tr x => tr.countP Event.isCloseIdle = 0 ∧
      (x = .closed → tr.countP Event.isClose = 1 ∧ tr.countP Event.isPush = 0) ∧
      (x = .hijacked → tr.countP Event.isClose = 0 ∧ tr.countP Event.isPush = 1) ∧
      (x.isPanic = true → tr.countP Event.isClose = 0 ∧ tr.countP Event.isPush = 0))
    (fun _ => ⟨rfl, fun _ => ⟨rfl, rfl⟩, fun h => (by cases h), fun h => (by cases h)⟩)
    (fun _ => ⟨rfl, fun _ => ⟨rfl, rfl⟩, fun h => (by cases h), fun h => (by cases h)⟩)
    (by
      intro c request t cache k1 t1 rest x hn ih
      obtain ⟨b1, b2, -, b4⟩ := body_counts env remoteAddr c request t cache
      have b5 := b4 (by rw [hn]; simp)
      simp only [List.countP_append, b1, b2, b5, Nat.zero_add]
      exact ih)
    (by
      intro c request t cache hn
      obtain ⟨b1, b2, -, b4⟩ := body_counts env remoteAddr c request t cache
      have b5 := b4 (by rw [hn]; simp)
      simp only [List.countP_append, b1, b2, b5, Nat.zero_add]
      exact ⟨rfl, fun _ => ⟨rfl, rfl⟩, fun h => (by cases h), fun h => (by cases h)⟩)
    (by
      intro c request t cache hn
      obtain ⟨b1, b2, b3, -⟩ := body_counts env remoteAddr c request t cache
      exact ⟨b2, fun h => (by cases h), fun _ => ⟨b1, b3 hn⟩, fun h => (by cases h)⟩)
    (by
      intro c request t cache msg hn
      obtain ⟨b1, b2, -, b4⟩ := body_counts env remoteAddr c request t cache
      exact ⟨b2, fun h => (by cases h), fun h => (by cases h),
        fun _ => ⟨b1, b4 (by rw [hn]; simp)⟩⟩)
    cs k t cache

/-! ### The two senders on the channel -/

theorem clientSends_append (a b : List Event) :
    clientSends (a ++ b) = clientSends a + clientSends b := by
  simp [clientSends]

theorem clientSends_cons (e : Event) (tr : List Event) :
    clientSends (e :: tr) = e.clientSends + clientSends tr := by
  simp [clientSends]

theorem channelSends_cons (e : Event) (tr : List Event) :
    channelSends (e :: tr) = e.channelSends + channelSends tr := by
  simp [channelSends]

theorem channelSends_split (tr : List Event) :
    channelSends tr = tr.countP Event.isPush + clientSends tr := by
  induction tr with
  | nil => rfl
  | cons e tr ih =>
    rw [channelSends_cons, clientSends_cons, ih, List.countP_cons]
    cases e <;> simp [Event.channelSends, Event.clientSends, Event.isPush] <;> omega

theorem clientSends_eq_zero (tr : List Event) (h : ∀ e ∈ tr, e.clientSends = 0) :
    clientSends tr = 0 := by
  induction tr with
  | nil => rfl
  | cons e tr ih =>
    rw [clientSends_cons, h e (by simp), ih (fun x hx => h x (by simp [hx]))]

theorem writeResponse_clientSends (c : Cycle) (keepAlive trusted : Bool)
    (cache : Option Cache) (resp : Option Response) :
    clientSends (writeResponse c keepAlive trusted cache resp).events = 0 := by
  rcases (writeResponse_cases c keepAlive trusted cache resp).2 with
    ⟨h, -⟩ | ⟨u, out, -, -, h, -⟩
  · rw [h]; rfl
  · rw [h]; rfl

theorem dispatch_clientSends (env : Env) (c : Cycle) (request1 : Request) (keepAlive : Bool)
    (cache : Option Cache) :
    clientSends (dispatch env c request1 keepAlive cache).events = 0 ∨
    (request1.Method ≠ MethodConnect ∧ ¬ badTarget env request1 ∧
      clientSends (dispatch env c request1 keepAlive cache).events =
        (c.Do (sanitize env request1)).sent.length) := by
  rcases (dispatch_cases env c request1 keepAlive cache).2 with
    ⟨-, -, h, -⟩ | ⟨-, -, h, -⟩ | ⟨-, -, h, -⟩ | ⟨hm, hu, h, -⟩
  · exact Or.inl (by rw [h]; rfl)
  · exact Or.inl (by rw [h]; rfl)
  · exact Or.inl (by rw [h]; exact writeResponse_clientSends _ _ _ _ _)
  · refine Or.inr ⟨hm, hu, ?_⟩
    rw [h, clientSends_cons, writeResponse_clientSends]
    rfl

theorem body_clientSends (env : Env) (remoteAddr : String) (c : Cycle) (request : Request)
    (t : Bool) (cache : Option Cache) :
    clientSends (body env remoteAddr c request t cache).events = 0 ∨
    (request.Method ≠ MethodConnect ∧
      ¬ badTarget env { request with RemoteAddr := remoteAddr } ∧
      clientSends (body env remoteAddr c request t cache).events =
        (c.Do (sanitize env { request with RemoteAddr := remoteAddr })).sent.length) := by
  obtain ⟨head, tail, hev, hh, h⟩ := body_kinds env remoteAddr c request t cache
  have h0 : clientSends head = 0 := by
    apply clientSends_eq_zero
    intro e he
    rcases hh e he with rfl | h1
    · rfl
    · cases e <;> first | rfl | cases h1
  rw [hev, clientSends_append, h0, Nat.zero_add]
  rcases h with ⟨cache1, h1⟩ | ⟨cache1, denial, h1⟩ | h1
  · rw [h1]
    exact dispatch_clientSends env c _ _ cache1
  · rw [h1]
    exact Or.inl (writeResponse_clientSends _ _ _ _ _)
  · rw [h1]
    exact Or.inl rfl

/-- C10.  The channel has two senders, `HandleConn` itself (line 54) and the
outbound client built around the same channel (line 18), and the values sent on
it in a run are the pushes of the one and the sends of the other.  In every run
of `HandleConn`: `HandleConn` itself pushes at most one request; its push is the
last action before the deferred `CloseIdleConnections`, pushes a CONNECT
request, and comes right after the successful write of the 200 response, which
comes right after the read of that request on a trusted pass or after the
return of nil from `authenticate`; after a failed write, of the 200 response or
of any other, nothing follows but the close of the connection (and the deferred
call), so nothing is pushed.  A pass whose request `authenticate` denies pushes
nothing, and neither does a pass whose request is no CONNECT.  The client sends
on the channel only during the one call of `client.Do` of a pass that forwards
a request that is no CONNECT, and then whatever that call sends. -/
theorem push_at_most_once_after_connect_write (env : Env) (remoteAddr : String)
    (cycles : List Cycle) (cache : Option Cache) :
    (HandleConn env remoteAddr cycles cache).trace.countP Event.isPush ≤ 1 ∧
    PushPlaced remoteAddr (HandleConn env remoteAddr cycles cache).trace [.closeIdle] ∧
    FailedWriteEnds (HandleConn env remoteAddr cycles cache).trace [.close, .closeIdle] ∧
    (∀ (c : Cycle) (request : Request) (cache1 : Option Cache) (denial : Response),
      (authenticate env c.now { request with RemoteAddr := remoteAddr } cache1).ret
        = .ret (some denial) →
      (body env remoteAddr c request false cache1).next ≠ .hijack ∧
      ∀ e ∈ (body env remoteAddr c request false cache1).events, e.isPush = false) ∧
    (∀ (c : Cycle) (request : Request) (t : Bool) (cache1 : Option Cache),
      request.Method ≠ MethodConnect →
      (body env remoteAddr c request t cache1).next ≠ .hijack ∧
      ∀ e ∈ (body env remoteAddr c request t cache1).events, e.isPush = false) ∧
    channelSends (HandleConn env remoteAddr cycles cache).trace =
      (HandleConn env remoteAddr cycles cache).trace.countP Event.isPush +
        clientSends (HandleConn env remoteAddr cycles cache).trace ∧
    (∀ (c : Cycle) (request : Request) (t : Bool) (cache1 : Option Cache),
      clientSends (body env remoteAddr c request t cache1).events = 0 ∨
      (request.Method ≠ MethodConnect ∧
        ¬ badTarget env { request with RemoteAddr := remoteAddr } ∧
        clientSends (body env remoteAddr c request t cache1).events =
          (c.Do (sanitize env { request with RemoteAddr := remoteAddr })).sent.length)) := by
  have hpush : PushPlaced remoteAddr (HandleConn env remoteAddr cycles cache).trace
      [.closeIdle] := by
    intro pre r post he
    obtain ⟨post1, h1, h2⟩ := decomp_append_singleton _ pre post (.push r) .closeIdle
      (by simp) he
    obtain ⟨h3, h4⟩ := loop_pushPlaced env remoteAddr cycles true cache.isNone cache pre r post1 h2
    exact ⟨by rw [h1, h3]; rfl, h4⟩
  refine ⟨?_, hpush, ?_, ?_, ?_, channelSends_split _, body_clientSends env remoteAddr⟩
  · apply count_le_one_of_last Event.isPush [.closeIdle] (by simp [Event.isPush])
    intro pre x post hx he
    cases x <;> first | exact (hpush pre _ post he).1 | cases hx
  · intro pre out post he
    obtain ⟨post1, h1, h2⟩ := decomp_append_singleton _ pre post (.write out false) .closeIdle
      (by simp) he
    rw [h1, loop_failedWriteEnds env remoteAddr cycles true cache.isNone cache pre out post1 h2]
    rfl
  · intro c request cache1 denial ha
    rcases body_push env remoteAddr c request false cache1 with
      ⟨-, -, -, head1, last, -, -, hl⟩ | ⟨h1, -, h2⟩
    · rcases hl with ⟨-, -, ht⟩ | ⟨-, -, -, hn⟩
      · cases ht
      · rw [ha] at hn
        cases hn
    · exact ⟨h1, h2⟩
  · intro c request t cache1 hm
    rcases body_push env remoteAddr c request t cache1 with ⟨-, hc, -⟩ | ⟨h1, -, h2⟩
    · exact absurd hc hm
    · exact ⟨h1, h2⟩

/-- C10, as stated, fails.  Two GET requests for two hosts on one keep-alive
connection, with authentication off: neither is a CONNECT and `HandleConn`
pushes nothing itself, yet the client dials once for each while it forwards
them, so two values are sent on the channel, none of them after the write of
a 200 response to a CONNECT. -/
theorem forwarded_requests_send_on_the_channel :
    getMixedCase.Method ≠ MethodConnect ∧ getOther.Method ≠ MethodConnect ∧
    (HandleConn openEnv sampleAddr [passOf getMixedCase true, passOf getOther true]
        none).trace =
      [.read (some getMixedCase),
       .roundTrip (sanitize openEnv { getMixedCase with RemoteAddr := sampleAddr })
         ⟨some { responseWith 200 with Body := "ok" }, none, ["example.com"]⟩,
       .write { responseWith 200 with Body := "ok", Header := some keepAliveEntries } true,
       .read (some getOther),
       .roundTrip (sanitize openEnv { getOther with RemoteAddr := sampleAddr })
         ⟨some { responseWith 200 with Body := "ok" }, none, ["example.org"]⟩,
       .write { responseWith 200 with Body := "ok", Header := some keepAliveEntries } true,
       .read none, .close, .closeIdle] ∧
    (HandleConn openEnv sampleAddr [passOf getMixedCase true, passOf getOther true]
        none).trace.countP Event.isPush = 0 ∧
    channelSends (HandleConn openEnv sampleAddr
      [passOf getMixedCase true, passOf getOther true] none).trace = 2 ∧
    ¬ channelSends (HandleConn openEnv sampleAddr
      [passOf getMixedCase true, passOf getOther true] none).trace ≤ 1 := by
  decide

/-- C18.  In every run of `HandleConn` the idle connections of the outbound
client are released exactly once, as the last action, also when the run panics.
In every run that returns (does not panic), the connection is closed at most
once; it is closed exactly once when the run leaves the loop (read failure,
write failure, end of keep-alive) and then `HandleConn` pushes nothing; it is
not closed at all when the run ends in the hijack and then `HandleConn` pushes
exactly one request.  So the connection is closed by `HandleConn` if and only if
`HandleConn` itself pushed nothing onto the channel, that is, if and only if
every value sent on the channel was sent by the outbound client. -/
theorem cleanup_on_every_exit (env : Env) (remoteAddr : String) (cycles : List Cycle)
    (cache : Option Cache) :
    (HandleConn env remoteAddr cycles cache).trace.countP Event.isCloseIdle = 1 ∧
    (HandleConn env remoteAddr cycles cache).trace.getLast? = some .closeIdle ∧
    ((HandleConn env remoteAddr cycles cache).exit.isPanic = false →
      ((HandleConn env remoteAddr cycles cache).exit = .closed ∨
        (HandleConn env remoteAddr cycles cache).exit = .hijacked) ∧
      ((HandleConn env remoteAddr cycles cache).exit = .closed →
        (HandleConn env remoteAddr cycles cache).trace.countP Event.isClose = 1 ∧
        (HandleConn env remoteAddr cycles cache).trace.countP Event.isPush = 0) ∧
      ((HandleConn env remoteAddr cycles cache).exit = .hijacked →
        (HandleConn env remoteAddr cycles cache).trace.countP Event.isClose = 0 ∧
        (HandleConn env remoteAddr cycles cache).trace.countP Event.isPush = 1) ∧
      (HandleConn env remoteAddr cycles cache).trace.countP Event.isClose ≤ 1 ∧
      ((HandleConn env remoteAddr cycles cache).trace.countP Event.isClose = 1 ↔
        (HandleConn env remoteAddr cycles cache).trace.countP Event.isPush = 0) ∧
      ((HandleConn env remoteAddr cycles cache).trace.countP Event.isClose = 1 ↔
        channelSends (HandleConn env remoteAddr cycles cache).trace =
          clientSends (HandleConn env remoteAddr cycles cache).trace)) := by
  obtain ⟨h1, h2, h3, -⟩ := loop_counts env remoteAddr cycles true cache.isNone cache
  have hsplit := channelSends_split (HandleConn env remoteAddr cycles cache).trace
  have ht : (HandleConn env remoteAddr cycles cache).trace =
      (loop env remoteAddr cycles true cache.isNone cache).trace ++ [.closeIdle] := rfl
  have hx : (HandleConn env remoteAddr cycles cache).exit =
      (loop env remoteAddr cycles true cache.isNone cache).exit := rfl
  have hclose : (HandleConn env remoteAddr cycles cache).trace.countP Event.isClose =
      (loop env remoteAddr cycles true cache.isNone cache).trace.countP Event.isClose := by
    rw [ht, List.countP_append]; rfl
  have hpush : (HandleConn env remoteAddr cycles cache).trace.countP Event.isPush =
      (loop env remoteAddr cycles true cache.isNone cache).trace.countP Event.isPush := by
    rw [ht, List.countP_append]; rfl
  have hidle : (HandleConn env remoteAddr cycles cache).trace.countP Event.isCloseIdle = 1 := by
    rw [ht, List.countP_append, h1]; rfl
  refine ⟨hidle, by rw [ht]; simp, ?_⟩
  intro hret
  rw [hx] at hret
  rw [hsplit, hclose, hpush, hx]
  refine ⟨?_, h2, h3, ?_, ?_, ?_⟩
  · cases hex : (loop env remoteAddr cycles true cache.isNone cache).exit with
    | closed => exact Or.inl rfl
    | hijacked => exact Or.inr rfl
    | panicked msg => rw [hex] at hret; cases hret
  · cases hex : (loop env remoteAddr cycles true cache.isNone cache).exit with
    | closed => rw [(h2 hex).1]
    | hijacked => rw [(h3 hex).1]; omega
    | panicked msg => rw [hex] at hret; cases hret
  · cases hex : (loop env remoteAddr cycles true cache.isNone cache).exit with
    | closed => rw [(h2 hex).1, (h2 hex).2]; simp
    | hijacked => rw [(h3 hex).1, (h3 hex).2]; simp
    | panicked msg => rw [hex] at hret; cases hret
  · cases hex : (loop env remoteAddr cycles true cache.isNone cache).exit with
    | closed => rw [(h2 hex).1, (h2 hex).2]; simp
    | hijacked => rw [(h3 hex).1, (h3 hex).2]; simp
    | panicked msg => rw [hex] at hret; cases hret

theorem cleanup_on_every_exit_witness :
    ((HandleConn openEnv sampleAddr [passOf connectPlain true] none).exit = .hijacked ∧
      (HandleConn openEnv sampleAddr [passOf connectPlain true] none).trace.countP
        Event.isCloseIdle = 1 ∧
      (HandleConn openEnv sampleAddr [passOf connectPlain true] none).trace.countP
        Event.isClose = 0 ∧
      (HandleConn openEnv sampleAddr [passOf connectPlain true] none).trace.countP
        Event.isPush = 1) ∧
    ((HandleConn openEnv sampleAddr [passOf getMixedCase true, failedRead] none).exit = .closed ∧
      (HandleConn openEnv sampleAddr [passOf getMixedCase true, failedRead] none).trace.countP
        Event.isCloseIdle = 1 ∧
      (HandleConn openEnv sampleAddr [passOf getMixedCase true, failedRead] none).trace.countP
        Event.isClose = 1 ∧
      (HandleConn openEnv sampleAddr [passOf getMixedCase true, failedRead] none).trace.countP
        Event.isPush = 0) :=
  ⟨⟨by decide,
    (cleanup_on_every_exit openEnv sampleAddr [passOf connectPlain true] none).1,
    (((cleanup_on_every_exit openEnv sampleAddr [passOf connectPlain true] none).2.2
      (by decide)).2.2.1 (by decide)).1,
    (((cleanup_on_every_exit openEnv sampleAddr [passOf connectPlain true] none).2.2
      (by decide)).2.2.1 (by decide)).2⟩,
   ⟨by decide,
    (cleanup_on_every_exit openEnv sampleAddr [passOf getMixedCase true, failedRead] none).1,
    (((cleanup_on_every_exit openEnv sampleAddr [passOf getMixedCase true, failedRead]
      none).2.2 (by decide)).2.1 (by decide)).1,
    (((cleanup_on_every_exit openEnv sampleAddr [passOf getMixedCase true, failedRead]
      none).2.2 (by decide)).2.1 (by decide)).2⟩⟩

/-- C18, as stated, fails in its last clause.  One GET request without
keep-alive, with authentication off: the client dials while it forwards the
request, so one value is sent on the channel, and `HandleConn` closes the
connection all the same. -/
theorem forwarded_request_sends_and_connection_is_closed :
    (HandleConn openEnv sampleAddr [passOf getPlain true] none).trace =
      [.read (some getPlain),
       .roundTrip (sanitize openEnv { getPlain with RemoteAddr := sampleAddr })
         ⟨some { responseWith 200 with Body := "ok" }, none, ["example.com"]⟩,
       .write { responseWith 200 with Body := "ok", Close := true } true,
       .close, .closeIdle] ∧
    (HandleConn openEnv sampleAddr [passOf getPlain true] none).exit = .closed ∧
    (HandleConn openEnv sampleAddr [passOf getPlain true] none).trace.countP
      Event.isClose = 1 ∧
    channelSends (HandleConn openEnv sampleAddr [passOf getPlain true] none).trace = 1 ∧
    ¬ ((HandleConn openEnv sampleAddr [passOf getPlain true] none).trace.countP
        Event.isClose = 1 ↔
      channelSends (HandleConn openEnv sampleAddr [passOf getPlain true] none).trace = 0) := by
  decide

/-! ### Panics -/

theorem cache_get_mem (c : Cache) (now : Nat) (key : String) (v : Any)
    (h : c.Get now key = some v) : ∃ e, (key, e) ∈ c.mapping ∧ e.Payload = v := by
  unfold Cache.Get at h
  cases hl : c.mapping.lookup key with
  | none => rw [hl] at h; cases h
  | some e =>
    rw [hl] at h
    simp only at h
    split at h
    · cases h
      exact ⟨e, mem_of_lookup key e _ hl, rfl⟩
    · cases h

theorem allBool_get (c : Cache) (now : Nat) (key : String) (v : Any)
    (hc : c.AllBool) (h : c.Get now key = some v) : ∃ b, v = .bool b := by
  obtain ⟨e, hm, he⟩ := cache_get_mem c now key v h
  obtain ⟨b, hb⟩ := hc _ hm
  exact ⟨b, by rw [← he]; exact hb⟩

theorem allBool_put (c : Cache) (now : Nat) (key : String) (b : Bool) (ttl : Nat)
    (hc : c.AllBool) : (c.Put now key (.bool b) ttl).AllBool := by
  intro kv hkv
  simp only [Cache.Put, List.mem_cons] at hkv
  rcases hkv with rfl | hkv
  · exact ⟨b, rfl⟩
  · exact hc kv (List.mem_filter.mp hkv).1

theorem verdict_bool (request : Request) (cache : Option Cache) (events : List Event)
    (b : Bool) :
    (verdict request cache events (.bool b)).cache = cache ∧
    (∀ msg, (verdict request cache events (.bool b)).ret ≠ .panic msg) ∧
    (∀ d, (verdict request cache events (.bool b)).ret = .ret (some d) →
      d = responseWith StatusForbidden) ∧
    (∀ key v ttl, Event.cachePut key v ttl ∈ (verdict request cache events (.bool b)).events →
      Event.cachePut key v ttl ∈ events) := by
  cases b
  · rw [verdict_false]
    refine ⟨rfl, fun msg h => (by cases h), fun d h => ?_, fun key v ttl h => ?_⟩
    · simp only [Outcome.ret.injEq, Option.some.injEq] at h
      exact h.symm
    · simpa using h
  · rw [verdict_true]
    exact ⟨rfl, fun msg h => (by cases h), fun d h => (by cases h), fun key v ttl h => h⟩

/-- What a call of `authenticate` with a cache that is not nil comes to: the
cache afterwards is the cache before or the cache before with one boolean put
in; a panic is the failed type assertion on a value of the cache that is no
boolean; a denial has a header map; every `Put` stores a boolean. -/
theorem authenticate_summary (env : Env) (now : Nat) (request : Request) (c0 : Cache) :
    (∃ c1, (authenticate env now request (some c0)).cache = some c1 ∧
      (c1 = c0 ∨ ∃ key b, c1 = c0.Put now key (.bool b) Minute)) ∧
    (∀ msg, (authenticate env now request (some c0)).ret = .panic msg →
      msg = assertionFailure ∧ ¬ c0.AllBool) ∧
    (∀ d, (authenticate env now request (some c0)).ret = .ret (some d) →
      ∃ m, d.Header = some m) ∧
    (∀ key v ttl, Event.cachePut key v ttl ∈ (authenticate env now request (some c0)).events →
      ∃ b, v = .bool b) := by
  cases hauth : env.Authenticator with
  | none =>
    rw [authenticate_no_authenticator env now request _ hauth]
    exact ⟨⟨c0, rfl, Or.inl rfl⟩, fun msg h => (by cases h), fun d h => (by cases h),
      fun key v ttl h => by simp at h⟩
  | some verify =>
    by_cases hcred : env.ParseBasicProxyAuthorization request = ""
    · rw [authenticate_no_credential env verify now request _ hauth hcred]
      refine ⟨⟨c0, rfl, Or.inl rfl⟩, fun msg h => (by cases h), fun d h => ?_,
        fun key v ttl h => by simp at h⟩
      simp only [Outcome.ret.injEq, Option.some.injEq] at h
      exact ⟨_, by rw [← h]; rfl⟩
    · cases hget : c0.Get now (env.ParseBasicProxyAuthorization request) with
      | some authed =>
        rw [authenticate_hit env verify now request c0 authed hauth hcred hget]
        cases authed with
        | bool b =>
          obtain ⟨v1, v2, v3, v4⟩ := verdict_bool request (some c0)
            [.cacheGet (env.ParseBasicProxyAuthorization request)] b
          refine ⟨⟨c0, v1, Or.inl rfl⟩, fun msg h => absurd h (v2 msg), fun d h => ?_,
            fun key v ttl h => ?_⟩
          · exact ⟨[], by rw [v3 d h]; rfl⟩
          · have := v4 key v ttl h
            simp at this
        | other tag =>
          refine ⟨⟨c0, rfl, Or.inl rfl⟩, fun msg h => ?_, fun d h => (by cases h),
            fun key v ttl h => ?_⟩
          · simp only [verdict, assertBool, Outcome.panic.injEq] at h
            refine ⟨h.symm, fun hc => ?_⟩
            obtain ⟨b, hb⟩ := allBool_get c0 now _ _ hc hget
            cases hb
          · simp [verdict, assertBool] at h
      | none =>
        cases hdec : env.DecodeBasicProxyAuthorization
            (env.ParseBasicProxyAuthorization request) with
        | none =>
          rw [authenticate_miss_undecodable env verify now request c0 hauth hcred hget hdec]
          obtain ⟨v1, v2, v3, v4⟩ := verdict_bool request
            (some (c0.Put now (env.ParseBasicProxyAuthorization request) (.bool false) Minute))
            [.cacheGet (env.ParseBasicProxyAuthorization request),
             .cachePut (env.ParseBasicProxyAuthorization request) (.bool false) Minute] false
          refine ⟨⟨_, v1, Or.inr ⟨_, _, rfl⟩⟩, fun msg h => absurd h (v2 msg), fun d h => ?_,
            fun key v ttl h => ?_⟩
          · exact ⟨[], by rw [v3 d h]; rfl⟩
          · have := v4 key v ttl h
            simp at this
            exact ⟨false, this.2.1⟩
        | some up =>
          obtain ⟨user, pass⟩ := up
          rw [authenticate_miss_decoded env verify now request c0 user pass hauth hcred hget
            hdec]
          obtain ⟨v1, v2, v3, v4⟩ := verdict_bool request
            (some (c0.Put now (env.ParseBasicProxyAuthorization request)
              (.bool (verify user pass)) Minute))
            [.cacheGet (env.ParseBasicProxyAuthorization request), .verify user pass,
             .cachePut (env.ParseBasicProxyAuthorization request) (.bool (verify user pass))
               Minute] (verify user pass)
          refine ⟨⟨_, v1, Or.inr ⟨_, _, rfl⟩⟩, fun msg h => absurd h (v2 msg), fun d h => ?_,
            fun key v ttl h => ?_⟩
          · exact ⟨[], by rw [v3 d h]; rfl⟩
          · have := v4 key v ttl h
            simp at this
            exact ⟨verify user pass, this.2.1⟩

theorem prepareResponse_panic (keepAlive : Bool) (u : Response) (msg : String)
    (h : prepareResponse keepAlive u = .panic msg) :
    msg = nilMapWrite ∧ u.Header = none := by
  cases hh : u.Header with
  | some m =>
    obtain ⟨out, ho⟩ := prepareResponse_of_header keepAlive u m hh
    rw [ho] at h
    cases h
  | none =>
    cases keepAlive
    · simp [prepareResponse] at h
    · simp only [prepareResponse, hh, RemoveHopByHopHeaders, Option.map_none', Header.Set,
        if_true, Outcome.panic.injEq] at h
      exact ⟨h.symm, rfl⟩

theorem writeResponse_panic (c : Cycle) (keepAlive trusted : Bool) (cache : Option Cache)
    (resp : Option Response) (msg : String)
    (h : (writeResponse c keepAlive trusted cache resp).next = .panic msg) :
    (resp = none ∧ msg = nilDereference) ∨
    (∃ u, resp = some u ∧ u.Header = none ∧ msg = nilMapWrite) := by
  cases resp with
  | none =>
    simp only [writeResponse, Next.panic.injEq] at h
    exact Or.inl ⟨rfl, h.symm⟩
  | some u =>
    cases hp : prepareResponse keepAlive u with
    | panic m1 =>
      simp only [writeResponse, hp, Next.panic.injEq] at h
      subst h
      obtain ⟨h1, h2⟩ := prepareResponse_panic keepAlive u m1 hp
      exact Or.inr ⟨u, rfl, h2, h1⟩
    | ret out =>
      simp only [writeResponse, hp] at h
      cases hw : c.writeOk <;> simp [hw] at h

theorem dispatch_panic (env : Env) (c : Cycle) (request1 : Request) (keepAlive : Bool)
    (cache : Option Cache) (msg : String)
    (h : (dispatch env c request1 keepAlive cache).next = .panic msg) :
    (msg = nilDereference ∨ msg = nilMapWrite) ∧ ¬ DoContract c := by
  rcases (dispatch_cases env c request1 keepAlive cache).2 with
    ⟨-, -, -, hn⟩ | ⟨-, -, -, hn⟩ | ⟨-, -, -, hn⟩ | ⟨-, -, -, hn⟩
  · rw [hn] at h; cases h
  · rw [hn] at h; cases h
  · rw [hn] at h
    rcases writeResponse_panic _ _ _ _ _ _ h with ⟨h1, -⟩ | ⟨u, h1, h2, -⟩
    · cases h1
    · cases h1
      cases h2
  · rw [hn] at h
    rcases writeResponse_panic _ _ _ _ _ _ h with ⟨h1, h3⟩ | ⟨u, h1, h2, h3⟩
    · refine ⟨Or.inl h3, fun hdo => ?_⟩
      obtain ⟨u, m, hf, -⟩ := forwarded_of_contract c (sanitize env request1) hdo
      rw [hf] at h1
      cases h1
    · refine ⟨Or.inr h3, fun hdo => ?_⟩
      obtain ⟨u1, m, hf, hh, -⟩ := forwarded_of_contract c (sanitize env request1) hdo
      rw [hf] at h1
      cases h1
      rw [hh] at h2
      cases h2

theorem body_cache (env : Env) (remoteAddr : String) (c : Cycle) (request : Request)
    (t : Bool) (cache : Option Cache) :
    (body env remoteAddr c request t cache).cache =
      if t then cache
      else (authenticate env c.now { request with RemoteAddr := remoteAddr } cache).cache := by
  cases t
  · simp only [Bool.false_eq_true, if_false]
    cases ha : (authenticate env c.now { request with RemoteAddr := remoteAddr } cache).ret with
    | panic msg => simp only [body, ha]; rfl
    | ret r =>
      cases r with
      | none =>
        simp only [body, ha]
        exact (dispatch_cases env c _ _ _).1
      | some denial =>
        simp only [body, ha]
        exact (writeResponse_cases _ _ _ _ _).1
  · exact (body_trusted env remoteAddr c request cache).2.2

theorem body_panic (env : Env) (remoteAddr : String) (c : Cycle) (request : Request)
    (t : Bool) (cache : Option Cache) (msg : String)
    (h : (body env remoteAddr c request t cache).next = .panic msg) :
    (t = false ∧
      (authenticate env c.now { request with RemoteAddr := remoteAddr } cache).ret
        = .panic msg) ∨
    ((msg = nilDereference ∨ msg = nilMapWrite) ∧ ¬ DoContract c) := by
  cases t
  · cases ha : (authenticate env c.now { request with RemoteAddr := remoteAddr } cache).ret with
    | panic m1 =>
      rw [(body_auth_panic env remoteAddr c request cache m1 ha).2] at h
      cases h
      exact Or.inl ⟨rfl, rfl⟩
    | ret r =>
      cases r with
      | none =>
        rw [(body_auth_nil env remoteAddr c request cache ha).2] at h
        exact Or.inr (dispatch_panic env c _ _ _ msg h)
      | some denial =>
        rw [(body_auth_denied env remoteAddr c request cache denial ha).2] at h
        exfalso
        have hd : ∃ m, denial.Header = some m := by
          cases cache with
          | some c0 => exact (authenticate_summary env c.now _ c0).2.2.1 denial ha
          | none =>
            cases hauth : env.Authenticator with
            | none =>
              rw [authenticate_no_authenticator env c.now _ none hauth] at ha
              cases ha
            | some verify =>
              by_cases hcred : env.ParseBasicProxyAuthorization
                  { request with RemoteAddr := remoteAddr } = ""
              · rw [authenticate_no_credential env verify c.now _ none hauth hcred] at ha
                simp only [Outcome.ret.injEq, Option.some.injEq] at ha
                exact ⟨_, by rw [← ha]; rfl⟩
              · rw [authenticate_nil_cache env verify c.now _ hauth hcred] at ha
                cases ha
        obtain ⟨m, hm⟩ := hd
        rcases writeResponse_panic _ _ _ _ _ _ h with ⟨h1, -⟩ | ⟨u, h1, h2, -⟩
        · cases h1
        · cases h1
          rw [hm] at h2
          cases h2
  · rw [(body_trusted env remoteAddr c request cache).2.1] at h
    exact Or.inr (dispatch_panic env c _ _ _ msg h)

theorem loop_panic_source (env : Env) (remoteAddr : String) (J : Cache → Prop)
    (hJ : ∀ now request c0 c1, J c0 →
      (authenticate env now request (some c0)).cache = some c1 → J c1) :
    ∀ (cs : List Cycle) (k t : Bool) (cache : Option Cache),
      (t = true ∨ ∃ c0, cache = some c0 ∧ J c0) →
      ∀ msg, (loop env remoteAddr cs k t cache).exit = .panicked msg →
        ((msg = nilDereference ∨ msg = nilMapWrite) ∧ ∃ c ∈ cs, ¬ DoContract c) ∨
        (msg = assertionFailure ∧ ∃ c0, J c0 ∧ ¬ c0.AllBool) := by
  intro cs
  induction cs with
  | nil =>
    intro k t cache _ msg h
    cases k
    · rw [loop_stop] at h; cases h
    · rw [loop_nil] at h; cases h
  | cons c cs ih =>
    intro k t cache hinv msg h
    cases k
    · rw [loop_stop] at h; cases h
    cases hr : c.read with
    | none => rw [loop_read_error env remoteAddr c cs t cache hr] at h; cases h
    | some request =>
      cases hn : (body env remoteAddr c request t cache).next with
      | proceed k1 t1 =>
        rw [loop_continue env remoteAddr c cs t cache request k1 t1 hr hn] at h
        have hinv1 : t1 = true ∨
            ∃ c1, (body env remoteAddr c request t cache).cache = some c1 ∧ J c1 := by
          cases t
          · rcases hinv with ht | ⟨c0, hc, hj⟩
            · cases ht
            · subst hc
              obtain ⟨⟨c1, h1, -⟩, -⟩ := authenticate_summary env c.now
                { request with RemoteAddr := remoteAddr } c0
              refine Or.inr ⟨c1, ?_, hJ _ _ c0 c1 hj h1⟩
              rw [body_cache]
              exact h1
          · exact Or.inl (body_trusted_stays env remoteAddr c request cache k1 t1 hn)
        rcases ih k1 t1 _ hinv1 msg h with ⟨h1, c2, hc2, h2⟩ | h1
        · exact Or.inl ⟨h1, c2, List.mem_cons_of_mem _ hc2, h2⟩
        · exact Or.inr h1
      | close =>
        rw [loop_close env remoteAddr c cs t cache request hr hn] at h; cases h
      | hijack =>
        rw [loop_hijack env remoteAddr c cs t cache request hr hn] at h; cases h
      | panic m1 =>
        rw [loop_panic env remoteAddr c cs t cache request m1 hr hn] at h
        cases h
        rcases body_panic env remoteAddr c request t cache msg hn with ⟨ht, ha⟩ | ⟨h1, h2⟩
        · subst ht
          rcases hinv with ht | ⟨c0, hc, hj⟩
          · cases ht
          · subst hc
            obtain ⟨-, hp, -⟩ := authenticate_summary env c.now
              { request with RemoteAddr := remoteAddr } c0
            exact Or.inr ⟨(hp msg ha).1, c0, hj, (hp msg ha).2⟩
        · exact Or.inl ⟨h1, c, List.mem_cons_self _ _, h2⟩

theorem authenticate_nil_cache_summary (env : Env) (now : Nat) (request : Request) :
    (authenticate env now request none).events = [] ∧
    (authenticate env now request none).cache = none ∧
    (∀ d, (authenticate env now request none).ret = .ret (some d) → ∃ m, d.Header = some m) := by
  cases hauth : env.Authenticator with
  | none =>
    rw [authenticate_no_authenticator env now request none hauth]
    exact ⟨rfl, rfl, fun d h => by cases h⟩
  | some verify =>
    by_cases hcred : env.ParseBasicProxyAuthorization request = ""
    · rw [authenticate_no_credential env verify now request none hauth hcred]
      refine ⟨rfl, rfl, fun d h => ?_⟩
      simp only [Outcome.ret.injEq, Option.some.injEq] at h
      exact ⟨_, by rw [← h]; rfl⟩
    · rw [authenticate_nil_cache env verify now request hauth hcred]
      exact ⟨rfl, rfl, fun d h => by cases h⟩

theorem authenticate_denial_header (env : Env) (now : Nat) (request : Request)
    (cache : Option Cache) (d : Response)
    (h : (authenticate env now request cache).ret = .ret (some d)) :
    ∃ m, d.Header = some m := by
  cases cache with
  | none => exact (authenticate_nil_cache_summary env now request).2.2 d h
  | some c0 => exact (authenticate_summary env now request c0).2.2.1 d h

theorem authenticate_allBool (env : Env) (now : Nat) (request : Request) (c0 : Cache)
    (hc : c0.AllBool) :
    ∃ c1, (authenticate env now request (some c0)).cache = some c1 ∧ c1.AllBool := by
  obtain ⟨⟨c1, h1, h2⟩, -⟩ := authenticate_summary env now request c0
  refine ⟨c1, h1, ?_⟩
  rcases h2 with rfl | ⟨key, b, rfl⟩
  · exact hc
  · exact allBool_put c0 now key b Minute hc

theorem loop_allBool (env : Env) (remoteAddr : String) :
    ∀ (cs : List Cycle) (k t : Bool) (c0 : Cache), c0.AllBool →
      ∃ c1, (loop env remoteAddr cs k t (some c0)).cache = some c1 ∧ c1.AllBool := by
  intro cs
  induction cs with
  | nil =>
    intro k t c0 hc
    cases k
    · rw [loop_stop]; exact ⟨c0, rfl, hc⟩
    · rw [loop_nil]; exact ⟨c0, rfl, hc⟩
  | cons c cs ih =>
    intro k t c0 hc
    cases k
    · rw [loop_stop]; exact ⟨c0, rfl, hc⟩
    cases hr : c.read with
    | none => rw [loop_read_error env remoteAddr c cs t _ hr]; exact ⟨c0, rfl, hc⟩
    | some request =>
      have hb : ∃ c1, (body env remoteAddr c request t (some c0)).cache = some c1 ∧
          c1.AllBool := by
        rw [body_cache]
        cases t
        · exact authenticate_allBool env c.now _ c0 hc
        · exact ⟨c0, rfl, hc⟩
      obtain ⟨c1, h1, h2⟩ := hb
      cases hn : (body env remoteAddr c request t (some c0)).next with
      | proceed k1 t1 =>
        rw [loop_continue env remoteAddr c cs t _ request k1 t1 hr hn]
        simp only [h1]
        exact ih k1 t1 c1 h2
      | close =>
        rw [loop_close env remoteAddr c cs t _ request hr hn]
        exact ⟨c1, h1, h2⟩
      | hijack =>
        rw [loop_hijack env remoteAddr c cs t _ request hr hn]
        exact ⟨c1, h1, h2⟩
      | panic msg =>
        rw [loop_panic env remoteAddr c cs t _ request msg hr hn]
        exact ⟨c1, h1, h2⟩

/-- C19.  The response variable is not nil where lines 79-87 use it, given that
the outbound client keeps the contract of `DoContract` (no error means a
response that is not nil, with a header map that is not nil).  The three ways to
reach line 79 carry a response with a header map: the denial that
`authenticate` returned, the 400 and the 502 of `responseWith`, and the response
of the outbound client.  So under the contract a pass panics only inside
`authenticate`, and a run of `HandleConn` never panics with a nil dereference or
a write to a nil map: the one panic left is the failed type assertion on a value
of the cache. -/
theorem response_is_never_nil (env : Env) (remoteAddr : String) :
    (∀ (now : Nat) (request : Request) (cache : Option Cache) (d : Response),
      (authenticate env now request cache).ret = .ret (some d) → ∃ m, d.Header = some m) ∧
    ((responseWith StatusBadRequest).Header = some [] ∧
      (responseWith StatusBadGateway).Header = some []) ∧
    (∀ (c : Cycle) (r : Request), DoContract c →
      ∃ u m, forwarded c r = some u ∧ u.Header = some m) ∧
    (∀ (c : Cycle) (request : Request) (t : Bool) (cache : Option Cache) (msg : String),
      DoContract c → (body env remoteAddr c request t cache).next = .panic msg →
      t = false ∧
      (authenticate env c.now { request with RemoteAddr := remoteAddr } cache).ret
        = .panic msg) ∧
    (∀ (cycles : List Cycle) (cache : Option Cache) (msg : String),
      (∀ c ∈ cycles, DoContract c) →
      (HandleConn env remoteAddr cycles cache).exit = .panicked msg →
      msg = assertionFailure ∧ msg ≠ nilDereference ∧ msg ≠ nilMapWrite) := by
  refine ⟨authenticate_denial_header env, ⟨rfl, rfl⟩, ?_, ?_, ?_⟩
  · intro c r hdo
    obtain ⟨u, m, h1, h2, -⟩ := forwarded_of_contract c r hdo
    exact ⟨u, m, h1, h2⟩
  · intro c request t cache msg hdo h
    rcases body_panic env remoteAddr c request t cache msg h with h1 | ⟨-, h2⟩
    · exact h1
    · exact absurd hdo h2
  · intro cycles cache msg hdo h
    have hinv : cache.isNone = true ∨ ∃ c0, cache = some c0 ∧ True := by
      cases cache with
      | none => exact Or.inl rfl
      | some c0 => exact Or.inr ⟨c0, rfl, trivial⟩
    rcases loop_panic_source env remoteAddr (fun _ => True) (fun _ _ _ _ _ _ => trivial)
        cycles true cache.isNone cache hinv msg h with ⟨-, c, hc, h2⟩ | ⟨h1, -⟩
    · exact absurd (hdo c hc) h2
    · rw [h1]
      exact ⟨rfl, by decide, by decide⟩

/-- Without the contract the nil response is reached: an outbound client that
returns neither a response nor an error makes the run panic at line 79. -/
theorem nil_upstream_response_panics :
    (HandleConn openEnv sampleAddr
        [{ read := some getPlain, now := 0, Do := nilUpstream, writeOk := true }] none).exit
      = .panicked nilDereference := by
  decide

/-- C20.  The type assertion on the verdict does not fail on a cache that holds
only booleans, and `authenticate` keeps the cache so.  Every `Put` of
`authenticate` stores a boolean.  When every value of the cache is a boolean,
the cache after a call is not nil and again holds only booleans, the call does
not panic, and a value read from the cache is a boolean; the empty cache holds
only booleans.  A whole run of `HandleConn` on such a cache leaves such a cache,
and a run on such a cache, or with a nil cache, never panics with the failed
type assertion. -/
theorem verdict_assertion_never_fails (env : Env) :
    (∀ (now : Nat) (request : Request) (cache : Option Cache) (key : String) (v : Any)
        (ttl : Nat),
      Event.cachePut key v ttl ∈ (authenticate env now request cache).events →
      ∃ b, v = .bool b) ∧
    (∀ (now : Nat) (request : Request) (c0 : Cache), c0.AllBool →
      ∃ c1, (authenticate env now request (some c0)).cache = some c1 ∧ c1.AllBool) ∧
    (∀ (now : Nat) (request : Request) (c0 : Cache), c0.AllBool →
      ∀ msg, (authenticate env now request (some c0)).ret ≠ .panic msg) ∧
    (∀ (c0 : Cache) (now : Nat) (key : String) (v : Any), c0.AllBool →
      c0.Get now key = some v → ∃ b, v = .bool b) ∧
    emptyCache.AllBool ∧
    (∀ (remoteAddr : String) (cycles : List Cycle) (c0 : Cache), c0.AllBool →
      ∃ c1, (HandleConn env remoteAddr cycles (some c0)).cache = some c1 ∧ c1.AllBool) ∧
    (∀ (remoteAddr : String) (cycles : List Cycle) (cache : Option Cache) (msg : String),
      (cache = none ∨ ∃ c0, cache = some c0 ∧ c0.AllBool) →
      (HandleConn env remoteAddr cycles cache).exit = .panicked msg →
      msg ≠ assertionFailure) := by
  refine ⟨?_, ?_, ?_, ?_, ?_, ?_, ?_⟩
  · intro now request cache key v ttl h
    cases cache with
    | none =>
      rw [(authenticate_nil_cache_summary env now request).1] at h
      simp at h
    | some c0 => exact (authenticate_summary env now request c0).2.2.2 key v ttl h
  · intro now request c0 hc
    exact authenticate_allBool env now request c0 hc
  · intro now request c0 hc msg h
    exact ((authenticate_summary env now request c0).2.1 msg h).2 hc
  · intro c0 now key v hc h
    exact allBool_get c0 now key v hc h
  · intro kv hkv
    simp [emptyCache] at hkv
  · intro remoteAddr cycles c0 hc
    exact loop_allBool env remoteAddr cycles true _ c0 hc
  · intro remoteAddr cycles cache msg hc h hmsg
    have hinv : cache.isNone = true ∨ ∃ c0, cache = some c0 ∧ c0.AllBool := by
      rcases hc with rfl | h1
      · exact Or.inl rfl
      · exact Or.inr h1
    rcases loop_panic_source env remoteAddr Cache.AllBool
        (fun now request c0 c1 hj h1 => by
          obtain ⟨c2, h2, h3⟩ := authenticate_allBool env now request c0 hj
          rw [h1] at h2
          cases h2
          exact h3)
        cycles true cache.isNone cache hinv msg h with ⟨h1, -⟩ | ⟨-, c0, h2, h3⟩
    · rw [hmsg] at h1
      revert h1
      decide
    · exact h3 h2

/-- Without the invariant the assertion fails: on a cache that holds a value
that is no boolean under the credential of the request, `authenticate` panics. -/
theorem polluted_cache_fails_assertion :
    ¬ pollutedCache.AllBool ∧
    (authenticate sampleEnv 0 getAlice (some pollutedCache)).ret = .panic assertionFailure := by
  refine ⟨fun h => ?_, by decide⟩
  obtain ⟨b, hb⟩ := h ("YWxpY2U6c2VjcmV0", ⟨.other "string", Minute⟩) (by simp [pollutedCache])
  cases hb

end Clash
